import Mathlib

/-!
# tenv: populating a record from environment variables

A shallow embedding of `tenv.go` (package `envconfig`): the reflection walk
`CollectFieldInfo`, the binder `PopulateFromEnv` and the scalar conversion
`ConvertAndSetField`, with the parts of the Go standard library they call
(`strings.ToUpper`, `strconv.ParseInt`, `strconv.ParseUint`,
`strconv.ParseBool`, `os.LookupEnv`, `fmt.Errorf`).

Modelling decisions:
* A Go value is a finite tree (`Value`); a pointer owns its target, so two
  fields never share a target, and a struct type is a finite tree as well.
* A `reflect.Value` that refers to a field is a location (`Ref`): the field
  index and the number of pointer dereferences below it.
* The process environment is a function from names to optional values.
* A Go string is a `String`, read character by character where Go reads bytes;
  `strconv` rejects a character outside ASCII as it rejects each of its bytes.
* `strings.ToUpper` maps every rune with `unicode.ToUpper`, over the Unicode
  table of upper-case forms (`CaseRanges`, Unicode 14.0): `café` becomes `CAFÉ`.
* Machine integers are `Nat`/`Int` with explicit wrap-around.
* `strconv.ParseFloat` is a parameter of the model (`ParseFloat`): a float is
  represented by the bit pattern the parser returns.
* A field name is a `String`; Go does not allow it to be empty, and the one
  statement that needs this (the key is not empty) says so.
-/

set_option autoImplicit false

namespace Tenv

/-! ## Go standard library -/

/-- The constant `unicode.MaxRune`: the largest Unicode code point. -/
def MaxRune : Int := 0x10FFFF

/-- The constant `unicode.MaxASCII`. -/
def MaxASCII : Nat := 0x7F

/-- The constant `unicode.UpperLower`: the `Delta` of a row of `CaseRanges` in
which upper- and lower-case letters alternate, starting with an upper-case
letter at `Lo`. -/
def UpperLower : Int := MaxRune + 1

/-- A row of the table `unicode.CaseRanges`, with the `UpperCase` entry of its
`Delta`: the number to add to a rune of `Lo`..`Hi` to reach its upper-case
form, or `UpperLower`. -/
structure CaseRange where
  Lo : Nat
  Hi : Nat
  Delta : Int
deriving DecidableEq, Repr

/-- The table `unicode.CaseRanges`, reduced to the rows that hold a rune whose
upper-case form differs from the rune, in ascending order. The table belongs to
the Go library, which generates it from the simple upper-case mappings of the
Unicode Character Database (`UnicodeData.txt`); the rows below are those
mappings as of Unicode 14.0, one row for each maximal run of runes with the same
`Delta`: `é` (0xE9) lies in the row 0xE0..0xF6 and moves by -32 to `É`, `ÿ`
(0xFF) moves by 121 to `Ÿ`, and `ß` (0xDF), which has no upper-case form of one
rune, is in no row. -/
def CaseRanges : List CaseRange :=
  [CaseRange.mk 0x0061 0x007A (-32), CaseRange.mk 0x00B5 0x00B5 743,
   CaseRange.mk 0x00E0 0x00F6 (-32), CaseRange.mk 0x00F8 0x00FE (-32),
   CaseRange.mk 0x00FF 0x00FF 121, CaseRange.mk 0x0100 0x012F UpperLower,
   CaseRange.mk 0x0131 0x0131 (-232), CaseRange.mk 0x0132 0x0137 UpperLower,
   CaseRange.mk 0x0139 0x0148 UpperLower, CaseRange.mk 0x014A 0x0177 UpperLower,
   CaseRange.mk 0x0179 0x017E UpperLower, CaseRange.mk 0x017F 0x017F (-300),
   CaseRange.mk 0x0180 0x0180 195, CaseRange.mk 0x0182 0x0185 UpperLower,
   CaseRange.mk 0x0188 0x0188 (-1), CaseRange.mk 0x018C 0x018C (-1),
   CaseRange.mk 0x0192 0x0192 (-1), CaseRange.mk 0x0195 0x0195 97,
   CaseRange.mk 0x0199 0x0199 (-1), CaseRange.mk 0x019A 0x019A 163,
   CaseRange.mk 0x019E 0x019E 130, CaseRange.mk 0x01A0 0x01A5 UpperLower,
   CaseRange.mk 0x01A8 0x01A8 (-1), CaseRange.mk 0x01AD 0x01AD (-1),
   CaseRange.mk 0x01B0 0x01B0 (-1), CaseRange.mk 0x01B3 0x01B6 UpperLower,
   CaseRange.mk 0x01B9 0x01B9 (-1), CaseRange.mk 0x01BD 0x01BD (-1),
   CaseRange.mk 0x01BF 0x01BF 56, CaseRange.mk 0x01C5 0x01C5 (-1),
   CaseRange.mk 0x01C6 0x01C6 (-2), CaseRange.mk 0x01C8 0x01C8 (-1),
   CaseRange.mk 0x01C9 0x01C9 (-2), CaseRange.mk 0x01CB 0x01CB (-1),
   CaseRange.mk 0x01CC 0x01CC (-2), CaseRange.mk 0x01CD 0x01DC UpperLower,
   CaseRange.mk 0x01DD 0x01DD (-79), CaseRange.mk 0x01DE 0x01EF UpperLower,
   CaseRange.mk 0x01F2 0x01F2 (-1), CaseRange.mk 0x01F3 0x01F3 (-2),
   CaseRange.mk 0x01F5 0x01F5 (-1), CaseRange.mk 0x01F8 0x021F UpperLower,
   CaseRange.mk 0x0222 0x0233 UpperLower, CaseRange.mk 0x023C 0x023C (-1),
   CaseRange.mk 0x023F 0x0240 10815, CaseRange.mk 0x0242 0x0242 (-1),
   CaseRange.mk 0x0246 0x024F UpperLower, CaseRange.mk 0x0250 0x0250 10783,
   CaseRange.mk 0x0251 0x0251 10780, CaseRange.mk 0x0252 0x0252 10782,
   CaseRange.mk 0x0253 0x0253 (-210), CaseRange.mk 0x0254 0x0254 (-206),
   CaseRange.mk 0x0256 0x0257 (-205), CaseRange.mk 0x0259 0x0259 (-202),
   CaseRange.mk 0x025B 0x025B (-203), CaseRange.mk 0x025C 0x025C 42319,
   CaseRange.mk 0x0260 0x0260 (-205), CaseRange.mk 0x0261 0x0261 42315,
   CaseRange.mk 0x0263 0x0263 (-207), CaseRange.mk 0x0265 0x0265 42280,
   CaseRange.mk 0x0266 0x0266 42308, CaseRange.mk 0x0268 0x0268 (-209),
   CaseRange.mk 0x0269 0x0269 (-211), CaseRange.mk 0x026A 0x026A 42308,
   CaseRange.mk 0x026B 0x026B 10743, CaseRange.mk 0x026C 0x026C 42305,
   CaseRange.mk 0x026F 0x026F (-211), CaseRange.mk 0x0271 0x0271 10749,
   CaseRange.mk 0x0272 0x0272 (-213), CaseRange.mk 0x0275 0x0275 (-214),
   CaseRange.mk 0x027D 0x027D 10727, CaseRange.mk 0x0280 0x0280 (-218),
   CaseRange.mk 0x0282 0x0282 42307, CaseRange.mk 0x0283 0x0283 (-218),
   CaseRange.mk 0x0287 0x0287 42282, CaseRange.mk 0x0288 0x0288 (-218),
   CaseRange.mk 0x0289 0x0289 (-69), CaseRange.mk 0x028A 0x028B (-217),
   CaseRange.mk 0x028C 0x028C (-71), CaseRange.mk 0x0292 0x0292 (-219),
   CaseRange.mk 0x029D 0x029D 42261, CaseRange.mk 0x029E 0x029E 42258,
   CaseRange.mk 0x0345 0x0345 84, CaseRange.mk 0x0370 0x0373 UpperLower,
   CaseRange.mk 0x0377 0x0377 (-1), CaseRange.mk 0x037B 0x037D 130,
   CaseRange.mk 0x03AC 0x03AC (-38), CaseRange.mk 0x03AD 0x03AF (-37),
   CaseRange.mk 0x03B1 0x03C1 (-32), CaseRange.mk 0x03C2 0x03C2 (-31),
   CaseRange.mk 0x03C3 0x03CB (-32), CaseRange.mk 0x03CC 0x03CC (-64),
   CaseRange.mk 0x03CD 0x03CE (-63), CaseRange.mk 0x03D0 0x03D0 (-62),
   CaseRange.mk 0x03D1 0x03D1 (-57), CaseRange.mk 0x03D5 0x03D5 (-47),
   CaseRange.mk 0x03D6 0x03D6 (-54), CaseRange.mk 0x03D7 0x03D7 (-8),
   CaseRange.mk 0x03D8 0x03EF UpperLower, CaseRange.mk 0x03F0 0x03F0 (-86),
   CaseRange.mk 0x03F1 0x03F1 (-80), CaseRange.mk 0x03F2 0x03F2 7,
   CaseRange.mk 0x03F3 0x03F3 (-116), CaseRange.mk 0x03F5 0x03F5 (-96),
   CaseRange.mk 0x03F8 0x03F8 (-1), CaseRange.mk 0x03FB 0x03FB (-1),
   CaseRange.mk 0x0430 0x044F (-32), CaseRange.mk 0x0450 0x045F (-80),
   CaseRange.mk 0x0460 0x0481 UpperLower, CaseRange.mk 0x048A 0x04BF UpperLower,
   CaseRange.mk 0x04C1 0x04CE UpperLower, CaseRange.mk 0x04CF 0x04CF (-15),
   CaseRange.mk 0x04D0 0x052F UpperLower, CaseRange.mk 0x0561 0x0586 (-48),
   CaseRange.mk 0x10D0 0x10FA 3008, CaseRange.mk 0x10FD 0x10FF 3008,
   CaseRange.mk 0x13F8 0x13FD (-8), CaseRange.mk 0x1C80 0x1C80 (-6254),
   CaseRange.mk 0x1C81 0x1C81 (-6253), CaseRange.mk 0x1C82 0x1C82 (-6244),
   CaseRange.mk 0x1C83 0x1C84 (-6242), CaseRange.mk 0x1C85 0x1C85 (-6243),
   CaseRange.mk 0x1C86 0x1C86 (-6236), CaseRange.mk 0x1C87 0x1C87 (-6181),
   CaseRange.mk 0x1C88 0x1C88 35266, CaseRange.mk 0x1D79 0x1D79 35332,
   CaseRange.mk 0x1D7D 0x1D7D 3814, CaseRange.mk 0x1D8E 0x1D8E 35384,
   CaseRange.mk 0x1E00 0x1E95 UpperLower, CaseRange.mk 0x1E9B 0x1E9B (-59),
   CaseRange.mk 0x1EA0 0x1EFF UpperLower, CaseRange.mk 0x1F00 0x1F07 8,
   CaseRange.mk 0x1F10 0x1F15 8, CaseRange.mk 0x1F20 0x1F27 8,
   CaseRange.mk 0x1F30 0x1F37 8, CaseRange.mk 0x1F40 0x1F45 8,
   CaseRange.mk 0x1F51 0x1F51 8, CaseRange.mk 0x1F53 0x1F53 8,
   CaseRange.mk 0x1F55 0x1F55 8, CaseRange.mk 0x1F57 0x1F57 8,
   CaseRange.mk 0x1F60 0x1F67 8, CaseRange.mk 0x1F70 0x1F71 74,
   CaseRange.mk 0x1F72 0x1F75 86, CaseRange.mk 0x1F76 0x1F77 100,
   CaseRange.mk 0x1F78 0x1F79 128, CaseRange.mk 0x1F7A 0x1F7B 112,
   CaseRange.mk 0x1F7C 0x1F7D 126, CaseRange.mk 0x1F80 0x1F87 8,
   CaseRange.mk 0x1F90 0x1F97 8, CaseRange.mk 0x1FA0 0x1FA7 8,
   CaseRange.mk 0x1FB0 0x1FB1 8, CaseRange.mk 0x1FB3 0x1FB3 9,
   CaseRange.mk 0x1FBE 0x1FBE (-7205), CaseRange.mk 0x1FC3 0x1FC3 9,
   CaseRange.mk 0x1FD0 0x1FD1 8, CaseRange.mk 0x1FE0 0x1FE1 8,
   CaseRange.mk 0x1FE5 0x1FE5 7, CaseRange.mk 0x1FF3 0x1FF3 9,
   CaseRange.mk 0x214E 0x214E (-28), CaseRange.mk 0x2170 0x217F (-16),
   CaseRange.mk 0x2184 0x2184 (-1), CaseRange.mk 0x24D0 0x24E9 (-26),
   CaseRange.mk 0x2C30 0x2C5F (-48), CaseRange.mk 0x2C61 0x2C61 (-1),
   CaseRange.mk 0x2C65 0x2C65 (-10795), CaseRange.mk 0x2C66 0x2C66 (-10792),
   CaseRange.mk 0x2C67 0x2C6C UpperLower, CaseRange.mk 0x2C73 0x2C73 (-1),
   CaseRange.mk 0x2C76 0x2C76 (-1), CaseRange.mk 0x2C80 0x2CE3 UpperLower,
   CaseRange.mk 0x2CEB 0x2CEE UpperLower, CaseRange.mk 0x2CF3 0x2CF3 (-1),
   CaseRange.mk 0x2D00 0x2D25 (-7264), CaseRange.mk 0x2D27 0x2D27 (-7264),
   CaseRange.mk 0x2D2D 0x2D2D (-7264), CaseRange.mk 0xA640 0xA66D UpperLower,
   CaseRange.mk 0xA680 0xA69B UpperLower, CaseRange.mk 0xA722 0xA72F UpperLower,
   CaseRange.mk 0xA732 0xA76F UpperLower, CaseRange.mk 0xA779 0xA77C UpperLower,
   CaseRange.mk 0xA77E 0xA787 UpperLower, CaseRange.mk 0xA78C 0xA78C (-1),
   CaseRange.mk 0xA790 0xA793 UpperLower, CaseRange.mk 0xA794 0xA794 48,
   CaseRange.mk 0xA796 0xA7A9 UpperLower, CaseRange.mk 0xA7B4 0xA7C3 UpperLower,
   CaseRange.mk 0xA7C7 0xA7CA UpperLower, CaseRange.mk 0xA7D1 0xA7D1 (-1),
   CaseRange.mk 0xA7D6 0xA7D9 UpperLower, CaseRange.mk 0xA7F6 0xA7F6 (-1),
   CaseRange.mk 0xAB53 0xAB53 (-928), CaseRange.mk 0xAB70 0xABBF (-38864),
   CaseRange.mk 0xFF41 0xFF5A (-32), CaseRange.mk 0x10428 0x1044F (-40),
   CaseRange.mk 0x104D8 0x104FB (-40), CaseRange.mk 0x10597 0x105A1 (-39),
   CaseRange.mk 0x105A3 0x105B1 (-39), CaseRange.mk 0x105B3 0x105B9 (-39),
   CaseRange.mk 0x105BB 0x105BC (-39), CaseRange.mk 0x10CC0 0x10CF2 (-64),
   CaseRange.mk 0x118C0 0x118DF (-32), CaseRange.mk 0x16E60 0x16E7F (-32),
   CaseRange.mk 0x1E922 0x1E943 (-34)]

/-- The mapping of a rune `r` of the row `cr`, as in `unicode.to`: in an
`UpperLower` row the rune `Lo + ((r - Lo) &^ 1)`, otherwise `r + Delta`. -/
def toCase (cr : CaseRange) (r : Nat) : Nat :=
  if cr.Delta > MaxRune then cr.Lo + (r - cr.Lo) / 2 * 2
  else ((r : Int) + cr.Delta).toNat

/-- Models `unicode.To(unicode.UpperCase, r)` over a table: the row that holds
`r` maps it, and a rune in no row is returned as it is. Go finds the row by
binary search; the rows are disjoint and ascending, so a search from the front
finds the same row. -/
def To : List CaseRange → Nat → Nat
  | [], r => r
  | cr :: rest, r => if cr.Lo ≤ r ∧ r ≤ cr.Hi then toCase cr r else To rest r

/-- Models `unicode.ToUpper`: an ASCII rune is mapped directly (`a`..`z` move to
`A`..`Z`, every other ASCII rune is kept), any other rune through
`CaseRanges`. -/
def unicodeToUpper (c : Char) : Char :=
  if c.toNat ≤ MaxASCII then
    if 'a'.toNat ≤ c.toNat ∧ c.toNat ≤ 'z'.toNat then
      Char.ofNat (c.toNat - ('a'.toNat - 'A'.toNat))
    else c
  else Char.ofNat (To CaseRanges c.toNat)

/-- Models `strings.ToUpper`: every rune of `s` is replaced by its upper-case
form `unicode.ToUpper`. Go maps a string of ASCII bytes byte by byte and any
other string with `strings.Map(unicode.ToUpper, s)`; both give the rune-wise
map. A `String` is a sequence of Unicode scalar values, so text that is not
valid UTF-8 is outside the model. -/
def ToUpper (s : String) : String := ⟨s.data.map unicodeToUpper⟩

/-- Decides that the rows of a table are ascending and disjoint: each row starts
after `prev` and ends no earlier than it starts, and the next starts after its
end. -/
def ascending : Nat → List CaseRange → Bool
  | _, [] => true
  | prev, cr :: rest =>
    Nat.blt prev cr.Lo && (Nat.ble cr.Lo cr.Hi && ascending cr.Hi rest)

/-- Decides that no row of a table holds a rune of `a`..`b`. -/
def freeIn (a b : Nat) : List CaseRange → Bool
  | [] => true
  | cr :: rest => (Nat.blt b cr.Lo || Nat.blt cr.Hi a) && freeIn a b rest

/-- Decides that every number of `a`..`b` is a Unicode scalar value. -/
def validRange (a b : Nat) : Bool :=
  Nat.blt b 0xd800 || (Nat.blt 0xdfff a && Nat.blt b 0x110000)

/-- Decides that the runes a row maps to are scalar values that the table maps
to themselves: an `UpperLower` row maps into itself; the images of any other row
lie in no row, or the row has one rune and the table is run on its image. -/
def rowFixed (T : List CaseRange) (cr : CaseRange) : Bool :=
  if cr.Delta > MaxRune then validRange cr.Lo cr.Hi
  else validRange (toCase cr cr.Lo) (toCase cr cr.Hi) &&
    (freeIn (toCase cr cr.Lo) (toCase cr cr.Hi) T ||
      (Nat.beq cr.Lo cr.Hi && Nat.beq (To T (toCase cr cr.Lo)) (toCase cr cr.Lo)))

/-- Decides `ascending` and `rowFixed` for every row of a table. -/
def tableFixed (T : List CaseRange) : Bool := ascending 0 T && T.all (rowFixed T)

/-- A Go `error` value: `New` for `errors.New` and `fmt.Errorf` without `%w`,
`Wrap` for `fmt.Errorf` with a `%w` verb (the formatted message and the wrapped
error). -/
inductive GoError where
  | New (msg : String)
  | Wrap (msg : String) (err : GoError)
deriving DecidableEq, Repr

/-- The method `Error()` of an error: its message. -/
def GoError.Error : GoError → String
  | .New msg => msg
  | .Wrap msg _ => msg

/-- The process environment: `none` for a variable that is not set. -/
abbrev Env := String → Option String

/-- Models `os.LookupEnv`: the value and whether the variable is present. -/
def LookupEnv (env : Env) (key : String) : String × Bool :=
  match env key with
  | some v => (v, true)
  | none => ("", false)

/-! ### strconv -/

/-- The error classes of `strconv.NumError`. -/
inductive NumError where
  | ErrSyntax
  | ErrRange
  | ErrBase
  | ErrBitSize
deriving DecidableEq, Repr

/-- The constant `strconv.IntSize` (64-bit platform). -/
def IntSize : Nat := 64

/-- The constant `maxUint64 = 1<<64 - 1`. -/
def maxUint64 : Nat := 2 ^ 64 - 1

/-- The helper `lower(c) = c | ('x' - 'X')` of strconv. -/
def lower (c : Nat) : Nat := c ||| 0x20

/-- Conversion `int64(x)` and arithmetic in a signed type of `bits` bits:
the representative of `x` modulo `2^bits` in `[-2^(bits-1), 2^(bits-1))`. -/
def wrapInt (bits : Nat) (x : Int) : Int :=
  (x + 2 ^ (bits - 1)) % 2 ^ bits - 2 ^ (bits - 1)

/-- The switch on the byte `c` in the loop of `strconv.ParseUint` that gives the
digit `d`: `c - '0'` for a decimal digit, `lower(c) - 'a' + 10` for a letter,
`none` for the `default` case (a syntax error). -/
def digitOf (c : Nat) : Option Nat :=
  if 48 ≤ c ∧ c ≤ 57 then some (c - 48)
  else if 97 ≤ lower c ∧ lower c ≤ 122 then some (lower c - 97 + 10)
  else none

/-- The digit loop of `strconv.ParseUint` (`for _, c := range []byte(s)`), with
the accumulator `n` and the flag `underscores`. An error carries the value
returned with it. Bytes are the code points of the characters; a rune outside
ASCII is rejected here exactly as each of its bytes is rejected in Go. -/
def parseUintLoop (base : Nat) (base0 : Bool) (cutoff maxVal : Nat) :
    List Char → Nat → Bool → Except (Nat × NumError) (Nat × Bool)
  | [], n, underscores => .ok (n, underscores)
  | ch :: rest, n, underscores =>
    let c := ch.toNat
    if c = 95 ∧ base0 = true then
      parseUintLoop base base0 cutoff maxVal rest n true
    else
      match digitOf c with
      | none => .error (0, .ErrSyntax)
      | some d =>
        if d ≥ base % 256 then .error (0, .ErrSyntax)
        else if n ≥ cutoff then .error (maxVal, .ErrRange)
        else
          let n0 := (n * base) % 2 ^ 64
          let n1 := (n0 + d) % 2 ^ 64
          if n1 < n0 ∨ n1 > maxVal then .error (maxVal, .ErrRange)
          else parseUintLoop base base0 cutoff maxVal rest n1 underscores

/-- The loop of `strconv.underscoreOK` over the number proper; `i` is the class
of the previous character (`0` digit, `_` underscore, `!` other, `^` start). -/
def underscoreOKLoop (hex : Bool) : List Char → Char → Bool
  | [], i => i != '_'
  | ch :: rest, i =>
    let c := ch.toNat
    if (48 ≤ c ∧ c ≤ 57) ∨ (hex = true ∧ 97 ≤ lower c ∧ lower c ≤ 102) then
      underscoreOKLoop hex rest '0'
    else if c = 95 then
      if i != '0' then false else underscoreOKLoop hex rest '_'
    else if i = '_' then false
    else underscoreOKLoop hex rest '!'

/-- Models `strconv.underscoreOK`: underscores only between digits or between a
base prefix and a digit. -/
def underscoreOK (s : List Char) : Bool :=
  let s1 := match s with
    | ch :: rest => if ch = '-' ∨ ch = '+' then rest else s
    | [] => s
  match s1 with
  | c0 :: c1 :: rest =>
    if c0 = '0' ∧ (lower c1.toNat = 98 ∨ lower c1.toNat = 111 ∨ lower c1.toNat = 120) then
      underscoreOKLoop (lower c1.toNat = 120) rest '0'
    else underscoreOKLoop false s1 '^'
  | _ => underscoreOKLoop false s1 '^'

/-- The prefix switch of `ParseUint` for `base == 0`: the detected base and the
digits that remain. -/
def detectBase (s : List Char) : Nat × List Char :=
  match s with
  | c0 :: rest =>
    if c0 = '0' then
      match rest with
      | c1 :: _ :: _ =>
        if lower c1.toNat = 98 then (2, rest.tail)
        else if lower c1.toNat = 111 then (8, rest.tail)
        else if lower c1.toNat = 120 then (16, rest.tail)
        else (8, rest)
      | _ => (8, rest)
    else (10, s)
  | [] => (10, s)

/-- Models `strconv.ParseUint(s, base, bitSize)`: the value returned and the
error class, if any. -/
def ParseUint (s : List Char) (base bitSize : Nat) : Nat × Option NumError :=
  if s = [] then (0, some .ErrSyntax)
  else
    let base0 : Bool := base = 0
    let sel : Option (Nat × List Char) :=
      if 2 ≤ base ∧ base ≤ 36 then some (base, s)
      else if base = 0 then some (detectBase s)
      else none
    match sel with
    | none => (0, some .ErrBase)
    | some (b, digits) =>
      if bitSize > 64 then (0, some .ErrBitSize)
      else
        let bits := if bitSize = 0 then IntSize else bitSize
        let cutoff := maxUint64 / b + 1
        let maxVal := (2 ^ bits % 2 ^ 64 + 2 ^ 64 - 1) % 2 ^ 64
        match parseUintLoop b base0 cutoff maxVal digits 0 false with
        | .error (v, e) => (v, some e)
        | .ok (n, underscores) =>
          if underscores = true ∧ underscoreOK s = false then (0, some .ErrSyntax)
          else (n, none)

/-- The step "pick off leading sign" of `ParseInt`: whether the sign is `-`, and
the string without the sign. -/
def stripSign (s : List Char) : Bool × List Char :=
  match s with
  | ch :: rest =>
    if ch = '+' then (false, rest)
    else if ch = '-' then (true, rest)
    else (false, s)
  | [] => (false, s)

/-- Models `strconv.ParseInt(s, base, bitSize)`. -/
def ParseInt (s : List Char) (base bitSize : Nat) : Int × Option NumError :=
  if s = [] then (0, some .ErrSyntax)
  else
    let neg := (stripSign s).1
    let r := ParseUint (stripSign s).2 base bitSize
    let un := r.1
    if r.2 ≠ none ∧ r.2 ≠ some .ErrRange then (0, r.2)
    else
      let bits := if bitSize = 0 then IntSize else bitSize
      let cutoff := 2 ^ (bits - 1) % 2 ^ 64
      if neg = false ∧ un ≥ cutoff then (wrapInt 64 ((cutoff : Int) - 1), some .ErrRange)
      else if neg = true ∧ un > cutoff then (wrapInt 64 (-(wrapInt 64 cutoff)), some .ErrRange)
      else
        let n := wrapInt 64 un
        (if neg then wrapInt 64 (-n) else n, none)

/-- Models `strconv.ParseBool`. -/
def ParseBool (str : String) : Bool × Option NumError :=
  if str = "1" ∨ str = "t" ∨ str = "T" ∨ str = "true" ∨ str = "TRUE" ∨ str = "True" then
    (true, none)
  else if str = "0" ∨ str = "f" ∨ str = "F" ∨ str = "false" ∨ str = "FALSE" ∨ str = "False" then
    (false, none)
  else (false, some .ErrSyntax)

/-! ## Data model: types and values seen through `reflect` -/

/-- A struct tag in its conventional form, a list of `key:"value"` pairs. -/
structure StructTag where
  pairs : List (String × String)
deriving DecidableEq, Repr

/-- Models `reflect.StructTag.Get`: the value of the first pair with that key,
the empty string when there is none. -/
def StructTag.Get (tag : StructTag) (key : String) : String :=
  match tag.pairs.find? (fun kv => kv.1 = key) with
  | some kv => kv.2
  | none => ""

/-- The kinds that `ConvertAndSetField` has no case for, pointers and structs
apart. -/
inductive OtherKind where
  | Uintptr | Complex64 | Complex128 | Array | Chan | Func | Interface | Map | Slice
  | UnsafePointer
deriving DecidableEq, Repr

/-- The result of `reflect.Value.Kind`, grouped as the cases of the switch in
`ConvertAndSetField` group them: `Int` is any of `Int, Int8, ..., Int64`, `Uint`
any of `Uint, Uint8, ..., Uint64`, `Float` either of `Float32, Float64`. -/
inductive Kind where
  | Invalid | String | Int | Uint | Bool | Float | Ptr | Struct
  | Other (k : OtherKind)
deriving DecidableEq, Repr

mutual
/-- A Go type; `bits` is `Type().Bits()`. -/
inductive Ty where
  | str
  | int (bits : Nat)
  | uint (bits : Nat)
  | bool
  | float (bits : Nat)
  | ptr (elem : Ty)
  | struct (fields : TyFields)
  | other (k : OtherKind)
deriving DecidableEq, Repr
/-- The declared fields of a struct type. -/
inductive TyFields where
  | nil
  | cons (Name : String) (Tag : StructTag) (Exported : Bool) (Typ : Ty) (rest : TyFields)
deriving DecidableEq, Repr
end

mutual
/-- A Go value. `invalid` is the zero `reflect.Value` (what `reflect.ValueOf(nil)`
and `Elem()` of a nil pointer give). A float holds the bit pattern returned by
the parser; a value of another kind holds an uninterpreted payload. -/
inductive Value where
  | invalid
  | str (s : String)
  | int (bits : Nat) (v : Int)
  | uint (bits : Nat) (v : Nat)
  | bool (b : Bool)
  | float (bits : Nat) (v : Nat)
  | nilPtr (elem : Ty)
  | ptr (target : Value)
  | struct (fields : Fields)
  | other (k : OtherKind) (payload : Nat)
deriving DecidableEq, Repr
/-- The fields of a struct value, in declaration order. -/
inductive Fields where
  | nil
  | cons (Name : String) (Tag : StructTag) (Exported : Bool) (Val : Value) (rest : Fields)
deriving DecidableEq, Repr
end

/-- One field of a struct value: what `Type().Field(i)` and `Field(i)` give.
`Exported` is `CanSet()` of the field of an addressable struct. -/
structure StructField where
  Name : String
  Tag : StructTag
  Exported : Bool
  Val : Value
deriving DecidableEq, Repr

/-- The fields of a struct value as a list. -/
def Fields.toList : Fields → List StructField
  | .nil => []
  | .cons n t e v rest => ⟨n, t, e, v⟩ :: rest.toList

/-- The struct fields made of a list. -/
def Fields.ofList : List StructField → Fields
  | [] => .nil
  | f :: fs => .cons f.Name f.Tag f.Exported f.Val (Fields.ofList fs)

/-- Models `reflect.Type.Kind`. -/
def Ty.Kind : Ty → Kind
  | .str => .String
  | .int _ => .Int
  | .uint _ => .Uint
  | .bool => .Bool
  | .float _ => .Float
  | .ptr _ => .Ptr
  | .struct _ => .Struct
  | .other k => .Other k

/-- Models `reflect.Value.Kind`. -/
def Value.Kind : Value → Kind
  | .invalid => .Invalid
  | .str _ => .String
  | .int _ _ => .Int
  | .uint _ _ => .Uint
  | .bool _ => .Bool
  | .float _ _ => .Float
  | .nilPtr _ => .Ptr
  | .ptr _ => .Ptr
  | .struct _ => .Struct
  | .other k _ => .Other k

/-- Models `reflect.Value.Elem` of a pointer: the target, or the zero
`reflect.Value` for a nil pointer. -/
def Value.Elem : Value → Value
  | .ptr target => target
  | _ => .invalid

mutual
/-- The zero value of a type: the target of `reflect.New(t)`. -/
def zero : Ty → Value
  | .str => .str ""
  | .int bits => .int bits 0
  | .uint bits => .uint bits 0
  | .bool => .bool false
  | .float bits => .float bits 0
  | .ptr elem => .nilPtr elem
  | .struct fields => .struct (zeroFields fields)
  | .other k => .other k 0
/-- The zero value of each declared field. -/
def zeroFields : TyFields → Fields
  | .nil => .nil
  | .cons n t e ty rest => .cons n t e (zero ty) (zeroFields rest)
end

/-! ## tenv.go -/

/-- The error `ErrInvalidEnvVarSpecification`. -/
def ErrInvalidEnvVarSpecification : GoError :=
  .New "specification must be a struct pointer"

/-- A `reflect.Value` that refers to a field of the record: the index of the
field and the number of pointers dereferenced below it. -/
structure Ref where
  index : Nat
  depth : Nat
deriving DecidableEq, Repr

/-- The descriptor `EnvVarInfo` of one field. -/
structure EnvVarInfo where
  Name : String
  Alt : String
  Key : String
  Field : Ref
  Tags : StructTag
deriving DecidableEq, Repr

/-- The loop `for f.Kind() == reflect.Ptr` of `CollectFieldInfo` on the value of
one field: the value of the field afterwards and the number of times `f` was
replaced by `f.Elem()`. A nil pointer to a non-struct ends the loop (`break`); a
nil pointer to a struct is set to `reflect.New` of the struct type and
dereferenced once, which ends the loop since the target is a struct. -/
def derefLoop : Value → Value × Nat
  | .nilPtr elem =>
    if elem.Kind ≠ .Struct then (.nilPtr elem, 0)
    else (.ptr (zero elem), 1)
  | .ptr target =>
    let r := derefLoop target
    (.ptr r.1, r.2 + 1)
  | v => (v, 0)

/-- The name `info.Alt` of a field: `strings.ToUpper(ftype.Tag.Get("tenv"))`. -/
def altName (f : StructField) : String := ToUpper (f.Tag.Get "tenv")

/-- The key `info.Key` of a field: the name, or `Alt` when it is not empty,
then `strings.ToUpper`. -/
def keyName (f : StructField) : String :=
  ToUpper (if altName f ≠ "" then altName f else f.Name)

/-- The body of the loop `for i := 0; i < s.NumField(); i++` of
`CollectFieldInfo`, from index `i` on: the fields afterwards and the descriptors
appended. -/
def collectLoop : Nat → List StructField → List StructField × List EnvVarInfo
  | _, [] => ([], [])
  | i, f :: fs =>
    let r := collectLoop (i + 1) fs
    if f.Exported = false then (f :: r.1, r.2)
    else
      let d := derefLoop f.Val
      let info : EnvVarInfo :=
        { Name := f.Name, Alt := altName f, Key := keyName f, Field := ⟨i, d.2⟩, Tags := f.Tag }
      ({ f with Val := d.1 } :: r.1, info :: r.2)

/-- The function `CollectFieldInfo`: the argument after the call, the descriptors
and the error. -/
def CollectFieldInfo (spec : Value) : Value × List EnvVarInfo × Option GoError :=
  if spec.Kind ≠ .Ptr then (spec, [], some ErrInvalidEnvVarSpecification)
  else
    match spec.Elem with
    | .struct fields =>
      let r := collectLoop 0 fields.toList
      (.ptr (.struct (Fields.ofList r.1)), r.2, none)
    | _ => (spec, [], some ErrInvalidEnvVarSpecification)

/-- The function `ConvertAndSetField` on the value a `reflect.Value` refers to:
the value afterwards and the error. `SetInt` and `SetUint` store the low `bits`
bits. -/
def ConvertAndSetField (ParseFloat : String → Nat → Option Nat) (value : String)
    (field : Value) : Value × Option GoError :=
  match field with
  | .str _ => (.str value, none)
  | .int bits _ =>
    let r := ParseInt value.data 0 bits
    if r.2 ≠ none then (field, some (.New ("invalid value for int: " ++ value)))
    else (.int bits (wrapInt bits r.1), none)
  | .uint bits _ =>
    let r := ParseUint value.data 0 bits
    if r.2 ≠ none then (field, some (.New ("invalid value for uint: " ++ value)))
    else (.uint bits (r.1 % 2 ^ bits), none)
  | .bool _ =>
    let r := ParseBool value
    if r.2 ≠ none then (field, some (.New ("invalid value for bool: " ++ value)))
    else (.bool r.1, none)
  | .float bits _ =>
    match ParseFloat value bits with
    | none => (field, some (.New ("invalid value for float: " ++ value)))
    | some v => (.float bits v, none)
  | _ => (field, none)

/-- The value reached from `v` by `n` applications of `Elem()`. -/
def derefN : Nat → Value → Value
  | 0, v => v
  | n + 1, v => derefN n v.Elem

/-- The value `v` with the value `n` pointers below it replaced by `g` of it. -/
def modifyN (g : Value → Value) : Nat → Value → Value
  | 0, v => g v
  | n + 1, .ptr target => .ptr (modifyN g n target)
  | _ + 1, v => v

/-- The value a reference refers to. -/
def getRef (fields : List StructField) (r : Ref) : Value :=
  match fields[r.index]? with
  | some f => derefN r.depth f.Val
  | none => .invalid

/-- The record with the value a reference refers to replaced by `g` of it. -/
def modifyRef (g : Value → Value) (r : Ref) : List StructField → List StructField :=
  List.modify (fun f => { f with Val := modifyN g r.depth f.Val }) r.index

/-- The lookups of one round of `PopulateFromEnv`: `os.LookupEnv(info.Key)`,
then `os.LookupEnv(info.Alt)` when the key is not found and `Alt` is not empty;
`none` when the round ends in `continue` (not found, or found empty), the value
to convert otherwise. -/
def lookupValue (env : Env) (key alt : String) : Option String :=
  let l1 := LookupEnv env key
  let l2 := if l1.2 = false ∧ alt ≠ "" then LookupEnv env alt else l1
  if l2.2 = false ∨ l2.1 = "" then none else some l2.1

/-- The error `fmt.Errorf("error processing field %s: %w", name, err)`. -/
def fieldError (name : String) (err : GoError) : GoError :=
  .Wrap ("error processing field " ++ name ++ ": " ++ err.Error) err

/-- The loop `for _, info := range infos` of `PopulateFromEnv`: the fields
afterwards and the error returned. -/
def populateLoop (ParseFloat : String → Nat → Option Nat) (env : Env) :
    List EnvVarInfo → List StructField → List StructField × Option GoError
  | [], fields => (fields, none)
  | info :: rest, fields =>
    match lookupValue env info.Key info.Alt with
    | none => populateLoop ParseFloat env rest fields
    | some value =>
      let r := ConvertAndSetField ParseFloat value (getRef fields info.Field)
      let fields1 := modifyRef (fun _ => r.1) info.Field fields
      match r.2 with
      | some err => (fields1, some (fieldError info.Name err))
      | none => populateLoop ParseFloat env rest fields1

/-- The function `PopulateFromEnv`: the argument after the call and the error
returned. -/
def PopulateFromEnv (ParseFloat : String → Nat → Option Nat) (env : Env) (spec : Value) :
    Value × Option GoError :=
  match CollectFieldInfo spec with
  | (spec1, _, some err) => (spec1, some err)
  | (spec1, infos, none) =>
    match spec1 with
    | .ptr (.struct fields) =>
      let r := populateLoop ParseFloat env infos fields.toList
      (.ptr (.struct (Fields.ofList r.1)), r.2)
    | _ => (spec1, none)

/-! ## The loop of `PopulateFromEnv` seen field by field

`CollectFieldInfo` makes one descriptor per settable field, in order, and each
round of `PopulateFromEnv` touches the field of its descriptor only, so a call
can be read off the list of fields directly. `populateFields` is this reading;
`populateLoop_collectLoop` below proves that it is what the code computes. -/

/-- One field after `CollectFieldInfo`: a settable field has gone through the
pointer loop, any other field is as before. -/
def materialize (f : StructField) : StructField :=
  if f.Exported = false then f else { f with Val := (derefLoop f.Val).1 }

/-- The value that the descriptor of a field of value `v` refers to
(`info.Field`), once `CollectFieldInfo` has returned. -/
def fieldTarget (v : Value) : Value := derefN (derefLoop v).2 (derefLoop v).1

/-- The string that `PopulateFromEnv` converts for a field, if any. -/
def fieldValue (env : Env) (f : StructField) : Option String :=
  lookupValue env (keyName f) (altName f)

/-- The value `v` of a field, after `CollectFieldInfo`, with the value its
descriptor refers to replaced by `g` of it. -/
def mapTarget (g : Value → Value) (v : Value) : Value :=
  modifyN g (derefLoop v).2 (derefLoop v).1

/-- One field after `CollectFieldInfo` and its round of `PopulateFromEnv`, with
the error of the round. -/
def processField (ParseFloat : String → Nat → Option Nat) (env : Env) (f : StructField) :
    StructField × Option GoError :=
  if f.Exported = false then (f, none)
  else
    match fieldValue env f with
    | none => (materialize f, none)
    | some value =>
      let c := ConvertAndSetField ParseFloat value (fieldTarget f.Val)
      ({ f with Val := mapTarget (fun _ => c.1) f.Val }, c.2.map (fieldError f.Name))

/-- The fields after `PopulateFromEnv` and the error it returns, field by
field: the rounds stop at the first error, the fields after it have only gone
through `CollectFieldInfo`. -/
def populateFields (ParseFloat : String → Nat → Option Nat) (env : Env) :
    List StructField → List StructField × Option GoError
  | [] => ([], none)
  | f :: fs =>
    let p := processField ParseFloat env f
    match p.2 with
    | some err => (p.1 :: fs.map materialize, some err)
    | none =>
      let r := populateFields ParseFloat env fs
      (p.1 :: r.1, r.2)

/-- A settable field whose round of `PopulateFromEnv` fails: its key has a
present, non-empty value in the environment and `ConvertAndSetField` returns an
error for it. -/
def FailsAt (ParseFloat : String → Nat → Option Nat) (env : Env) (f : StructField) : Prop :=
  f.Exported = true ∧ ∃ value, env (keyName f) = some value ∧ value ≠ "" ∧
    (ConvertAndSetField ParseFloat value (fieldTarget f.Val)).2 ≠ none

/-! ## Vocabulary and example records for the statements -/

/-- A value that the pointer loop of `CollectFieldInfo` changes: a nil pointer
to a struct, directly or behind non-nil pointers. -/
def nilStructPtr : Value → Bool
  | .nilPtr elem => decide (elem.Kind = .Struct)
  | .ptr target => nilStructPtr target
  | _ => false

/-- A `ParseFloat` that rejects every string, for the examples without floats. -/
def noFloat : String → Nat → Option Nat := fun _ _ => none

/-- The fields of a struct value at the head of a pointer, `[]` for any other
value. -/
def fieldsOf : Value → List StructField
  | .ptr (.struct fields) => fields.toList
  | _ => []

/-- A pointer to the record made of a list of fields. -/
def recordOf (fs : List StructField) : Value := .ptr (.struct (Fields.ofList fs))

/-- Example: `struct { Host string; LogLevel string "tenv:log_level" }`. -/
def exKeys : Value :=
  recordOf [⟨"Host", ⟨[]⟩, true, .str ""⟩, ⟨"LogLevel", ⟨[("tenv", "log_level")]⟩, true, .str ""⟩]

/-- Example: `struct { Host string "tenv:HOST"; Port int "tenv:PORT"; Sub *struct{} }`
with `Sub` nil. -/
def exPort : List StructField :=
  [⟨"Host", ⟨[("tenv", "HOST")]⟩, true, .str ""⟩,
   ⟨"Port", ⟨[("tenv", "PORT")]⟩, true, .int 64 0⟩,
   ⟨"Sub", ⟨[]⟩, true, .nilPtr (.struct .nil)⟩]

/-- Example environment: `HOST=localhost`, `PORT=abc`. -/
def envPortAbc : Env := fun k =>
  if k = "HOST" then some "localhost" else if k = "PORT" then some "abc" else none

/-- Example environment: no variable is set. -/
def envEmpty : Env := fun _ => none

/-- Example: the settable field `Sub *struct{}`, nil. -/
def exSub : StructField := ⟨"Sub", ⟨[]⟩, true, .nilPtr (.struct .nil)⟩

/-- Example: the field `Debug bool "tenv:DEBUG"` with a given value. -/
def exDebug (b : Bool) : StructField := ⟨"Debug", ⟨[("tenv", "DEBUG")]⟩, true, .bool b⟩

/-- Example environment: `DEBUG` set to `v`, nothing else. -/
def envDebug (v : String) : Env := fun k => if k = "DEBUG" then some v else none

/-- The digit a character stands for in a numeral: `0`..`9`, and `a`..`f` or
`A`..`F` for ten to fifteen. -/
def hexVal (ch : Char) : Option Nat :=
  if 48 ≤ ch.toNat ∧ ch.toNat ≤ 57 then some (ch.toNat - 48)
  else if 97 ≤ ch.toNat ∧ ch.toNat ≤ 102 then some (ch.toNat - 87)
  else if 65 ≤ ch.toNat ∧ ch.toNat ≤ 70 then some (ch.toNat - 55)
  else none

/-- A string of digits of base `b` (at most 16). -/
def isNumeral (b : Nat) (ds : List Char) : Bool :=
  ds.all (fun ch => match hexVal ch with
    | some d => decide (d < b)
    | none => false)

/-- The number that a string of digits denotes in base `b`. -/
def numeralValue (b : Nat) (ds : List Char) : Nat :=
  ds.foldl (fun a ch => a * b + (hexVal ch).getD 0) 0

/-- A decimal numeral without a leading zero: a non-empty string of decimal
digits that is `0` or does not start with `0`. -/
def isPlainDecimal (ds : List Char) : Bool :=
  isNumeral 10 ds && (ds != [] && (ds == ['0'] || ds.head? != some '0'))

/-- Example: the settable field `P *int`, a non-nil pointer to the number 0. -/
def exIntPtr : StructField := ⟨"P", ⟨[]⟩, true, .ptr (.int 64 0)⟩

/-- Example environment: `P=abc`, nothing else. -/
def envPAbc : Env := fun k => if k = "P" then some "abc" else none

/-- The element type of the nil pointer that a value is, or leads to through
non-nil pointers; `none` when it leads to no nil pointer. -/
def nilElem : Value → Option Ty
  | .nilPtr elem => some elem
  | .ptr target => nilElem target
  | _ => none

/-- Example: the settable field `PP **struct{}`, nil. -/
def exNilPtrPtr : StructField := ⟨"PP", ⟨[]⟩, true, .nilPtr (.ptr (.struct .nil))⟩

/-- The value of a settable field with the nil pointer to a record that it is,
or leads to through non-nil pointers, replaced by a pointer to a new empty
record; any other value is kept. Written after the words of the specification
(materialize nested record pointers that were nil), to be compared with what the
pointer loop of `CollectFieldInfo` computes. -/
def allocNil : Value → Value
  | .nilPtr elem => if elem.Kind = .Struct then .ptr (zero elem) else .nilPtr elem
  | .ptr target => .ptr (allocNil target)
  | v => v

/-- Example: the settable field `Q **struct{}`, a non-nil pointer to a nil
pointer to a record. -/
def exPtrNil : StructField := ⟨"Q", ⟨[]⟩, true, .ptr (.nilPtr (.struct .nil))⟩

/-- Example: the settable field `Sub *struct { X string "tenv:X" }`, a non-nil
pointer to a record whose field `X` holds `old`. -/
def exNested : StructField :=
  ⟨"Sub", ⟨[]⟩, true, .ptr (.struct (.cons "X" ⟨[("tenv", "X")]⟩ true (.str "old") .nil))⟩

/-- Example environment: `X=new`, `SUB=new`, `P=42`. -/
def envNested : Env := fun k =>
  if k = "X" then some "new" else if k = "SUB" then some "new"
  else if k = "P" then some "42" else none

/-! ## The variant of `PopulateFromEnv` with a single lookup -/

/-- The lookup of one round in the variant: `os.LookupEnv(info.Key)` alone;
`none` when the variable is not found or found empty. -/
def lookupKey (env : Env) (key : String) : Option String :=
  let l1 := LookupEnv env key
  if l1.2 = false ∨ l1.1 = "" then none else some l1.1

/-- The loop of `PopulateFromEnv` without the fallback lookup of `info.Alt`. -/
def populateLoopSingle (ParseFloat : String → Nat → Option Nat) (env : Env) :
    List EnvVarInfo → List StructField → List StructField × Option GoError
  | [], fields => (fields, none)
  | info :: rest, fields =>
    match lookupKey env info.Key with
    | none => populateLoopSingle ParseFloat env rest fields
    | some value =>
      let r := ConvertAndSetField ParseFloat value (getRef fields info.Field)
      let fields1 := modifyRef (fun _ => r.1) info.Field fields
      match r.2 with
      | some err => (fields1, some (fieldError info.Name err))
      | none => populateLoopSingle ParseFloat env rest fields1

/-- The function `PopulateFromEnv` with the loop that looks up `info.Key` only. -/
def PopulateFromEnvSingle (ParseFloat : String → Nat → Option Nat) (env : Env) (spec : Value) :
    Value × Option GoError :=
  match CollectFieldInfo spec with
  | (spec1, _, some err) => (spec1, some err)
  | (spec1, infos, none) =>
    match spec1 with
    | .ptr (.struct fields) =>
      let r := populateLoopSingle ParseFloat env infos fields.toList
      (.ptr (.struct (Fields.ofList r.1)), r.2)
    | _ => (spec1, none)

/-- Example: the field `Cafe string "tenv:café"`, empty. -/
def exCafe : StructField := ⟨"Cafe", ⟨[("tenv", "café")]⟩, true, .str ""⟩

theorem CaseRanges_fixed : tableFixed CaseRanges = true := by decide!

theorem toNat_ofNat_valid (m : Nat) (h : m.isValidChar) : (Char.ofNat m).toNat = m := by
  simp [Char.ofNat, h, Char.toNat, Char.ofNatAux, UInt32.toNat]

theorem validRange_sound (a b u : Nat) (h : validRange a b = true) (ha : a ≤ u) (hb : u ≤ b) :
    u.isValidChar := by
  simp only [validRange, Bool.or_eq_true, Bool.and_eq_true, Nat.blt_eq] at h
  simp only [Nat.isValidChar]
  omega

theorem To_free (a b u : Nat) (ha : a ≤ u) (hb : u ≤ b) :
    ∀ T : List CaseRange, freeIn a b T = true → To T u = u
  | [], _ => rfl
  | cr :: rest, h => by
    simp only [freeIn, Bool.and_eq_true, Bool.or_eq_true, Nat.blt_eq] at h
    have hn : ¬ (cr.Lo ≤ u ∧ u ≤ cr.Hi) := by omega
    simp only [To, if_neg hn]
    exact To_free a b u ha hb rest h.2

theorem ascending_lt (cr : CaseRange) :
    ∀ (T : List CaseRange) (prev : Nat), ascending prev T = true → cr ∈ T → prev < cr.Lo
  | [], _, _, hm => by simp at hm
  | x :: rest, prev, h, hm => by
    simp only [ascending, Bool.and_eq_true, Nat.blt_eq, Nat.ble_eq] at h
    rcases List.mem_cons.1 hm with rfl | hm
    · exact h.1
    · have := ascending_lt cr rest x.Hi h.2.2 hm
      omega

theorem To_of_mem (cr : CaseRange) (r : Nat) (hlo : cr.Lo ≤ r) (hhi : r ≤ cr.Hi) :
    ∀ (T : List CaseRange) (prev : Nat), ascending prev T = true → cr ∈ T →
      To T r = toCase cr r
  | [], _, _, hm => by simp at hm
  | x :: rest, prev, h, hm => by
    simp only [ascending, Bool.and_eq_true, Nat.blt_eq, Nat.ble_eq] at h
    rcases List.mem_cons.1 hm with rfl | hm
    · simp only [To, if_pos (And.intro hlo hhi)]
    · have := ascending_lt cr rest x.Hi h.2.2 hm
      have hn : ¬ (x.Lo ≤ r ∧ r ≤ x.Hi) := by omega
      simp only [To, if_neg hn]
      exact To_of_mem cr r hlo hhi rest x.Hi h.2.2 hm

theorem To_eq_or (r : Nat) :
    ∀ T : List CaseRange, To T r = r ∨ ∃ cr ∈ T, cr.Lo ≤ r ∧ r ≤ cr.Hi ∧ To T r = toCase cr r
  | [] => Or.inl rfl
  | x :: rest => by
    by_cases hx : x.Lo ≤ r ∧ r ≤ x.Hi
    · exact Or.inr ⟨x, List.mem_cons_self _ _, hx.1, hx.2, by simp only [To, if_pos hx]⟩
    · rcases To_eq_or r rest with h | ⟨cr, hm, h1, h2, h3⟩
      · exact Or.inl (by simp only [To, if_neg hx]; exact h)
      · exact Or.inr ⟨cr, List.mem_cons_of_mem _ hm, h1, h2, by simp only [To, if_neg hx]; exact h3⟩

theorem rowFixed_sound (T : List CaseRange) (hasc : ascending 0 T = true) (cr : CaseRange)
    (hm : cr ∈ T) (hrow : rowFixed T cr = true) (r : Nat) (hlo : cr.Lo ≤ r) (hhi : r ≤ cr.Hi) :
    (toCase cr r).isValidChar ∧ To T (toCase cr r) = toCase cr r := by
  by_cases hd : cr.Delta > MaxRune
  · simp only [rowFixed, if_pos hd] at hrow
    have hu : toCase cr r = cr.Lo + (r - cr.Lo) / 2 * 2 := by simp only [toCase, if_pos hd]
    have h1 : cr.Lo ≤ toCase cr r := by omega
    have h2 : toCase cr r ≤ cr.Hi := by omega
    refine ⟨validRange_sound _ _ _ hrow h1 h2, ?_⟩
    rw [To_of_mem cr _ h1 h2 T 0 hasc hm]
    simp only [toCase, if_pos hd]
    omega
  · simp only [rowFixed, if_neg hd, Bool.and_eq_true, Bool.or_eq_true, Nat.beq_eq] at hrow
    have hu : ∀ x, toCase cr x = ((x : Int) + cr.Delta).toNat := fun x => by
      simp only [toCase, if_neg hd]
    have h1 : toCase cr cr.Lo ≤ toCase cr r := by rw [hu, hu]; omega
    have h2 : toCase cr r ≤ toCase cr cr.Hi := by rw [hu, hu]; omega
    refine ⟨validRange_sound _ _ _ hrow.1 h1 h2, ?_⟩
    rcases hrow.2 with hf | ⟨he, hp⟩
    · exact To_free _ _ _ h1 h2 T hf
    · have : r = cr.Lo := by omega
      subst this
      exact hp

theorem To_fixed (T : List CaseRange) (h : tableFixed T = true) (r : Nat) (hr : r.isValidChar) :
    (To T r).isValidChar ∧ To T (To T r) = To T r := by
  simp only [tableFixed, Bool.and_eq_true, List.all_eq_true] at h
  rcases To_eq_or r T with h0 | ⟨cr, hm, h1, h2, h3⟩
  · rw [h0]; exact ⟨hr, h0⟩
  · rw [h3]; exact rowFixed_sound T h.1 cr hm (h.2 cr hm) r h1 h2

theorem To_ascii (n : Nat) (h : n ≤ 127) :
    To CaseRanges n = if 97 ≤ n ∧ n ≤ 122 then n - 32 else n := by
  have hasc : ascending 0 CaseRanges = true := by
    have := CaseRanges_fixed
    simp only [tableFixed, Bool.and_eq_true] at this
    exact this.1
  by_cases hl : 97 ≤ n ∧ n ≤ 122
  · rw [if_pos hl]
    have hm : CaseRange.mk 0x61 0x7A (-32) ∈ CaseRanges := by
      unfold CaseRanges; exact List.mem_cons_self _ _
    rw [To_of_mem _ n hl.1 hl.2 CaseRanges 0 hasc hm]
    have hd : ¬ ((-32 : Int) > MaxRune) := by decide
    simp only [toCase, if_neg hd]
    omega
  · rw [if_neg hl]
    by_cases h1 : n ≤ 96
    · exact To_free 0 96 n (Nat.zero_le _) h1 CaseRanges (by decide!)
    · exact To_free 123 127 n (by omega) h CaseRanges (by decide!)

theorem unicodeToUpper_eq (c : Char) :
    unicodeToUpper c = Char.ofNat (To CaseRanges c.toNat) := by
  by_cases h : c.toNat ≤ 127
  · rw [To_ascii _ h]
    have h97 : 'a'.toNat = 97 := rfl
    have h122 : 'z'.toNat = 122 := rfl
    have h65 : 'A'.toNat = 65 := rfl
    simp only [unicodeToUpper, MaxASCII, if_pos h, h97, h122, h65]
    by_cases hl : 97 ≤ c.toNat ∧ c.toNat ≤ 122
    · simp only [if_pos hl]
    · simp only [if_neg hl, Char.ofNat_toNat]
  · have h2 : ¬ c.toNat ≤ MaxASCII := h
    simp only [unicodeToUpper, if_neg h2]

theorem unicodeToUpper_idem (c : Char) :
    unicodeToUpper (unicodeToUpper c) = unicodeToUpper c := by
  have hv : c.toNat.isValidChar := c.valid
  obtain ⟨h1, h2⟩ := To_fixed CaseRanges CaseRanges_fixed c.toNat hv
  rw [unicodeToUpper_eq (unicodeToUpper c), unicodeToUpper_eq c, toNat_ofNat_valid _ h1, h2]

theorem unicodeToUpper_of_isLower (c : Char) (h : c.isLower = true) :
    unicodeToUpper c = Char.ofNat (c.toNat - 32) ∧ unicodeToUpper c ≠ c := by
  have hl : 97 ≤ c.toNat ∧ c.toNat ≤ 122 := by
    simp only [Char.isLower, Bool.and_eq_true, decide_eq_true_eq] at h
    exact ⟨h.1, h.2⟩
  have h97 : 'a'.toNat = 97 := rfl
  have h122 : 'z'.toNat = 122 := rfl
  have h65 : 'A'.toNat = 65 := rfl
  have hA : c.toNat ≤ MaxASCII := by simp only [MaxASCII]; omega
  have he : unicodeToUpper c = Char.ofNat (c.toNat - 32) := by
    simp only [unicodeToUpper, if_pos hA, h97, h122, h65, if_pos hl]
  refine ⟨he, ?_⟩
  intro hc
  have := congrArg Char.toNat (he.symm.trans hc)
  rw [toNat_ofNat_valid _ (Or.inl (by omega))] at this
  omega

theorem ToUpper_ToUpper (s : String) : ToUpper (ToUpper s) = ToUpper s := by
  simp [ToUpper, List.map_map, Function.comp_def, unicodeToUpper_idem]

theorem ToUpper_eq_empty (s : String) : ToUpper s = "" ↔ s = "" := by
  constructor
  · intro h
    have := congrArg String.data h
    simp [ToUpper] at this
    exact String.ext this
  · rintro rfl; rfl

theorem ToUpper_data_fixed (s : String) : ∀ c ∈ (ToUpper s).data, unicodeToUpper c = c := by
  intro c hc
  simp only [ToUpper, List.mem_map] at hc
  obtain ⟨a, -, rfl⟩ := hc
  exact unicodeToUpper_idem a

theorem isLower_false_of_fixed (c : Char) (h : unicodeToUpper c = c) : c.isLower = false := by
  cases hl : c.isLower with
  | false => rfl
  | true => exact absurd h (unicodeToUpper_of_isLower c hl).2

/-! ### The descriptor walk and the loop, field by field -/

theorem collectLoop_fst (i : Nat) (fs : List StructField) :
    (collectLoop i fs).1 = fs.map materialize := by
  induction fs generalizing i with
  | nil => rfl
  | cons f fs ih =>
    simp only [collectLoop, List.map_cons, materialize]
    split <;> simp [ih]

theorem collectLoop_snd_unexported (i : Nat) (f : StructField) (fs : List StructField)
    (h : f.Exported = false) : (collectLoop i (f :: fs)).2 = (collectLoop (i + 1) fs).2 := by
  simp [collectLoop, h]

theorem collectLoop_snd_exported (i : Nat) (f : StructField) (fs : List StructField)
    (h : f.Exported = true) :
    (collectLoop i (f :: fs)).2 =
      { Name := f.Name, Alt := altName f, Key := keyName f, Field := ⟨i, (derefLoop f.Val).2⟩,
        Tags := f.Tag } :: (collectLoop (i + 1) fs).2 := by
  simp [collectLoop, h]

theorem getRef_append (pre rest : List StructField) (f : StructField) (d : Nat) :
    getRef (pre ++ f :: rest) ⟨pre.length, d⟩ = derefN d f.Val := by
  have h : (pre ++ f :: rest)[pre.length]? = some f := by
    induction pre with
    | nil => simp
    | cons p pre ih => simpa using ih
  simp only [getRef, h]

theorem modifyRef_append (g : Value → Value) (pre rest : List StructField) (f : StructField)
    (d : Nat) :
    modifyRef g ⟨pre.length, d⟩ (pre ++ f :: rest) =
      pre ++ { f with Val := modifyN g d f.Val } :: rest := by
  unfold modifyRef
  induction pre with
  | nil => simp [List.modify]
  | cons p pre ih => simpa [List.modify] using ih

theorem materialize_unexported (f : StructField) (h : f.Exported = false) :
    materialize f = f := by simp [materialize, h]

theorem materialize_exported (f : StructField) (h : f.Exported = true) :
    materialize f = { f with Val := (derefLoop f.Val).1 } := by simp [materialize, h]

theorem processField_unexported (PF : String → Nat → Option Nat) (env : Env) (f : StructField)
    (h : f.Exported = false) : processField PF env f = (f, none) := by
  simp [processField, h]

theorem processField_skip (PF : String → Nat → Option Nat) (env : Env) (f : StructField)
    (h : f.Exported = true) (hv : fieldValue env f = none) :
    processField PF env f = (materialize f, none) := by
  simp [processField, h, hv]

theorem processField_convert (PF : String → Nat → Option Nat) (env : Env) (f : StructField)
    (value : String) (h : f.Exported = true) (hv : fieldValue env f = some value) :
    processField PF env f =
      ({ f with Val := mapTarget (fun _ => (ConvertAndSetField PF value (fieldTarget f.Val)).1) f.Val },
        (ConvertAndSetField PF value (fieldTarget f.Val)).2.map (fieldError f.Name)) := by
  simp [processField, h, hv]

theorem populateFields_cons_ok (PF : String → Nat → Option Nat) (env : Env) (f : StructField)
    (fs : List StructField) (h : (processField PF env f).2 = none) :
    populateFields PF env (f :: fs) =
      ((processField PF env f).1 :: (populateFields PF env fs).1, (populateFields PF env fs).2) := by
  simp [populateFields, h]

theorem populateFields_cons_err (PF : String → Nat → Option Nat) (env : Env) (f : StructField)
    (fs : List StructField) (err : GoError) (h : (processField PF env f).2 = some err) :
    populateFields PF env (f :: fs) =
      ((processField PF env f).1 :: fs.map materialize, some err) := by
  simp [populateFields, h]

theorem populateLoop_collectLoop (PF : String → Nat → Option Nat) (env : Env)
    (fs pre : List StructField) :
    populateLoop PF env (collectLoop pre.length fs).2 (pre ++ fs.map materialize) =
      (pre ++ (populateFields PF env fs).1, (populateFields PF env fs).2) := by
  induction fs generalizing pre with
  | nil => simp [collectLoop, populateLoop, populateFields]
  | cons f fs ih =>
    have ih1 := fun (x : StructField) => ih (pre ++ [x])
    simp only [List.length_append, List.length_singleton, List.append_assoc,
      List.singleton_append] at ih1
    cases hexp : f.Exported with
    | false =>
      rw [collectLoop_snd_unexported _ _ _ hexp, List.map_cons, materialize_unexported _ hexp,
        populateFields_cons_ok _ _ _ _ (by rw [processField_unexported _ _ _ hexp]),
        processField_unexported _ _ _ hexp]
      exact ih1 f
    | true =>
      rw [collectLoop_snd_exported _ _ _ hexp, List.map_cons, materialize_exported _ hexp]
      simp only [populateLoop]
      cases hv : fieldValue env f with
      | none =>
        have hv1 : lookupValue env (keyName f) (altName f) = none := hv
        rw [hv1, populateFields_cons_ok _ _ _ _ (by rw [processField_skip _ _ _ hexp hv]),
          processField_skip _ _ _ hexp hv, materialize_exported _ hexp]
        exact ih1 _
      | some value =>
        have hv1 : lookupValue env (keyName f) (altName f) = some value := hv
        rw [hv1]
        simp only [getRef_append, modifyRef_append]
        have ht : derefN (derefLoop f.Val).2 (derefLoop f.Val).1 = fieldTarget f.Val := rfl
        have hm : ∀ g, modifyN g (derefLoop f.Val).2 (derefLoop f.Val).1 = mapTarget g f.Val :=
          fun _ => rfl
        rw [ht, hm]
        cases hc : (ConvertAndSetField PF value (fieldTarget f.Val)).2 with
        | none =>
          rw [populateFields_cons_ok _ _ _ _
            (by rw [processField_convert _ _ _ _ hexp hv, hc]; rfl),
            processField_convert _ _ _ _ hexp hv]
          exact ih1 _
        | some err =>
          rw [populateFields_cons_err _ _ _ _ (fieldError f.Name err)
            (by rw [processField_convert _ _ _ _ hexp hv, hc]; rfl),
            processField_convert _ _ _ _ hexp hv]

theorem Fields.toList_ofList (l : List StructField) : (Fields.ofList l).toList = l := by
  induction l with
  | nil => rfl
  | cons f fs ih => simp [Fields.ofList, Fields.toList, ih]

theorem CollectFieldInfo_struct (fields : Fields) :
    CollectFieldInfo (.ptr (.struct fields)) =
      (.ptr (.struct (Fields.ofList (fields.toList.map materialize))),
        (collectLoop 0 fields.toList).2, none) := by
  simp [CollectFieldInfo, Value.Kind, Value.Elem, collectLoop_fst]

theorem PopulateFromEnv_struct (PF : String → Nat → Option Nat) (env : Env) (fields : Fields) :
    PopulateFromEnv PF env (.ptr (.struct fields)) =
      (.ptr (.struct (Fields.ofList (populateFields PF env fields.toList).1)),
        (populateFields PF env fields.toList).2) := by
  have h := populateLoop_collectLoop PF env fields.toList []
  simp only [List.length_nil, List.nil_append] at h
  simp only [PopulateFromEnv, CollectFieldInfo_struct, Fields.toList_ofList, h]

theorem collectLoop_mem (i : Nat) (fs : List StructField) (info : EnvVarInfo)
    (h : info ∈ (collectLoop i fs).2) :
    ∃ f ∈ fs, f.Exported = true ∧ info.Name = f.Name ∧ info.Tags = f.Tag ∧
      info.Alt = altName f ∧ info.Key = keyName f := by
  induction fs generalizing i with
  | nil => simp [collectLoop] at h
  | cons f fs ih =>
    simp only [collectLoop] at h
    split at h
    · obtain ⟨g, hg, hrest⟩ := ih (i + 1) h
      exact ⟨g, List.mem_cons_of_mem _ hg, hrest⟩
    · rename_i hexp
      simp only [List.mem_cons] at h
      rcases h with h | h
      · subst h
        exact ⟨f, List.mem_cons_self _ _, by simpa using hexp, rfl, rfl, rfl, rfl⟩
      · obtain ⟨g, hg, hrest⟩ := ih (i + 1) h
        exact ⟨g, List.mem_cons_of_mem _ hg, hrest⟩

theorem keyName_of_alt (f : StructField) (h : altName f ≠ "") : keyName f = altName f := by
  unfold keyName
  rw [if_pos h]
  exact ToUpper_ToUpper _

theorem StructTag.Get_absent (tag : StructTag) (key : String)
    (h : ∀ kv ∈ tag.pairs, kv.1 ≠ key) : tag.Get key = "" := by
  unfold StructTag.Get
  have : tag.pairs.find? (fun kv => decide (kv.1 = key)) = none := by
    simp [List.find?_eq_none]; intro a b hab; exact h (a, b) hab
  rw [this]

/-! ### Lookups, conversion failures and the rounds of the loop -/

theorem fieldValue_eq (env : Env) (f : StructField) :
    fieldValue env f =
      match env (keyName f) with
      | some v => if v = "" then none else some v
      | none => none := by
  unfold fieldValue lookupValue LookupEnv
  by_cases ha : altName f = ""
  · cases h : env (keyName f) <;> simp [ha]
  · rw [keyName_of_alt f ha]
    cases h : env (altName f) <;> simp [ha]

theorem fieldValue_some (env : Env) (f : StructField) (value : String) :
    fieldValue env f = some value ↔ env (keyName f) = some value ∧ value ≠ "" := by
  rw [fieldValue_eq]
  cases h : env (keyName f) with
  | none => simp
  | some v =>
    by_cases hv : v = ""
    · simp [hv]; intro h1; exact h1.symm
    · simp [hv]; intro h1; rw [← h1]; exact hv

theorem fieldValue_none (env : Env) (f : StructField) :
    fieldValue env f = none ↔ env (keyName f) = none ∨ env (keyName f) = some "" := by
  rw [fieldValue_eq]
  cases h : env (keyName f) with
  | none => simp
  | some v =>
    by_cases hv : v = ""
    · simp [hv]
    · simp [hv]

theorem ConvertAndSetField_err (PF : String → Nat → Option Nat) (value : String) (v : Value)
    (h : (ConvertAndSetField PF value v).2 ≠ none) : (ConvertAndSetField PF value v).1 = v := by
  cases v with
  | int bits x =>
    simp only [ConvertAndSetField] at h ⊢
    by_cases hp : (ParseInt value.data 0 bits).2 ≠ none
    · rw [if_pos hp]
    · rw [if_neg hp] at h; exact absurd rfl h
  | uint bits x =>
    simp only [ConvertAndSetField] at h ⊢
    by_cases hp : (ParseUint value.data 0 bits).2 ≠ none
    · rw [if_pos hp]
    · rw [if_neg hp] at h; exact absurd rfl h
  | bool b =>
    simp only [ConvertAndSetField] at h ⊢
    by_cases hp : (ParseBool value).2 ≠ none
    · rw [if_pos hp]
    · rw [if_neg hp] at h; exact absurd rfl h
  | float bits x =>
    simp only [ConvertAndSetField] at h ⊢
    cases hp : PF value bits with
    | none => rfl
    | some y => rw [hp] at h; exact absurd rfl h
  | _ => first | rfl | exact absurd rfl h

theorem modifyN_const_derefN (n : Nat) (x : Value) :
    modifyN (fun _ => derefN n x) n x = x := by
  induction n generalizing x with
  | zero => rfl
  | succ n ih =>
    cases x <;> simp only [modifyN]
    rename_i t
    have : derefN (n + 1) (Value.ptr t) = derefN n t := rfl
    rw [this, ih]

theorem mapTarget_fieldTarget (v : Value) :
    mapTarget (fun _ => fieldTarget v) v = (derefLoop v).1 :=
  modifyN_const_derefN _ _

theorem processField_fails (PF : String → Nat → Option Nat) (env : Env) (f : StructField)
    (value : String) (err : GoError) (hexp : f.Exported = true)
    (hv : env (keyName f) = some value) (hne : value ≠ "")
    (hc : (ConvertAndSetField PF value (fieldTarget f.Val)).2 = some err) :
    processField PF env f = (materialize f, some (fieldError f.Name err)) := by
  have h1 : (ConvertAndSetField PF value (fieldTarget f.Val)).1 = fieldTarget f.Val :=
    ConvertAndSetField_err PF value _ (by rw [hc]; simp)
  rw [processField_convert PF env f value hexp ((fieldValue_some env f value).2 ⟨hv, hne⟩), h1,
    mapTarget_fieldTarget, hc, materialize_exported f hexp]
  rfl

theorem processField_err_iff (PF : String → Nat → Option Nat) (env : Env) (f : StructField) :
    (processField PF env f).2 ≠ none ↔ FailsAt PF env f := by
  unfold FailsAt
  cases hexp : f.Exported with
  | false => simp [processField_unexported PF env f hexp]
  | true =>
    cases hv : fieldValue env f with
    | none =>
      rw [processField_skip PF env f hexp hv]
      simp only [ne_eq, not_true_eq_false, true_and, false_iff, not_exists, not_and]
      intro value h1 h2
      have := (fieldValue_some env f value).2 ⟨h1, h2⟩
      rw [hv] at this
      exact absurd this (by simp)
    | some value =>
      rw [processField_convert PF env f value hexp hv]
      obtain ⟨h1, h2⟩ := (fieldValue_some env f value).1 hv
      constructor
      · intro h
        refine ⟨rfl, value, h1, h2, ?_⟩
        intro hc
        rw [hc] at h
        exact h rfl
      · rintro ⟨-, value1, h3, -, h5⟩
        rw [h1] at h3
        cases h3
        intro hc
        apply h5
        cases hx : (ConvertAndSetField PF value (fieldTarget f.Val)).2 with
        | none => rfl
        | some e => rw [hx] at hc; simp at hc

theorem processField_ok (PF : String → Nat → Option Nat) (env : Env) (f : StructField)
    (h : ¬ FailsAt PF env f) : (processField PF env f).2 = none := by
  by_contra hc
  exact h ((processField_err_iff PF env f).1 hc)

theorem populateFields_append_ok (PF : String → Nat → Option Nat) (env : Env)
    (pre rest : List StructField) (h : ∀ p ∈ pre, ¬ FailsAt PF env p) :
    populateFields PF env (pre ++ rest) =
      (pre.map (fun p => (processField PF env p).1) ++ (populateFields PF env rest).1,
        (populateFields PF env rest).2) := by
  induction pre with
  | nil => rfl
  | cons p pre ih =>
    have hp := processField_ok PF env p (h p (List.mem_cons_self _ _))
    have ih1 := ih (fun q hq => h q (List.mem_cons_of_mem _ hq))
    rw [List.cons_append, populateFields_cons_ok PF env p _ hp, ih1]
    rfl

theorem populateFields_all_ok (PF : String → Nat → Option Nat) (env : Env)
    (fs : List StructField) (h : ∀ p ∈ fs, ¬ FailsAt PF env p) :
    populateFields PF env fs = (fs.map (fun p => (processField PF env p).1), none) := by
  have := populateFields_append_ok PF env fs [] h
  simpa [populateFields] using this

theorem populateFields_first_fail (PF : String → Nat → Option Nat) (env : Env)
    (pre post : List StructField) (f : StructField) (value : String) (err : GoError)
    (h : ∀ p ∈ pre, ¬ FailsAt PF env p) (hexp : f.Exported = true)
    (hv : env (keyName f) = some value) (hne : value ≠ "")
    (hc : (ConvertAndSetField PF value (fieldTarget f.Val)).2 = some err) :
    populateFields PF env (pre ++ f :: post) =
      (pre.map (fun p => (processField PF env p).1) ++ materialize f :: post.map materialize,
        some (fieldError f.Name err)) := by
  have hp := processField_fails PF env f value err hexp hv hne hc
  rw [populateFields_append_ok PF env pre _ h,
    populateFields_cons_err PF env f post (fieldError f.Name err) (by rw [hp]), hp]

theorem populateFields_err_iff (PF : String → Nat → Option Nat) (env : Env)
    (fs : List StructField) :
    (populateFields PF env fs).2 ≠ none ↔ ∃ f ∈ fs, FailsAt PF env f := by
  induction fs with
  | nil => simp [populateFields]
  | cons f fs ih =>
    cases hp : (processField PF env f).2 with
    | none =>
      rw [populateFields_cons_ok PF env f fs hp]
      have hf : ¬ FailsAt PF env f := by
        intro hf
        exact (processField_err_iff PF env f).2 hf hp
      simp only [List.mem_cons, exists_eq_or_imp, hf, false_or]
      exact ih
    | some err =>
      rw [populateFields_cons_err PF env f fs err hp]
      have hf : FailsAt PF env f := (processField_err_iff PF env f).1 (by rw [hp]; simp)
      simp only [ne_eq, reduceCtorEq, not_false_eq_true, true_iff]
      exact ⟨f, List.mem_cons_self _ _, hf⟩

/-! ### Invalid arguments, descriptors (C1, C5) -/

theorem Fields.ofList_toList : ∀ fields : Fields, Fields.ofList fields.toList = fields
  | .nil => rfl
  | .cons n t e v rest => by
    simp [Fields.ofList, Fields.toList, Fields.ofList_toList rest]

theorem CollectFieldInfo_invalid (spec : Value)
    (h : ¬ ∃ fields, spec = .ptr (.struct fields)) :
    CollectFieldInfo spec = (spec, [], some ErrInvalidEnvVarSpecification) := by
  cases spec with
  | ptr target =>
    cases target with
    | struct fields => exact absurd ⟨fields, rfl⟩ h
    | _ => rfl
  | _ => rfl

theorem PopulateFromEnv_invalid (PF : String → Nat → Option Nat) (env : Env) (spec : Value)
    (h : ¬ ∃ fields, spec = .ptr (.struct fields)) :
    PopulateFromEnv PF env spec = (spec, some ErrInvalidEnvVarSpecification) := by
  simp only [PopulateFromEnv, CollectFieldInfo_invalid spec h]

theorem not_record_iff (spec : Value) :
    (¬ ∃ fields, spec = .ptr (.struct fields)) ↔
      (spec.Kind ≠ .Ptr ∨ spec.Elem.Kind ≠ .Struct) := by
  cases spec with
  | ptr target =>
    cases target <;> simp [Value.Kind, Value.Elem]
  | _ => simp [Value.Kind, Value.Elem]

/-- C1: every descriptor returned by `CollectFieldInfo` belongs to a settable
field of the record; its `Alt` is the upper-cased value of the `tenv` tag of the
field, empty when the tag is absent; its `Key` is `Alt` when `Alt` is not empty
and the upper-cased name of the field otherwise. An untagged field named `Host`
gets the key `HOST`, a field tagged `log_level` the key `LOG_LEVEL`; upper-casing
is that of `strings.ToUpper`, over all of Unicode: an untagged field named `Café`
gets the key `CAFÉ`. -/
theorem C1_descriptor_key (spec : Value) (info : EnvVarInfo)
    (h : info ∈ (CollectFieldInfo spec).2.1) :
    ∃ fields, spec = .ptr (.struct fields) ∧ ∃ f ∈ fields.toList,
      f.Exported = true ∧ info.Name = f.Name ∧ info.Tags = f.Tag ∧
      info.Alt = ToUpper (f.Tag.Get "tenv") ∧
      ((∀ kv ∈ f.Tag.pairs, kv.1 ≠ "tenv") → info.Alt = "") ∧
      (info.Alt ≠ "" → info.Key = info.Alt) ∧
      (info.Alt = "" → info.Key = ToUpper f.Name) ∧
      ((∀ kv ∈ f.Tag.pairs, kv.1 ≠ "tenv") → f.Name = "Host" → info.Key = "HOST") ∧
      (f.Tag.Get "tenv" = "log_level" → info.Key = "LOG_LEVEL") ∧
      ((∀ kv ∈ f.Tag.pairs, kv.1 ≠ "tenv") → f.Name = "Café" → info.Key = "CAFÉ") := by
  by_cases hs : ∃ fields, spec = .ptr (.struct fields)
  · obtain ⟨fields, rfl⟩ := hs
    rw [CollectFieldInfo_struct] at h
    obtain ⟨f, hf, hexp, hname, htags, halt, hkey⟩ := collectLoop_mem 0 _ info h
    have habs : (∀ kv ∈ f.Tag.pairs, kv.1 ≠ "tenv") → info.Alt = "" := by
      intro hno
      rw [halt, altName, StructTag.Get_absent f.Tag "tenv" hno]
      rfl
    have hempty : info.Alt = "" → info.Key = ToUpper f.Name := by
      intro h0
      rw [hkey, keyName, if_neg (by rw [← halt, h0]; simp)]
    refine ⟨fields, rfl, f, hf, hexp, hname, htags, halt, habs, ?_, hempty, ?_, ?_, ?_⟩
    · intro hne
      rw [hkey, halt]
      exact keyName_of_alt f (by rw [← halt]; exact hne)
    · intro hno hhost
      rw [hempty (habs hno), hhost]
      decide
    · intro htag
      have ha : altName f = "LOG_LEVEL" := by
        rw [altName, htag]; decide
      rw [hkey, keyName_of_alt f (by rw [ha]; decide), ha]
    · intro hno hcafe
      rw [hempty (habs hno), hcafe]
      decide
  · rw [CollectFieldInfo_invalid spec hs] at h
    simp at h

/-- Witness of C1 on `struct { Host string; LogLevel string "tenv:log_level" }`,
at the descriptor of `LogLevel`. -/
theorem C1_descriptor_key_witness :
    (⟨"LogLevel", "LOG_LEVEL", "LOG_LEVEL", ⟨1, 0⟩, ⟨[("tenv", "log_level")]⟩⟩ : EnvVarInfo)
        ∈ (CollectFieldInfo exKeys).2.1 ∧
      ∃ fields, exKeys = .ptr (.struct fields) ∧ ∃ f ∈ fields.toList,
        f.Exported = true ∧ "LogLevel" = f.Name ∧
        (⟨[("tenv", "log_level")]⟩ : StructTag) = f.Tag ∧
        "LOG_LEVEL" = ToUpper (f.Tag.Get "tenv") ∧
        ((∀ kv ∈ f.Tag.pairs, kv.1 ≠ "tenv") → "LOG_LEVEL" = "") ∧
        ("LOG_LEVEL" ≠ "" → "LOG_LEVEL" = "LOG_LEVEL") ∧
        ("LOG_LEVEL" = "" → "LOG_LEVEL" = ToUpper f.Name) ∧
        ((∀ kv ∈ f.Tag.pairs, kv.1 ≠ "tenv") → f.Name = "Host" → "LOG_LEVEL" = "HOST") ∧
        (f.Tag.Get "tenv" = "log_level" → "LOG_LEVEL" = "LOG_LEVEL") ∧
        ((∀ kv ∈ f.Tag.pairs, kv.1 ≠ "tenv") → f.Name = "Café" → "LOG_LEVEL" = "CAFÉ") :=
  ⟨by decide, C1_descriptor_key exKeys
    ⟨"LogLevel", "LOG_LEVEL", "LOG_LEVEL", ⟨1, 0⟩, ⟨[("tenv", "log_level")]⟩⟩ (by decide)⟩

/-- C5: `CollectFieldInfo` returns `ErrInvalidEnvVarSpecification`, with no
descriptor, exactly when its argument is not a non-nil pointer to a record (a
non-pointer, a pointer to a non-record or a nil pointer, as the two tests of the
code say), and returns no error otherwise; on such an argument `PopulateFromEnv`
returns the same error whatever the environment and leaves the argument as it
was. -/
theorem C5_invalid_specification (spec : Value) :
    ((CollectFieldInfo spec).2.2 = some ErrInvalidEnvVarSpecification ↔
      ¬ ∃ fields, spec = .ptr (.struct fields)) ∧
    ((CollectFieldInfo spec).2.2 = none ↔ ∃ fields, spec = .ptr (.struct fields)) ∧
    ((¬ ∃ fields, spec = .ptr (.struct fields)) ↔
      (spec.Kind ≠ .Ptr ∨ spec.Elem.Kind ≠ .Struct)) ∧
    ((¬ ∃ fields, spec = .ptr (.struct fields)) →
      (CollectFieldInfo spec).2.1 = [] ∧ (CollectFieldInfo spec).1 = spec ∧
      ∀ (ParseFloat : String → Nat → Option Nat) (env : Env),
        PopulateFromEnv ParseFloat env spec = (spec, some ErrInvalidEnvVarSpecification)) := by
  refine ⟨?_, ?_, not_record_iff spec, ?_⟩
  · constructor
    · rintro h ⟨fields, rfl⟩
      rw [CollectFieldInfo_struct] at h
      simp at h
    · intro h
      rw [CollectFieldInfo_invalid spec h]
  · constructor
    · intro h
      by_contra hn
      rw [CollectFieldInfo_invalid spec hn] at h
      simp at h
    · rintro ⟨fields, rfl⟩
      rw [CollectFieldInfo_struct]
  · intro h
    refine ⟨by rw [CollectFieldInfo_invalid spec h], by rw [CollectFieldInfo_invalid spec h], ?_⟩
    intro PF env
    exact PopulateFromEnv_invalid PF env spec h

/-! ### The pointer loop -/

theorem fieldsOf_recordOf (fs : List StructField) : fieldsOf (recordOf fs) = fs := by
  simp [fieldsOf, recordOf, Fields.toList_ofList]

theorem PopulateFromEnv_recordOf (PF : String → Nat → Option Nat) (env : Env)
    (fs : List StructField) :
    PopulateFromEnv PF env (recordOf fs) =
      (recordOf (populateFields PF env fs).1, (populateFields PF env fs).2) := by
  rw [recordOf, PopulateFromEnv_struct, Fields.toList_ofList]
  rfl

theorem PopulateFromEnv_fields (PF : String → Nat → Option Nat) (env : Env) (fields : Fields) :
    PopulateFromEnv PF env (.ptr (.struct fields)) =
      (recordOf (populateFields PF env fields.toList).1,
        (populateFields PF env fields.toList).2) :=
  PopulateFromEnv_struct PF env fields

theorem derefLoop_of_not_nilStructPtr :
    ∀ v : Value, nilStructPtr v = false → (derefLoop v).1 = v
  | .nilPtr elem => by
    intro h
    simp only [nilStructPtr, decide_eq_false_iff_not] at h
    simp [derefLoop, h]
  | .ptr target => by
    intro h
    simp only [nilStructPtr] at h
    simp [derefLoop, derefLoop_of_not_nilStructPtr target h]
  | .invalid => fun _ => rfl
  | .str _ => fun _ => rfl
  | .int _ _ => fun _ => rfl
  | .uint _ _ => fun _ => rfl
  | .bool _ => fun _ => rfl
  | .float _ _ => fun _ => rfl
  | .struct _ => fun _ => rfl
  | .other _ _ => fun _ => rfl

theorem materialize_of_not_nilStructPtr (f : StructField) (h : nilStructPtr f.Val = false) :
    materialize f = f := by
  unfold materialize
  split
  · rfl
  · rw [derefLoop_of_not_nilStructPtr f.Val h]

theorem zero_Kind (t : Ty) : (zero t).Kind = t.Kind := by
  cases t <;> rfl

theorem fieldTarget_ptr (t : Value) : fieldTarget (.ptr t) = fieldTarget t := rfl

theorem fieldTarget_of_nilStructPtr :
    ∀ v : Value, nilStructPtr v = true → (fieldTarget v).Kind = .Struct
  | .nilPtr elem => by
    intro h
    simp only [nilStructPtr, decide_eq_true_eq] at h
    simp only [fieldTarget, derefLoop, h, ne_eq, not_true_eq_false, if_false, derefN, Value.Elem]
    rw [zero_Kind, h]
  | .ptr target => by
    intro h
    simp only [nilStructPtr] at h
    rw [fieldTarget_ptr]
    exact fieldTarget_of_nilStructPtr target h
  | .invalid => by intro h; simp [nilStructPtr] at h
  | .str _ => by intro h; simp [nilStructPtr] at h
  | .int _ _ => by intro h; simp [nilStructPtr] at h
  | .uint _ _ => by intro h; simp [nilStructPtr] at h
  | .bool _ => by intro h; simp [nilStructPtr] at h
  | .float _ _ => by intro h; simp [nilStructPtr] at h
  | .struct _ => by intro h; simp [nilStructPtr] at h
  | .other _ _ => by intro h; simp [nilStructPtr] at h

theorem ConvertAndSetField_struct (PF : String → Nat → Option Nat) (value : String) (v : Value)
    (h : v.Kind = .Struct) : ConvertAndSetField PF value v = (v, none) := by
  cases v <;> simp [Value.Kind] at h
  rfl

theorem FailsAt_not_nilStructPtr (PF : String → Nat → Option Nat) (env : Env) (f : StructField)
    (h : FailsAt PF env f) : nilStructPtr f.Val = false := by
  obtain ⟨-, value, -, -, hc⟩ := h
  cases hn : nilStructPtr f.Val with
  | false => rfl
  | true =>
    rw [ConvertAndSetField_struct PF value _ (fieldTarget_of_nilStructPtr _ hn)] at hc
    exact absurd rfl hc

theorem fieldTarget_scalar (v : Value) (h : v.Kind ≠ .Ptr) :
    fieldTarget v = v ∧ ∀ g, mapTarget g v = g v := by
  cases v <;> first | exact ⟨rfl, fun _ => rfl⟩ | exact absurd rfl h

/-! ### Errors and partial population (C2, C3) -/

theorem ConvertAndSetField_err_iff (PF : String → Nat → Option Nat) (value : String)
    (v : Value) :
    (ConvertAndSetField PF value v).2 ≠ none ↔
      match v with
      | .int bits _ => (ParseInt value.data 0 bits).2 ≠ none
      | .uint bits _ => (ParseUint value.data 0 bits).2 ≠ none
      | .bool _ => (ParseBool value).2 ≠ none
      | .float bits _ => PF value bits = none
      | _ => False := by
  cases v with
  | int bits x =>
    simp only [ConvertAndSetField]
    by_cases hp : (ParseInt value.data 0 bits).2 ≠ none
    · rw [if_pos hp]; simp [hp]
    · rw [if_neg hp]; simp [hp]
  | uint bits x =>
    simp only [ConvertAndSetField]
    by_cases hp : (ParseUint value.data 0 bits).2 ≠ none
    · rw [if_pos hp]; simp [hp]
    · rw [if_neg hp]; simp [hp]
  | bool b =>
    simp only [ConvertAndSetField]
    by_cases hp : (ParseBool value).2 ≠ none
    · rw [if_pos hp]; simp [hp]
    · rw [if_neg hp]; simp [hp]
  | float bits x =>
    simp only [ConvertAndSetField]
    cases hp : PF value bits <;> simp
  | _ => simp [ConvertAndSetField]

/-- C2: on a pointer to a record, `PopulateFromEnv` returns an error if and only
if some settable field has a present, non-empty value under its key for which
`ConvertAndSetField` fails (`FailsAt`); the error is the one of the first such
field in declaration order, with the message `error processing field `, the
declared name of the field, `: ` and the message of the conversion error.
`ConvertAndSetField` fails exactly when the field is an integer, unsigned,
boolean or float and the parser of its kind rejects the value. -/
theorem C2_error_of_first_failure (ParseFloat : String → Nat → Option Nat) (env : Env)
    (fields : Fields) :
    ((PopulateFromEnv ParseFloat env (.ptr (.struct fields))).2 ≠ none ↔
      ∃ f ∈ fields.toList, FailsAt ParseFloat env f) ∧
    (∀ (pre post : List StructField) (f : StructField) (value : String) (err : GoError),
      fields.toList = pre ++ f :: post → (∀ p ∈ pre, ¬ FailsAt ParseFloat env p) →
      f.Exported = true → env (keyName f) = some value → value ≠ "" →
      (ConvertAndSetField ParseFloat value (fieldTarget f.Val)).2 = some err →
      (PopulateFromEnv ParseFloat env (.ptr (.struct fields))).2 =
        some (.Wrap ("error processing field " ++ f.Name ++ ": " ++ err.Error) err)) ∧
    (∀ (value : String) (v : Value),
      (ConvertAndSetField ParseFloat value v).2 ≠ none ↔
        match v with
        | .int bits _ => (ParseInt value.data 0 bits).2 ≠ none
        | .uint bits _ => (ParseUint value.data 0 bits).2 ≠ none
        | .bool _ => (ParseBool value).2 ≠ none
        | .float bits _ => ParseFloat value bits = none
        | _ => False) := by
  rw [PopulateFromEnv_fields]
  refine ⟨populateFields_err_iff ParseFloat env _, ?_, ConvertAndSetField_err_iff ParseFloat⟩
  intro pre post f value err hsplit hpre hexp hv hne hc
  rw [hsplit, populateFields_first_fail ParseFloat env pre post f value err hpre hexp hv hne hc]
  rfl

theorem not_FailsAt_str (PF : String → Nat → Option Nat) (env : Env) (n : String)
    (t : StructTag) (e : Bool) (s : String) : ¬ FailsAt PF env ⟨n, t, e, .str s⟩ := by
  rintro ⟨-, value, -, -, h⟩
  exact h rfl

/-- Witness of C2: `PORT=abc` on `struct { Host string; Port int; Sub *struct{} }`. -/
theorem C2_error_of_first_failure_witness :
    (PopulateFromEnv noFloat envPortAbc (recordOf exPort)).2 =
      some (.Wrap "error processing field Port: invalid value for int: abc"
        (.New "invalid value for int: abc")) :=
  (C2_error_of_first_failure noFloat envPortAbc (Fields.ofList exPort)).2.1
    [⟨"Host", ⟨[("tenv", "HOST")]⟩, true, .str ""⟩] [⟨"Sub", ⟨[]⟩, true, .nilPtr (.struct .nil)⟩]
    ⟨"Port", ⟨[("tenv", "PORT")]⟩, true, .int 64 0⟩ "abc" (.New "invalid value for int: abc")
    (by decide)
    (by
      intro p hp
      rw [List.mem_singleton] at hp
      subst hp
      exact not_FailsAt_str _ _ _ _ _ _)
    rfl (by decide) (by decide) (by decide)

/-- C3 as stated fails: with `PORT=abc` the call fails at `Port`, and the field
`Sub`, declared after `Port`, no longer holds the nil pointer it held before the
call. -/
theorem C3_counterexample :
    PopulateFromEnv noFloat envPortAbc (recordOf exPort) =
      (recordOf [⟨"Host", ⟨[("tenv", "HOST")]⟩, true, .str "localhost"⟩,
          ⟨"Port", ⟨[("tenv", "PORT")]⟩, true, .int 64 0⟩,
          ⟨"Sub", ⟨[]⟩, true, .ptr (.struct .nil)⟩],
        some (.Wrap "error processing field Port: invalid value for int: abc"
          (.New "invalid value for int: abc"))) ∧
      (fieldsOf (PopulateFromEnv noFloat envPortAbc (recordOf exPort)).1)[2]? ≠
        (fieldsOf (recordOf exPort))[2]? := by
  decide

/-- C3, amended: when `PopulateFromEnv` fails on a conversion at the field `f`,
the record holds, in order, the fields declared before `f` after their own round
(`processField`), then `f` as it was, then the fields declared after `f` as
`CollectFieldInfo` left them (`materialize`). The round of a settable field
declared before `f` stored the value converted from its own variable when that
variable is present and not empty, and left the field as `CollectFieldInfo` left
it otherwise; a field that is not settable is as before. `CollectFieldInfo`
changes no field other than a settable nil pointer to a record (`nilStructPtr`). -/
theorem C3_partial_population (ParseFloat : String → Nat → Option Nat) (env : Env)
    (fields : Fields) (pre post : List StructField) (f : StructField)
    (hsplit : fields.toList = pre ++ f :: post)
    (hpre : ∀ p ∈ pre, ¬ FailsAt ParseFloat env p) (hf : FailsAt ParseFloat env f) :
    (∃ err, PopulateFromEnv ParseFloat env (.ptr (.struct fields)) =
      (recordOf (pre.map (fun p => (processField ParseFloat env p).1) ++
        f :: post.map materialize), some err)) ∧
    (∀ p ∈ pre, p.Exported = true → ∀ value, env (keyName p) = some value → value ≠ "" →
      (ConvertAndSetField ParseFloat value (fieldTarget p.Val)).2 = none ∧
      (processField ParseFloat env p).1 = ⟨p.Name, p.Tag, p.Exported,
        mapTarget (fun _ => (ConvertAndSetField ParseFloat value (fieldTarget p.Val)).1) p.Val⟩) ∧
    (∀ p ∈ pre, p.Exported = true → (env (keyName p) = none ∨ env (keyName p) = some "") →
      (processField ParseFloat env p).1 = materialize p) ∧
    (∀ p ∈ pre, p.Exported = false → (processField ParseFloat env p).1 = p) ∧
    (∀ q : StructField, (q.Exported = false ∨ nilStructPtr q.Val = false) → materialize q = q) ∧
    (∀ v : Value, v.Kind ≠ .Ptr → fieldTarget v = v ∧ ∀ g, mapTarget g v = g v) := by
  refine ⟨?_, ?_, ?_, ?_, ?_, fieldTarget_scalar⟩
  · obtain ⟨hexp, value, hv, hne, hc⟩ := hf
    cases hc1 : (ConvertAndSetField ParseFloat value (fieldTarget f.Val)).2 with
    | none => exact absurd hc1 hc
    | some err =>
      refine ⟨fieldError f.Name err, ?_⟩
      rw [PopulateFromEnv_fields, hsplit,
        populateFields_first_fail ParseFloat env pre post f value err hpre hexp hv hne hc1,
        materialize_of_not_nilStructPtr f
          (FailsAt_not_nilStructPtr ParseFloat env f ⟨hexp, value, hv, hne, hc⟩)]
  · intro p hp hexp value hv hne
    have hok : (ConvertAndSetField ParseFloat value (fieldTarget p.Val)).2 = none := by
      by_contra hc
      exact hpre p hp ⟨hexp, value, hv, hne, hc⟩
    refine ⟨hok, ?_⟩
    rw [processField_convert ParseFloat env p value hexp
      ((fieldValue_some env p value).2 ⟨hv, hne⟩)]
  · intro p _ hexp hkey
    rw [processField_skip ParseFloat env p hexp ((fieldValue_none env p).2 hkey)]
  · intro p _ hexp
    rw [processField_unexported ParseFloat env p hexp]
  · rintro q (h | h)
    · exact materialize_unexported q h
    · exact materialize_of_not_nilStructPtr q h

/-- Witness of C3 (amended): `PORT=abc` on
`struct { Host string; Port int; Sub *struct{} }` fails at `Port`. -/
theorem C3_partial_population_witness :
    FailsAt noFloat envPortAbc ⟨"Port", ⟨[("tenv", "PORT")]⟩, true, .int 64 0⟩ ∧
    ∃ err, PopulateFromEnv noFloat envPortAbc (.ptr (.struct (Fields.ofList exPort))) =
      (recordOf ([⟨"Host", ⟨[("tenv", "HOST")]⟩, true, .str ""⟩].map
          (fun p => (processField noFloat envPortAbc p).1) ++
        ⟨"Port", ⟨[("tenv", "PORT")]⟩, true, .int 64 0⟩ ::
          [⟨"Sub", ⟨[]⟩, true, .nilPtr (.struct .nil)⟩].map materialize), some err) :=
  ⟨⟨rfl, "abc", by decide, by decide, by decide⟩,
    (C3_partial_population noFloat envPortAbc (Fields.ofList exPort)
      [⟨"Host", ⟨[("tenv", "HOST")]⟩, true, .str ""⟩]
      [⟨"Sub", ⟨[]⟩, true, .nilPtr (.struct .nil)⟩]
      ⟨"Port", ⟨[("tenv", "PORT")]⟩, true, .int 64 0⟩
      (by decide)
      (by
        intro p hp
        rw [List.mem_singleton] at hp
        subst hp
        exact not_FailsAt_str _ _ _ _ _ _)
      ⟨rfl, "abc", by decide, by decide, by decide⟩).1⟩

/-! ### Missing and empty variables: the loop -/

theorem populateFields_skip (PF : String → Nat → Option Nat) (env : Env)
    (pre post : List StructField) (f : StructField)
    (hkey : env (keyName f) = none ∨ env (keyName f) = some "") :
    (populateFields PF env (pre ++ f :: post)).2 = (populateFields PF env (pre ++ post)).2 ∧
    ∃ pre1 post1, (populateFields PF env (pre ++ f :: post)).1 =
      pre1 ++ materialize f :: post1 ∧ pre1.length = pre.length := by
  have hf : processField PF env f = (materialize f, none) := by
    cases hexp : f.Exported with
    | false => rw [processField_unexported PF env f hexp, materialize_unexported f hexp]
    | true => exact processField_skip PF env f hexp ((fieldValue_none env f).2 hkey)
  induction pre with
  | nil =>
    rw [List.nil_append, List.nil_append,
      populateFields_cons_ok PF env f post (by rw [hf]), hf]
    exact ⟨rfl, [], (populateFields PF env post).1, rfl, rfl⟩
  | cons p pre ih =>
    obtain ⟨ih1, pre1, post1, ih2, ih3⟩ := ih
    cases hp : (processField PF env p).2 with
    | none =>
      rw [List.cons_append, List.cons_append, populateFields_cons_ok PF env p _ hp,
        populateFields_cons_ok PF env p _ hp]
      refine ⟨ih1, (processField PF env p).1 :: pre1, post1, ?_, ?_⟩
      · simp only [ih2, List.cons_append]
      · simp [ih3]
    | some err =>
      rw [List.cons_append, List.cons_append, populateFields_cons_err PF env p _ err hp,
        populateFields_cons_err PF env p _ err hp]
      refine ⟨rfl, (processField PF env p).1 :: pre.map materialize, post.map materialize, ?_, ?_⟩
      · simp
      · simp

/-! ### Boolean forms through the whole call (C9) -/

theorem getElem?_length_append {α : Type} (l1 l2 : List α) (x : α) (n : Nat)
    (h : l1.length = n) : (l1 ++ x :: l2)[n]? = some x := by
  subst h
  induction l1 with
  | nil => simp
  | cons p pre ih => simpa using ih

theorem keyName_of_tag (f : StructField) (h : f.Tag.Get "tenv" = "DEBUG") :
    keyName f = "DEBUG" := by
  have ha : altName f = "DEBUG" := by rw [altName, h]; decide
  rw [keyName_of_alt f (by rw [ha]; decide), ha]

theorem ConvertAndSetField_bool (PF : String → Nat → Option Nat) (value : String) (b : Bool) :
    ConvertAndSetField PF value (.bool b) =
      if (ParseBool value).2 ≠ none then
        (.bool b, some (.New ("invalid value for bool: " ++ value)))
      else (.bool (ParseBool value).1, none) := rfl

/-- C9: for a settable boolean field annotated `DEBUG`, in a record whose other
fields do not fail, `PopulateFromEnv` with `DEBUG` set to `true`, `1` or `T`
returns nil and leaves the field true whatever its prior value; with `DEBUG` set
to `yes` (no field before it failing) it returns the error that wraps
`invalid value for bool: yes` and leaves the field at its prior value. -/
theorem C9_debug_forms (ParseFloat : String → Nat → Option Nat) (env : Env)
    (pre post : List StructField) (name : String) (tag : StructTag) (prior : Bool)
    (htag : tag.Get "tenv" = "DEBUG") (hpre : ∀ p ∈ pre, ¬ FailsAt ParseFloat env p) :
    ((env "DEBUG" = some "true" ∨ env "DEBUG" = some "1" ∨ env "DEBUG" = some "T") →
      (∀ q ∈ post, ¬ FailsAt ParseFloat env q) →
      (PopulateFromEnv ParseFloat env
        (recordOf (pre ++ ⟨name, tag, true, .bool prior⟩ :: post))).2 = none ∧
      (fieldsOf (PopulateFromEnv ParseFloat env
        (recordOf (pre ++ ⟨name, tag, true, .bool prior⟩ :: post))).1)[pre.length]? =
          some ⟨name, tag, true, .bool true⟩) ∧
    (env "DEBUG" = some "yes" →
      (PopulateFromEnv ParseFloat env
        (recordOf (pre ++ ⟨name, tag, true, .bool prior⟩ :: post))).2 =
          some (.Wrap ("error processing field " ++ name ++ ": " ++ "invalid value for bool: yes")
            (.New "invalid value for bool: yes")) ∧
      (fieldsOf (PopulateFromEnv ParseFloat env
        (recordOf (pre ++ ⟨name, tag, true, .bool prior⟩ :: post))).1)[pre.length]? =
          some ⟨name, tag, true, .bool prior⟩) := by
  have hk : keyName ⟨name, tag, true, .bool prior⟩ = "DEBUG" := keyName_of_tag _ htag
  have hgood : ∀ value, (value = "true" ∨ value = "1" ∨ value = "T") →
      ConvertAndSetField ParseFloat value (.bool prior) = (.bool true, none) := by
    intro value hv
    have hp : ParseBool value = (true, none) := by
      rcases hv with rfl | rfl | rfl <;> decide
    rw [ConvertAndSetField_bool, hp]
    rfl
  constructor
  · intro henv hpost
    have hval : ∃ value, env "DEBUG" = some value ∧ (value = "true" ∨ value = "1" ∨ value = "T") := by
      rcases henv with h | h | h
      · exact ⟨_, h, Or.inl rfl⟩
      · exact ⟨_, h, Or.inr (Or.inl rfl)⟩
      · exact ⟨_, h, Or.inr (Or.inr rfl)⟩
    obtain ⟨value, hv, hform⟩ := hval
    have hne : value ≠ "" := by rcases hform with rfl | rfl | rfl <;> decide
    have hnf : ¬ FailsAt ParseFloat env ⟨name, tag, true, .bool prior⟩ := by
      rintro ⟨-, value1, hv1, -, hc⟩
      rw [hk, hv] at hv1
      cases hv1
      exact hc (by rw [show fieldTarget (.bool prior) = .bool prior from rfl, hgood value hform])
    have hproc : (processField ParseFloat env ⟨name, tag, true, .bool prior⟩).1 =
        ⟨name, tag, true, .bool true⟩ := by
      rw [processField_convert ParseFloat env _ value rfl
        ((fieldValue_some env _ value).2 ⟨by rw [hk]; exact hv, hne⟩)]
      simp only [show fieldTarget (.bool prior) = .bool prior from rfl, hgood value hform]
      rfl
    have hall : ∀ p ∈ pre ++ ⟨name, tag, true, .bool prior⟩ :: post, ¬ FailsAt ParseFloat env p := by
      intro p hp
      rcases List.mem_append.1 hp with h | h
      · exact hpre p h
      · rcases List.mem_cons.1 h with h | h
        · rw [h]; exact hnf
        · exact hpost p h
    rw [PopulateFromEnv_recordOf, populateFields_all_ok ParseFloat env _ hall, fieldsOf_recordOf]
    refine ⟨rfl, ?_⟩
    rw [List.map_append, List.map_cons, hproc]
    exact getElem?_length_append _ _ _ _ (by simp)
  · intro henv
    have hc : (ConvertAndSetField ParseFloat "yes" (fieldTarget (.bool prior))).2 =
        some (.New "invalid value for bool: yes") := by
      have hp : ParseBool "yes" = (false, some .ErrSyntax) := by decide
      rw [show fieldTarget (.bool prior) = .bool prior from rfl, ConvertAndSetField_bool, hp]
      rfl
    rw [PopulateFromEnv_recordOf,
      populateFields_first_fail ParseFloat env pre post ⟨name, tag, true, .bool prior⟩ "yes"
        (.New "invalid value for bool: yes") hpre rfl (by rw [hk]; exact henv) (by decide) hc,
      fieldsOf_recordOf]
    refine ⟨rfl, ?_⟩
    rw [materialize_of_not_nilStructPtr _ (by rfl)]
    exact getElem?_length_append _ _ _ _ (by simp)

/-- Witness of C9: `struct { Debug bool "tenv:DEBUG" }` with `Debug` false and
`DEBUG=true`. -/
theorem C9_debug_forms_witness :
    (PopulateFromEnv noFloat (envDebug "true") (recordOf [exDebug false])).2 = none ∧
    (fieldsOf (PopulateFromEnv noFloat (envDebug "true") (recordOf [exDebug false])).1)[0]? =
      some (exDebug true) :=
  (C9_debug_forms noFloat (envDebug "true") [] [] "Debug" ⟨[("tenv", "DEBUG")]⟩ false
    (by decide) (by simp)).1 (Or.inl (by decide)) (by simp)

/-! ### strconv: the digit loop -/

theorem lower_digit (c : Nat) (h1 : 48 ≤ c) (h2 : c ≤ 57) : lower c = c := by
  unfold lower
  interval_cases c <;> rfl

theorem lower_lowercase (c : Nat) (h1 : 97 ≤ c) (h2 : c ≤ 122) : lower c = c := by
  unfold lower
  interval_cases c <;> rfl

theorem lower_uppercase (c : Nat) (h1 : 65 ≤ c) (h2 : c ≤ 90) : lower c = c + 32 := by
  unfold lower
  interval_cases c <;> rfl

theorem digitOf_of_hexVal (ch : Char) (d : Nat) (h : hexVal ch = some d) :
    digitOf ch.toNat = some d ∧ ch.toNat ≠ 95 := by
  unfold hexVal at h
  unfold digitOf
  by_cases h1 : 48 ≤ ch.toNat ∧ ch.toNat ≤ 57
  · rw [if_pos h1] at h ⊢
    exact ⟨h, by omega⟩
  · rw [if_neg h1] at h ⊢
    by_cases h2 : 97 ≤ ch.toNat ∧ ch.toNat ≤ 102
    · rw [if_pos h2] at h
      rw [lower_lowercase _ h2.1 (by omega), if_pos ⟨h2.1, by omega⟩]
      refine ⟨?_, by omega⟩
      rw [← h]
      congr 1
      omega
    · rw [if_neg h2] at h
      by_cases h3 : 65 ≤ ch.toNat ∧ ch.toNat ≤ 70
      · rw [if_pos h3] at h
        rw [lower_uppercase _ h3.1 (by omega), if_pos ⟨by omega, by omega⟩]
        refine ⟨?_, by omega⟩
        rw [← h]
        congr 1
        omega
      · rw [if_neg h3] at h
        exact absurd h (by simp)

theorem isNumeral_cons (b : Nat) (ch : Char) (ds : List Char) (h : isNumeral b (ch :: ds) = true) :
    (∃ d, hexVal ch = some d ∧ d < b) ∧ isNumeral b ds = true := by
  simp only [isNumeral, List.all_cons, Bool.and_eq_true] at h
  refine ⟨?_, h.2⟩
  cases hv : hexVal ch with
  | none => rw [hv] at h; simp at h
  | some d =>
    rw [hv] at h
    exact ⟨d, rfl, by simpa using h.1⟩

theorem foldl_ge (b : Nat) (ds : List Char) (n : Nat) (hb : 1 ≤ b) :
    n ≤ ds.foldl (fun a ch => a * b + (hexVal ch).getD 0) n := by
  induction ds generalizing n with
  | nil => exact Nat.le_refl _
  | cons ch ds ih =>
    simp only [List.foldl_cons]
    calc n ≤ n * b := Nat.le_mul_of_pos_right n hb
      _ ≤ n * b + (hexVal ch).getD 0 := Nat.le_add_right _ _
      _ ≤ _ := ih _

theorem parseUintLoop_numeral (b : Nat) (hb1 : 2 ≤ b) (hb2 : b ≤ 16) (base0 : Bool)
    (maxVal : Nat) (hmax : maxVal ≤ maxUint64) (ds : List Char)
    (hds : isNumeral b ds = true) (n : Nat) (hn : n ≤ maxVal) (us : Bool) :
    parseUintLoop b base0 (maxUint64 / b + 1) maxVal ds n us =
      if ds.foldl (fun a ch => a * b + (hexVal ch).getD 0) n ≤ maxVal then
        .ok (ds.foldl (fun a ch => a * b + (hexVal ch).getD 0) n, us)
      else .error (maxVal, .ErrRange) := by
  induction ds generalizing n with
  | nil => simp [parseUintLoop, hn]
  | cons ch ds ih =>
    obtain ⟨⟨d, hd, hdb⟩, hrest⟩ := isNumeral_cons b ch ds hds
    obtain ⟨hdig, h95⟩ := digitOf_of_hexVal ch d hd
    have hM : maxUint64 = 18446744073709551615 := by decide
    have hP : (2 : Nat) ^ 64 = 18446744073709551616 := by norm_num
    simp only [parseUintLoop, List.foldl_cons, hd, Option.getD_some]
    rw [if_neg (by intro h; exact h95 h.1), hdig]
    simp only
    rw [if_neg (by rw [Nat.mod_eq_of_lt (by omega)]; omega)]
    have hge := foldl_ge b ds (n * b + d) (by omega)
    by_cases hcut : n ≥ maxUint64 / b + 1
    · rw [if_pos hcut]
      have : maxUint64 < n * b := by
        have := (Nat.div_lt_iff_lt_mul (by omega : 0 < b)).1 (by omega : maxUint64 / b < n)
        exact this
      rw [if_neg (by omega)]
    · rw [if_neg hcut]
      have hnb : n * b ≤ maxUint64 := by
        have h1 : n ≤ maxUint64 / b := by omega
        calc n * b ≤ maxUint64 / b * b := Nat.mul_le_mul_right _ h1
          _ ≤ maxUint64 := Nat.div_mul_le_self _ _
      have hmod : n * b % 2 ^ 64 = n * b := Nat.mod_eq_of_lt (by omega)
      rw [hmod]
      by_cases hov : n * b + d ≤ maxVal
      · have hmod2 : (n * b + d) % 2 ^ 64 = n * b + d := Nat.mod_eq_of_lt (by omega)
        rw [hmod2, if_neg (by omega)]
        exact ih hrest (n * b + d) hov
      · have hbad : (n * b + d) % 2 ^ 64 < n * b ∨ (n * b + d) % 2 ^ 64 > maxVal := by
          by_cases hw : n * b + d < 2 ^ 64
          · right
            rw [Nat.mod_eq_of_lt hw]
            omega
          · left
            have : (n * b + d) % 2 ^ 64 = n * b + d - 2 ^ 64 := by
              rw [Nat.mod_eq_sub_mod (by omega), Nat.mod_eq_of_lt (by omega)]
            omega
        rw [if_pos hbad, if_neg (by omega)]

/-! ### strconv: ParseUint on numerals -/

theorem maxVal_eq (w : Nat) (hw : w = 8 ∨ w = 16 ∨ w = 32 ∨ w = 64) :
    (2 ^ w % 2 ^ 64 + 2 ^ 64 - 1) % 2 ^ 64 = 2 ^ w - 1 := by
  rcases hw with rfl | rfl | rfl | rfl <;> norm_num

theorem ParseUint_of_detectBase (s ds : List Char) (b w : Nat)
    (hw : w = 8 ∨ w = 16 ∨ w = 32 ∨ w = 64) (hs : s ≠ []) (hdet : detectBase s = (b, ds))
    (hb1 : 2 ≤ b) (hb2 : b ≤ 16) (hds : isNumeral b ds = true) :
    ParseUint s 0 w =
      if numeralValue b ds ≤ 2 ^ w - 1 then (numeralValue b ds, none)
      else (2 ^ w - 1, some .ErrRange) := by
  have hw64 : ¬ w > 64 := by rcases hw with rfl | rfl | rfl | rfl <;> omega
  have hw0 : ¬ w = 0 := by rcases hw with rfl | rfl | rfl | rfl <;> omega
  have hmaxle : 2 ^ w - 1 ≤ maxUint64 := by
    rcases hw with rfl | rfl | rfl | rfl <;> decide
  have hloop := parseUintLoop_numeral b hb1 hb2 true (2 ^ w - 1) hmaxle ds hds 0 (Nat.zero_le _) false
  unfold ParseUint
  rw [if_neg hs]
  simp only [show ¬ (2 ≤ 0 ∧ 0 ≤ 36) by omega, if_false, if_true, hdet, hw64, hw0,
    maxVal_eq w hw, decide_True]
  rw [hloop]
  unfold numeralValue
  by_cases hfit : List.foldl (fun a ch => a * b + (hexVal ch).getD 0) 0 ds ≤ 2 ^ w - 1
  · simp only [if_pos hfit]
    simp
  · simp only [if_neg hfit]

theorem detectBase_plain (ch : Char) (ds : List Char) (h : ch ≠ '0') :
    detectBase (ch :: ds) = (10, ch :: ds) := by
  simp [detectBase, h]

theorem hexVal_lt_8 (ch : Char) (d : Nat) (h : hexVal ch = some d) (hd : d < 10) :
    48 ≤ ch.toNat ∧ ch.toNat ≤ 57 := by
  unfold hexVal at h
  by_cases h1 : 48 ≤ ch.toNat ∧ ch.toNat ≤ 57
  · exact h1
  · rw [if_neg h1] at h
    by_cases h2 : 97 ≤ ch.toNat ∧ ch.toNat ≤ 102
    · rw [if_pos h2] at h
      simp only [Option.some.injEq] at h
      omega
    · rw [if_neg h2] at h
      by_cases h3 : 65 ≤ ch.toNat ∧ ch.toNat ≤ 70
      · rw [if_pos h3] at h
        simp only [Option.some.injEq] at h
        omega
      · rw [if_neg h3] at h
        exact absurd h (by simp)

theorem detectBase_octal (ds : List Char) (h : isNumeral 8 ds = true) :
    detectBase ('0' :: ds) = (8, ds) := by
  match ds, h with
  | [], _ => rfl
  | [c], _ => rfl
  | c1 :: c2 :: rest, h =>
    obtain ⟨⟨d, hd, hd8⟩, -⟩ := isNumeral_cons 8 c1 _ h
    obtain ⟨h1, h2⟩ := hexVal_lt_8 c1 d hd (by omega)
    have hl := lower_digit c1.toNat h1 h2
    simp only [detectBase, if_true, hl]
    rw [if_neg (by omega), if_neg (by omega), if_neg (by omega)]

theorem detectBase_hex (x ch : Char) (ds : List Char) (hx : x = 'x' ∨ x = 'X') :
    detectBase ('0' :: x :: ch :: ds) = (16, ch :: ds) := by
  rcases hx with rfl | rfl <;> rfl

theorem ParseUint_plainDecimal (ds : List Char) (w : Nat)
    (hw : w = 8 ∨ w = 16 ∨ w = 32 ∨ w = 64) (h : isPlainDecimal ds = true) :
    ParseUint ds 0 w =
      if numeralValue 10 ds ≤ 2 ^ w - 1 then (numeralValue 10 ds, none)
      else (2 ^ w - 1, some .ErrRange) := by
  simp only [isPlainDecimal, Bool.and_eq_true, Bool.or_eq_true, bne_iff_ne, ne_eq,
    beq_iff_eq] at h
  obtain ⟨hnum, hne, hlead⟩ := h
  rcases hlead with h0 | hlead
  · subst h0
    have := ParseUint_of_detectBase ['0'] [] 8 w hw (by simp) rfl (by omega) (by omega) rfl
    rw [this]
    rfl
  · match ds, hne, hlead, hnum with
    | ch :: rest, _, hlead, hnum =>
      have hch : ch ≠ '0' := by
        intro h; apply hlead; rw [h]; rfl
      exact ParseUint_of_detectBase _ _ 10 w hw (by simp) (detectBase_plain ch rest hch)
        (by omega) (by omega) hnum

/-! ### strconv: ParseInt over the result of ParseUint -/

theorem wrapInt_of_fits (w : Nat) (n : Int) (hw : w = 8 ∨ w = 16 ∨ w = 32 ∨ w = 64)
    (h1 : -(2 : Int) ^ (w - 1) ≤ n) (h2 : n < (2 : Int) ^ (w - 1)) : wrapInt w n = n := by
  unfold wrapInt
  rcases hw with rfl | rfl | rfl | rfl <;> norm_num at h1 h2 ⊢ <;> omega

theorem wrapInt64_nat (v : Nat) (h : v < 9223372036854775808) : wrapInt 64 (v : Int) = v := by
  unfold wrapInt
  norm_num
  omega

theorem wrapInt64_neg (v : Nat) (h : v ≤ 9223372036854775808) :
    wrapInt 64 (-(wrapInt 64 (v : Int))) = -(v : Int) := by
  unfold wrapInt
  norm_num
  omega

theorem pow_cases (w : Nat) (hw : w = 8 ∨ w = 16 ∨ w = 32 ∨ w = 64) :
    ∃ c : Nat, 1 < c ∧ c ≤ 9223372036854775808 ∧ 2 ^ (w - 1) % 2 ^ 64 = c ∧
      2 ^ w - 1 = 2 * c - 1 ∧ (2 : Int) ^ (w - 1) = (c : Int) := by
  rcases hw with rfl | rfl | rfl | rfl
  · exact ⟨128, by norm_num⟩
  · exact ⟨32768, by norm_num⟩
  · exact ⟨2147483648, by norm_num⟩
  · exact ⟨9223372036854775808, by norm_num⟩

theorem ParseInt_signed (neg : Bool) (s ds : List Char) (w v : Nat)
    (hw : w = 8 ∨ w = 16 ∨ w = 32 ∨ w = 64) (hs : s ≠ [])
    (hsg : stripSign s = (neg, ds))
    (hU : ParseUint ds 0 w =
      if v ≤ 2 ^ w - 1 then (v, none) else (2 ^ w - 1, some .ErrRange)) :
    ((-(2 : Int) ^ (w - 1) ≤ (if neg then -(v : Int) else v) ∧
        (if neg then -(v : Int) else (v : Int)) < (2 : Int) ^ (w - 1)) →
      ParseInt s 0 w = ((if neg then -(v : Int) else v), none)) ∧
    (¬ (-(2 : Int) ^ (w - 1) ≤ (if neg then -(v : Int) else v) ∧
        (if neg then -(v : Int) else (v : Int)) < (2 : Int) ^ (w - 1)) →
      (ParseInt s 0 w).2 = some .ErrRange) := by
  have hw0 : ¬ w = 0 := by rcases hw with rfl | rfl | rfl | rfl <;> omega
  obtain ⟨c, hc1, hc2, hcut, hmax, hpow⟩ := pow_cases w hw
  unfold ParseInt
  rw [if_neg hs]
  simp only [hsg, hU, hw0, if_false, hcut, hmax, hpow]
  by_cases hfit : v ≤ 2 * c - 1
  · rw [if_pos hfit]
    simp only [ne_eq, not_true_eq_false, false_and, if_false]
    cases neg with
    | false =>
      simp only [true_and, Bool.false_eq_true, false_and, if_false]
      constructor
      · intro h
        rw [if_neg (by omega), wrapInt64_nat v (by omega)]
      · intro h
        rw [if_pos (by omega)]
    | true =>
      simp only [Bool.true_eq_false, false_and, if_false, true_and, if_true]
      constructor
      · intro h
        rw [if_neg (by omega), wrapInt64_neg v (by omega)]
      · intro h
        rw [if_pos (by omega)]
  · rw [if_neg hfit]
    constructor
    · intro h
      cases neg <;> simp only [Bool.false_eq_true, if_false, if_true] at h <;> omega
    · intro _
      cases neg with
      | false =>
        simp only [true_and, Bool.false_eq_true, false_and, if_false, ne_eq,
          not_true_eq_false, and_false]
        rw [if_pos (by omega)]
      | true =>
        simp only [Bool.true_eq_false, false_and, if_false, true_and, ne_eq,
          not_true_eq_false, and_false]
        rw [if_pos (by omega)]

/-! ### Integer fields (C6) -/

theorem ConvertAndSetField_int_ok (PF : String → Nat → Option Nat) (value : String)
    (w : Nat) (prior n : Int) (hw : w = 8 ∨ w = 16 ∨ w = 32 ∨ w = 64)
    (hp : ParseInt value.data 0 w = (n, none))
    (h1 : -(2 : Int) ^ (w - 1) ≤ n) (h2 : n < (2 : Int) ^ (w - 1)) :
    ConvertAndSetField PF value (.int w prior) = (.int w n, none) := by
  simp only [ConvertAndSetField, hp, ne_eq, not_true_eq_false, if_false,
    wrapInt_of_fits w n hw h1 h2]

theorem ConvertAndSetField_int_err (PF : String → Nat → Option Nat) (value : String)
    (w : Nat) (prior : Int) (hp : (ParseInt value.data 0 w).2 ≠ none) :
    ConvertAndSetField PF value (.int w prior) =
      (.int w prior, some (.New ("invalid value for int: " ++ value))) := by
  simp only [ConvertAndSetField, if_pos hp]

theorem ConvertAndSetField_uint_ok (PF : String → Nat → Option Nat) (value : String)
    (w prior n : Nat) (hp : ParseUint value.data 0 w = (n, none)) (h : n < 2 ^ w) :
    ConvertAndSetField PF value (.uint w prior) = (.uint w n, none) := by
  simp only [ConvertAndSetField, hp, ne_eq, not_true_eq_false, if_false, Nat.mod_eq_of_lt h]

theorem ConvertAndSetField_uint_err (PF : String → Nat → Option Nat) (value : String)
    (w prior : Nat) (hp : (ParseUint value.data 0 w).2 ≠ none) :
    ConvertAndSetField PF value (.uint w prior) =
      (.uint w prior, some (.New ("invalid value for uint: " ++ value))) := by
  simp only [ConvertAndSetField, if_pos hp]

theorem two_pow_pos_w (w : Nat) : 0 < 2 ^ w := Nat.pow_pos (by omega)

theorem ParseUint_fits (s : List Char) (w v : Nat)
    (hU : ParseUint s 0 w = if v ≤ 2 ^ w - 1 then (v, none) else (2 ^ w - 1, some .ErrRange))
    (h : v < 2 ^ w) : ParseUint s 0 w = (v, none) := by
  rw [hU, if_pos (by omega)]

theorem ParseUint_overflow (s : List Char) (w v : Nat)
    (hU : ParseUint s 0 w = if v ≤ 2 ^ w - 1 then (v, none) else (2 ^ w - 1, some .ErrRange))
    (h : 2 ^ w ≤ v) : (ParseUint s 0 w).2 ≠ none := by
  have := two_pow_pos_w w
  rw [hU, if_neg (by omega)]
  simp

theorem ParseUint_minus (rest : List Char) (w : Nat) (hw : w = 8 ∨ w = 16 ∨ w = 32 ∨ w = 64) :
    ParseUint ('-' :: rest) 0 w = (0, some .ErrSyntax) := by
  have hw64 : ¬ w > 64 := by rcases hw with rfl | rfl | rfl | rfl <;> omega
  unfold ParseUint
  rw [if_neg (by simp)]
  simp only [show ¬ (2 ≤ 0 ∧ 0 ≤ 36) by omega, if_false, if_true,
    detectBase_plain '-' rest (by decide), hw64, parseUintLoop]
  rw [if_neg (by decide)]
  have : digitOf '-'.toNat = none := by decide
  rw [this]

theorem isNumeral_head (b : Nat) (ds : List Char) (h : isNumeral b ds = true) (hne : ds ≠ []) :
    stripSign ds = (false, ds) := by
  match ds, hne, h with
  | ch :: rest, _, h =>
    obtain ⟨⟨d, hd, -⟩, -⟩ := isNumeral_cons b ch rest h
    have h1 : ch ≠ '+' := by
      rintro rfl
      have : hexVal '+' = none := by decide
      rw [this] at hd
      exact absurd hd (by simp)
    have h2 : ch ≠ '-' := by
      rintro rfl
      have : hexVal '-' = none := by decide
      rw [this] at hd
      exact absurd hd (by simp)
    simp [stripSign, h1, h2]

theorem isPlainDecimal_parts (ds : List Char) (h : isPlainDecimal ds = true) :
    isNumeral 10 ds = true ∧ ds ≠ [] := by
  simp only [isPlainDecimal, Bool.and_eq_true, bne_iff_ne, ne_eq] at h
  exact ⟨h.1, h.2.1⟩

/-- C6 as stated fails for a decimal numeral with a leading zero: `010` denotes
ten and fits any width, but an int field is set to eight (the leading `0` selects
base 8); `08` denotes eight and is rejected. -/
theorem C6_counterexample :
    isNumeral 10 "010".data = true ∧ numeralValue 10 "010".data = 10 ∧
    ConvertAndSetField noFloat "010" (.int 64 0) = (.int 64 8, none) ∧
    isNumeral 10 "08".data = true ∧ numeralValue 10 "08".data = 8 ∧
    ConvertAndSetField noFloat "08" (.int 64 0) =
      (.int 64 0, some (.New "invalid value for int: 08")) := by
  decide

/-- C6, amended: for a signed integer field of width 8, 16, 32 or 64 and a
decimal numeral without a leading zero (`isPlainDecimal`), with or without a
minus sign, denoting the integer `n`, `ConvertAndSetField` returns nil and sets
the field to `n` if `-2^(w-1) ≤ n < 2^(w-1)`, and otherwise returns the error
`invalid value for int: ` followed by the value and leaves the field unchanged. -/
theorem C6_signed_decimal (ParseFloat : String → Nat → Option Nat) (w : Nat) (prior : Int)
    (neg : Bool) (ds : List Char) (hw : w = 8 ∨ w = 16 ∨ w = 32 ∨ w = 64)
    (hds : isPlainDecimal ds = true) :
    ((-(2 : Int) ^ (w - 1) ≤ (if neg then -(numeralValue 10 ds : Int) else numeralValue 10 ds) ∧
        (if neg then -(numeralValue 10 ds : Int) else numeralValue 10 ds) < (2 : Int) ^ (w - 1)) →
      ConvertAndSetField ParseFloat ⟨if neg then '-' :: ds else ds⟩ (.int w prior) =
        (.int w (if neg then -(numeralValue 10 ds : Int) else numeralValue 10 ds), none)) ∧
    (¬ (-(2 : Int) ^ (w - 1) ≤ (if neg then -(numeralValue 10 ds : Int) else numeralValue 10 ds) ∧
        (if neg then -(numeralValue 10 ds : Int) else numeralValue 10 ds) < (2 : Int) ^ (w - 1)) →
      ConvertAndSetField ParseFloat ⟨if neg then '-' :: ds else ds⟩ (.int w prior) =
        (.int w prior, some (.New ("invalid value for int: " ++
          (⟨if neg then '-' :: ds else ds⟩ : String))))) := by
  obtain ⟨hnum, hne⟩ := isPlainDecimal_parts ds hds
  have hU := ParseUint_plainDecimal ds w hw hds
  have hsg : stripSign (if neg then '-' :: ds else ds) = (neg, ds) := by
    cases neg with
    | false => exact isNumeral_head 10 ds hnum hne
    | true => rfl
  have hs : (if neg then '-' :: ds else ds) ≠ [] := by
    cases neg <;> simp [hne]
  obtain ⟨hok, herr⟩ := ParseInt_signed neg _ ds w (numeralValue 10 ds) hw hs hsg hU
  constructor
  · intro h
    exact ConvertAndSetField_int_ok ParseFloat _ w prior _ hw (hok h) h.1 h.2
  · intro h
    exact ConvertAndSetField_int_err ParseFloat _ w prior (by rw [herr h]; simp)

/-- Witness of C6 (amended): `8080` on a 64-bit int field; and `PORT=8080`
through `PopulateFromEnv` on `struct { Host string; Port int; Sub *struct{} }`. -/
theorem C6_signed_decimal_witness :
    ConvertAndSetField noFloat "8080" (.int 64 0) = (.int 64 8080, none) ∧
    (fieldsOf (PopulateFromEnv noFloat (fun k => if k = "PORT" then some "8080" else none)
      (recordOf exPort)).1)[1]? = some ⟨"Port", ⟨[("tenv", "PORT")]⟩, true, .int 64 8080⟩ :=
  ⟨(C6_signed_decimal noFloat 64 0 false "8080".data (by decide) (by decide)).1 (by decide),
    by decide⟩

/-! ### Unsigned and boolean fields (C7, C8) -/

/-- C7 as stated fails for a decimal numeral with a leading zero: `0377` denotes
377, which is not below `2^8`, but an 8-bit unsigned field accepts it and is set
to 255 (the leading `0` selects base 8); `010` denotes ten and sets the field to
eight. -/
theorem C7_counterexample :
    isNumeral 10 "0377".data = true ∧ numeralValue 10 "0377".data = 377 ∧ 2 ^ 8 ≤ 377 ∧
    ConvertAndSetField noFloat "0377" (.uint 8 0) = (.uint 8 255, none) ∧
    isNumeral 10 "010".data = true ∧ numeralValue 10 "010".data = 10 ∧
    ConvertAndSetField noFloat "010" (.uint 8 0) = (.uint 8 8, none) := by
  decide

/-- C7, amended: for an unsigned integer field of width 8, 16, 32 or 64,
`ConvertAndSetField` returns the error `invalid value for uint: ` followed by the
value, and leaves the field unchanged, for every value that starts with a minus
sign, for every value that `ParseUint` rejects, and for every decimal numeral
without a leading zero (`isPlainDecimal`) that denotes a number `n ≥ 2^w`; for
such a numeral with `n < 2^w` it returns nil and sets the field to `n`. -/
theorem C7_unsigned (ParseFloat : String → Nat → Option Nat) (w prior : Nat) (value : String)
    (hw : w = 8 ∨ w = 16 ∨ w = 32 ∨ w = 64) :
    (value.data.head? = some '-' →
      ConvertAndSetField ParseFloat value (.uint w prior) =
        (.uint w prior, some (.New ("invalid value for uint: " ++ value)))) ∧
    ((ParseUint value.data 0 w).2 ≠ none →
      ConvertAndSetField ParseFloat value (.uint w prior) =
        (.uint w prior, some (.New ("invalid value for uint: " ++ value)))) ∧
    (isPlainDecimal value.data = true → 2 ^ w ≤ numeralValue 10 value.data →
      ConvertAndSetField ParseFloat value (.uint w prior) =
        (.uint w prior, some (.New ("invalid value for uint: " ++ value)))) ∧
    (isPlainDecimal value.data = true → numeralValue 10 value.data < 2 ^ w →
      ConvertAndSetField ParseFloat value (.uint w prior) =
        (.uint w (numeralValue 10 value.data), none)) := by
  refine ⟨?_, ?_, ?_, ?_⟩
  · intro hminus
    apply ConvertAndSetField_uint_err
    match hd : value.data, hminus with
    | ch :: rest, hminus =>
      simp only [List.head?_cons, Option.some.injEq] at hminus
      subst hminus
      rw [ParseUint_minus rest w hw]
      simp
  · intro h
    exact ConvertAndSetField_uint_err ParseFloat value w prior h
  · intro hds hbig
    exact ConvertAndSetField_uint_err ParseFloat value w prior
      (ParseUint_overflow _ w _ (ParseUint_plainDecimal _ w hw hds) hbig)
  · intro hds hfit
    exact ConvertAndSetField_uint_ok ParseFloat value w prior _
      (ParseUint_fits _ w _ (ParseUint_plainDecimal _ w hw hds) hfit) hfit

/-- Witness of C7 (amended): `-0` and `256` are rejected by an 8-bit unsigned
field, `255` is accepted. -/
theorem C7_unsigned_witness :
    ConvertAndSetField noFloat "-0" (.uint 8 7) =
      (.uint 8 7, some (.New "invalid value for uint: -0")) ∧
    ConvertAndSetField noFloat "256" (.uint 8 7) =
      (.uint 8 7, some (.New "invalid value for uint: 256")) ∧
    ConvertAndSetField noFloat "255" (.uint 8 7) = (.uint 8 255, none) :=
  ⟨(C7_unsigned noFloat 8 7 "-0" (by decide)).1 (by decide),
    (C7_unsigned noFloat 8 7 "256" (by decide)).2.2.1 (by decide) (by decide),
    (C7_unsigned noFloat 8 7 "255" (by decide)).2.2.2 (by decide) (by decide)⟩

/-- C8 as stated fails: `tRuE` equals `true` up to letter case, and
`ConvertAndSetField` rejects it for a boolean field; so with `FaLsE`. -/
theorem C8_counterexample :
    ToUpper "tRuE" = ToUpper "true" ∧
    ConvertAndSetField noFloat "tRuE" (.bool false) =
      (.bool false, some (.New "invalid value for bool: tRuE")) ∧
    ToUpper "FaLsE" = ToUpper "false" ∧
    ConvertAndSetField noFloat "FaLsE" (.bool true) =
      (.bool true, some (.New "invalid value for bool: FaLsE")) := by
  decide

/-- C8, amended: for a boolean field `ConvertAndSetField` accepts exactly twelve
spellings: for `1`, `t`, `T`, `true`, `TRUE`, `True` it returns nil and sets the
field to true, for `0`, `f`, `F`, `false`, `FALSE`, `False` it returns nil and sets
the field to false, and for every other string it returns the error
`invalid value for bool: ` followed by the value and leaves the field unchanged. -/
theorem C8_bool_spellings (ParseFloat : String → Nat → Option Nat) (value : String)
    (prior : Bool) :
    (value ∈ ["1", "t", "T", "true", "TRUE", "True"] →
      ConvertAndSetField ParseFloat value (.bool prior) = (.bool true, none)) ∧
    (value ∈ ["0", "f", "F", "false", "FALSE", "False"] →
      ConvertAndSetField ParseFloat value (.bool prior) = (.bool false, none)) ∧
    (value ∉ ["1", "t", "T", "true", "TRUE", "True", "0", "f", "F", "false", "FALSE", "False"] →
      ConvertAndSetField ParseFloat value (.bool prior) =
        (.bool prior, some (.New ("invalid value for bool: " ++ value)))) := by
  refine ⟨?_, ?_, ?_⟩
  · intro h
    have hp : ParseBool value = (true, none) := by
      simp only [List.mem_cons, List.mem_singleton, List.not_mem_nil, or_false] at h
      rcases h with rfl | rfl | rfl | rfl | rfl | rfl <;> decide
    rw [ConvertAndSetField_bool, hp]
    rfl
  · intro h
    have hp : ParseBool value = (false, none) := by
      simp only [List.mem_cons, List.mem_singleton, List.not_mem_nil, or_false] at h
      rcases h with rfl | rfl | rfl | rfl | rfl | rfl <;> decide
    rw [ConvertAndSetField_bool, hp]
    rfl
  · intro h
    simp only [List.mem_cons, List.mem_singleton, List.not_mem_nil, or_false, not_or] at h
    obtain ⟨h1, h2, h3, h4, h5, h6, h7, h8, h9, h10, h11, h12⟩ := h
    have hp : ParseBool value = (false, some .ErrSyntax) := by
      unfold ParseBool
      rw [if_neg (by simp [h1, h2, h3, h4, h5, h6]), if_neg (by simp [h7, h8, h9, h10, h11, h12])]
    rw [ConvertAndSetField_bool, hp]
    rfl

/-! ### Base detection (C10) -/

theorem ConvertAndSetField_of_ParseUint (PF : String → Nat → Option Nat) (s : List Char)
    (w v p : Nat) (q : Int) (hw : w = 8 ∨ w = 16 ∨ w = 32 ∨ w = 64) (hs : s ≠ [])
    (hsg : stripSign s = (false, s))
    (hU : ParseUint s 0 w = if v ≤ 2 ^ w - 1 then (v, none) else (2 ^ w - 1, some .ErrRange)) :
    (v < 2 ^ w → ConvertAndSetField PF ⟨s⟩ (.uint w p) = (.uint w v, none)) ∧
    ((v : Int) < (2 : Int) ^ (w - 1) →
      ConvertAndSetField PF ⟨s⟩ (.int w q) = (.int w v, none)) := by
  constructor
  · intro h
    exact ConvertAndSetField_uint_ok PF ⟨s⟩ w p v (ParseUint_fits s w v hU h) h
  · intro h
    have h0 : -(2 : Int) ^ (w - 1) ≤ (v : Int) := by
      have : (0 : Int) ≤ (2 : Int) ^ (w - 1) := by positivity
      omega
    have hp := (ParseInt_signed false s s w v hw hs hsg hU).1 ⟨h0, h⟩
    exact ConvertAndSetField_int_ok PF ⟨s⟩ w q v hw hp h0 h

/-- C10: integer conversion detects the base from the prefix of the value. For
an unsigned or signed integer field of width 8, 16, 32 or 64 that can hold the
result (below `2^w`, respectively below `2^(w-1)`): `0x` or `0X` followed by one
or more hexadecimal digits is assigned as that hexadecimal number, `0` followed
by octal digits as that octal number, and a non-empty string of decimal digits
that does not start with `0` as that decimal number. -/
theorem C10_base_detection (ParseFloat : String → Nat → Option Nat) (w p : Nat) (q : Int)
    (ds : List Char) (hw : w = 8 ∨ w = 16 ∨ w = 32 ∨ w = 64) :
    (isNumeral 16 ds = true → ds ≠ [] → ∀ x : Char, x = 'x' ∨ x = 'X' →
      (numeralValue 16 ds < 2 ^ w →
        ConvertAndSetField ParseFloat ⟨'0' :: x :: ds⟩ (.uint w p) =
          (.uint w (numeralValue 16 ds), none)) ∧
      ((numeralValue 16 ds : Int) < (2 : Int) ^ (w - 1) →
        ConvertAndSetField ParseFloat ⟨'0' :: x :: ds⟩ (.int w q) =
          (.int w (numeralValue 16 ds), none))) ∧
    (isNumeral 8 ds = true →
      (numeralValue 8 ds < 2 ^ w →
        ConvertAndSetField ParseFloat ⟨'0' :: ds⟩ (.uint w p) =
          (.uint w (numeralValue 8 ds), none)) ∧
      ((numeralValue 8 ds : Int) < (2 : Int) ^ (w - 1) →
        ConvertAndSetField ParseFloat ⟨'0' :: ds⟩ (.int w q) =
          (.int w (numeralValue 8 ds), none))) ∧
    (isNumeral 10 ds = true → ds ≠ [] → ds.head? ≠ some '0' →
      (numeralValue 10 ds < 2 ^ w →
        ConvertAndSetField ParseFloat ⟨ds⟩ (.uint w p) =
          (.uint w (numeralValue 10 ds), none)) ∧
      ((numeralValue 10 ds : Int) < (2 : Int) ^ (w - 1) →
        ConvertAndSetField ParseFloat ⟨ds⟩ (.int w q) =
          (.int w (numeralValue 10 ds), none))) := by
  refine ⟨?_, ?_, ?_⟩
  · intro hnum hne x hx
    match ds, hne, hnum with
    | ch :: rest, _, hnum =>
      exact ConvertAndSetField_of_ParseUint ParseFloat _ w _ p q hw (by simp) rfl
        (ParseUint_of_detectBase _ _ 16 w hw (by simp) (detectBase_hex x ch rest hx)
          (by omega) (by omega) hnum)
  · intro hnum
    exact ConvertAndSetField_of_ParseUint ParseFloat _ w _ p q hw (by simp) rfl
      (ParseUint_of_detectBase _ _ 8 w hw (by simp) (detectBase_octal ds hnum)
        (by omega) (by omega) hnum)
  · intro hnum hne hlead
    have hplain : isPlainDecimal ds = true := by
      simp only [isPlainDecimal, Bool.and_eq_true, Bool.or_eq_true, bne_iff_ne, ne_eq,
        beq_iff_eq]
      exact ⟨hnum, hne, Or.inr hlead⟩
    exact ConvertAndSetField_of_ParseUint ParseFloat ds w _ p q hw hne
      (isNumeral_head 10 ds hnum hne) (ParseUint_plainDecimal ds w hw hplain)

/-- Witness of C10: `0x1F` gives 31 and `010` gives 8, not 10, on a 64-bit int
field; `255` gives 255 on an 8-bit unsigned field. -/
theorem C10_base_detection_witness :
    ConvertAndSetField noFloat "0x1F" (.int 64 0) = (.int 64 31, none) ∧
    ConvertAndSetField noFloat "010" (.int 64 0) = (.int 64 8, none) ∧
    ConvertAndSetField noFloat "255" (.uint 8 0) = (.uint 8 255, none) :=
  ⟨((C10_base_detection noFloat 64 0 0 "1F".data (by decide)).1 (by decide) (by decide)
      'x' (Or.inl rfl)).2 (by decide),
    ((C10_base_detection noFloat 64 0 0 "10".data (by decide)).2.1 (by decide)).2 (by decide),
    ((C10_base_detection noFloat 8 0 0 "255".data (by decide)).2.2 (by decide) (by decide)
      (by decide)).1 (by decide)⟩

/-! ### Unsupported kinds (C11) -/

theorem populateFields_at (PF : String → Nat → Option Nat) (env : Env)
    (pre post : List StructField) (f : StructField) :
    ∃ pre1 post1 x, (populateFields PF env (pre ++ f :: post)).1 = pre1 ++ x :: post1 ∧
      pre1.length = pre.length ∧
      (x = (processField PF env f).1 ∨ x = materialize f) ∧
      ((∀ p ∈ pre, ¬ FailsAt PF env p) → x = (processField PF env f).1) := by
  induction pre with
  | nil =>
    cases hp : (processField PF env f).2 with
    | none =>
      rw [List.nil_append, populateFields_cons_ok PF env f post hp]
      exact ⟨[], _, _, rfl, rfl, Or.inl rfl, fun _ => rfl⟩
    | some err =>
      rw [List.nil_append, populateFields_cons_err PF env f post err hp]
      exact ⟨[], _, _, rfl, rfl, Or.inl rfl, fun _ => rfl⟩
  | cons p pre ih =>
    obtain ⟨pre1, post1, x, h1, h2, h3, h4⟩ := ih
    cases hp : (processField PF env p).2 with
    | none =>
      rw [List.cons_append, populateFields_cons_ok PF env p _ hp]
      refine ⟨(processField PF env p).1 :: pre1, post1, x, ?_, ?_, h3, ?_⟩
      · simp only [h1, List.cons_append]
      · simp [h2]
      · intro hall
        exact h4 (fun q hq => hall q (List.mem_cons_of_mem _ hq))
    | some err =>
      rw [List.cons_append, populateFields_cons_err PF env p _ err hp]
      refine ⟨(processField PF env p).1 :: pre.map materialize, post.map materialize,
        materialize f, ?_, ?_, Or.inr rfl, ?_⟩
      · simp
      · simp
      · intro hall
        have hfail : FailsAt PF env p := (processField_err_iff PF env p).1 (by rw [hp]; simp)
        exact absurd hfail (hall p (List.mem_cons_self _ _))

theorem populateFields_remove (PF : String → Nat → Option Nat) (env : Env)
    (pre post : List StructField) (f : StructField) (hf : ¬ FailsAt PF env f) :
    (populateFields PF env (pre ++ f :: post)).2 = (populateFields PF env (pre ++ post)).2 := by
  have hp := processField_ok PF env f hf
  induction pre with
  | nil =>
    rw [List.nil_append, List.nil_append, populateFields_cons_ok PF env f post hp]
  | cons p pre ih =>
    cases hq : (processField PF env p).2 with
    | none =>
      rw [List.cons_append, List.cons_append, populateFields_cons_ok PF env p _ hq,
        populateFields_cons_ok PF env p _ hq]
      exact ih
    | some err =>
      rw [List.cons_append, List.cons_append, populateFields_cons_err PF env p _ err hq,
        populateFields_cons_err PF env p _ err hq]

theorem ConvertAndSetField_other (PF : String → Nat → Option Nat) (value : String) (v : Value)
    (h1 : v.Kind ≠ .String) (h2 : v.Kind ≠ .Int) (h3 : v.Kind ≠ .Uint) (h4 : v.Kind ≠ .Bool)
    (h5 : v.Kind ≠ .Float) : ConvertAndSetField PF value v = (v, none) := by
  cases v with
  | str s => exact absurd rfl h1
  | int b x => exact absurd rfl h2
  | uint b x => exact absurd rfl h3
  | bool b => exact absurd rfl h4
  | float b x => exact absurd rfl h5
  | _ => rfl

/-- C11 as stated fails for a field of pointer kind: the settable field `P *int`
is a non-nil pointer, `ConvertAndSetField` receives the number it points to, and
with `P=abc` the call `PopulateFromEnv` fails because of this field. -/
theorem C11_counterexample :
    exIntPtr.Val.Kind = .Ptr ∧
    PopulateFromEnv noFloat envPAbc (recordOf [exIntPtr]) =
      (recordOf [exIntPtr],
        some (.Wrap "error processing field P: invalid value for int: abc"
          (.New "invalid value for int: abc"))) := by
  decide

/-- C11, amended: for every value whose kind is not text, signed integer,
unsigned integer, boolean or floating point, and every string,
`ConvertAndSetField` returns nil and leaves the value unchanged. Consequently a
settable field whose descriptor refers to a value of such a kind (the field
itself, or what its non-nil pointers lead to) never makes `PopulateFromEnv`
fail, whatever the environment: its round does not fail, the call returns what it
returns on the record without the field, and the field is after the call as
`CollectFieldInfo` left it. -/
theorem C11_unsupported_kind (ParseFloat : String → Nat → Option Nat) (value : String)
    (v : Value) (h1 : v.Kind ≠ .String) (h2 : v.Kind ≠ .Int) (h3 : v.Kind ≠ .Uint)
    (h4 : v.Kind ≠ .Bool) (h5 : v.Kind ≠ .Float) :
    ConvertAndSetField ParseFloat value v = (v, none) ∧
    ∀ (env : Env) (pre post : List StructField) (f : StructField),
      f.Exported = true → fieldTarget f.Val = v →
      ¬ FailsAt ParseFloat env f ∧
      (PopulateFromEnv ParseFloat env (recordOf (pre ++ f :: post))).2 =
        (PopulateFromEnv ParseFloat env (recordOf (pre ++ post))).2 ∧
      (fieldsOf (PopulateFromEnv ParseFloat env (recordOf (pre ++ f :: post))).1)[pre.length]? =
        some (materialize f) := by
  have hc := ConvertAndSetField_other ParseFloat
  refine ⟨hc value v h1 h2 h3 h4 h5, ?_⟩
  intro env pre post f hexp hv
  have hnf : ¬ FailsAt ParseFloat env f := by
    rintro ⟨-, value1, -, -, hfail⟩
    rw [hv, hc value1 v h1 h2 h3 h4 h5] at hfail
    exact hfail rfl
  have hproc : (processField ParseFloat env f).1 = materialize f := by
    cases hfv : fieldValue env f with
    | none => rw [processField_skip ParseFloat env f hexp hfv]
    | some value1 =>
      rw [processField_convert ParseFloat env f value1 hexp hfv, hv,
        hc value1 v h1 h2 h3 h4 h5, materialize_exported f hexp]
      simp only [← hv, mapTarget_fieldTarget]
  refine ⟨hnf, ?_, ?_⟩
  · rw [PopulateFromEnv_recordOf, PopulateFromEnv_recordOf,
      populateFields_remove ParseFloat env pre post f hnf]
  · obtain ⟨pre1, post1, x, hx1, hx2, hx3, -⟩ := populateFields_at ParseFloat env pre post f
    rw [PopulateFromEnv_recordOf, fieldsOf_recordOf, hx1]
    have hxm : x = materialize f := by
      rcases hx3 with h | h
      · rw [h, hproc]
      · exact h
    rw [hxm]
    exact getElem?_length_append _ _ _ _ hx2

/-- Witness of C11 (amended): a settable field holding a slice, whatever is set
under its key. -/
theorem C11_unsupported_kind_witness :
    ConvertAndSetField noFloat "abc" (.other .Slice 3) = (.other .Slice 3, none) ∧
    ¬ FailsAt noFloat envPAbc ⟨"P", ⟨[]⟩, true, .other .Slice 3⟩ :=
  ⟨(C11_unsupported_kind noFloat "abc" (.other .Slice 3) (by decide) (by decide) (by decide)
      (by decide) (by decide)).1,
    ((C11_unsupported_kind noFloat "abc" (.other .Slice 3) (by decide) (by decide) (by decide)
      (by decide) (by decide)).2 envPAbc [] [] ⟨"P", ⟨[]⟩, true, .other .Slice 3⟩ rfl rfl).1⟩

/-! ### The pointer loop and the target of a field -/

theorem mapTarget_ptr (g : Value → Value) (t : Value) :
    mapTarget g (.ptr t) = .ptr (mapTarget g t) := rfl

theorem derefLoop_ptr (t : Value) :
    derefLoop (.ptr t) = (.ptr (derefLoop t).1, (derefLoop t).2 + 1) := rfl

theorem zero_struct (t : Ty) (h : t.Kind = .Struct) : ∃ tf, t = .struct tf := by
  cases t <;> simp [Ty.Kind] at h
  exact ⟨_, rfl⟩

theorem derefLoop_nilPtr_struct (tf : TyFields) :
    derefLoop (.nilPtr (.struct tf)) = (.ptr (.struct (zeroFields tf)), 1) := by
  simp [derefLoop, Ty.Kind, zero]

theorem derefLoop_nilPtr_other (elem : Ty) (h : elem.Kind ≠ .Struct) :
    derefLoop (.nilPtr elem) = (.nilPtr elem, 0) := by
  simp [derefLoop, h]

theorem fieldTarget_of_stable (v : Value) (h : derefLoop v = (v, 0)) :
    fieldTarget v = v ∧ ∀ g, mapTarget g v = g v := by
  constructor
  · simp only [fieldTarget, h, derefN]
  · intro g
    simp only [mapTarget, h, modifyN]

theorem derefLoop_mapTarget_stable (g : Value → Value) (v : Value) (hv : derefLoop v = (v, 0))
    (h : derefLoop (g (fieldTarget v)) = (g (fieldTarget v), 0)) :
    derefLoop (mapTarget g v) = (mapTarget g v, (derefLoop v).2) ∧
      fieldTarget (mapTarget g v) = g (fieldTarget v) := by
  obtain ⟨e1, e2⟩ := fieldTarget_of_stable v hv
  rw [e1] at h
  rw [e1, e2 g, hv]
  exact ⟨h, (fieldTarget_of_stable _ h).1⟩

/-- What the pointer loop does to a value of a field whose target is then
replaced by `g` of it, when `g` of the target is not a pointer that the loop
would follow. -/
theorem derefLoop_mapTarget (g : Value → Value) :
    ∀ v : Value, derefLoop (g (fieldTarget v)) = (g (fieldTarget v), 0) →
      derefLoop (mapTarget g v) = (mapTarget g v, (derefLoop v).2) ∧
      fieldTarget (mapTarget g v) = g (fieldTarget v)
  | .nilPtr elem => by
    intro h
    by_cases hk : elem.Kind = .Struct
    · obtain ⟨tf, rfl⟩ := zero_struct elem hk
      have e1 : fieldTarget (.nilPtr (.struct tf)) = .struct (zeroFields tf) := by
        simp [fieldTarget, derefLoop_nilPtr_struct, derefN, Value.Elem]
      have e2 : mapTarget g (.nilPtr (.struct tf)) = .ptr (g (.struct (zeroFields tf))) := by
        simp [mapTarget, derefLoop_nilPtr_struct, modifyN, zero]
      rw [e1] at h
      rw [e1, e2, derefLoop_nilPtr_struct]
      refine ⟨by rw [derefLoop_ptr, h], ?_⟩
      simp only [fieldTarget, derefLoop_ptr, h, derefN, Value.Elem]
    · exact derefLoop_mapTarget_stable g _ (derefLoop_nilPtr_other elem hk) h
  | .ptr t => by
    intro h
    rw [fieldTarget_ptr] at h
    obtain ⟨ih1, ih2⟩ := derefLoop_mapTarget g t h
    rw [mapTarget_ptr, fieldTarget_ptr, fieldTarget_ptr, ih2]
    refine ⟨by rw [derefLoop_ptr, ih1, derefLoop_ptr], rfl⟩
  | .invalid => derefLoop_mapTarget_stable g _ rfl
  | .str _ => derefLoop_mapTarget_stable g _ rfl
  | .int _ _ => derefLoop_mapTarget_stable g _ rfl
  | .uint _ _ => derefLoop_mapTarget_stable g _ rfl
  | .bool _ => derefLoop_mapTarget_stable g _ rfl
  | .float _ _ => derefLoop_mapTarget_stable g _ rfl
  | .struct _ => derefLoop_mapTarget_stable g _ rfl
  | .other _ _ => derefLoop_mapTarget_stable g _ rfl

/-- The value a descriptor refers to is one the pointer loop stops at. -/
theorem derefLoop_fieldTarget : ∀ v : Value, derefLoop (fieldTarget v) = (fieldTarget v, 0)
  | .nilPtr elem => by
    by_cases hk : elem.Kind = .Struct
    · obtain ⟨tf, rfl⟩ := zero_struct elem hk
      have e1 : fieldTarget (.nilPtr (.struct tf)) = .struct (zeroFields tf) := by
        simp [fieldTarget, derefLoop_nilPtr_struct, derefN, Value.Elem]
      rw [e1]
      rfl
    · rw [(fieldTarget_of_stable _ (derefLoop_nilPtr_other elem hk)).1]
      exact derefLoop_nilPtr_other elem hk
  | .ptr t => by
    rw [fieldTarget_ptr]
    exact derefLoop_fieldTarget t
  | .invalid => rfl
  | .str _ => rfl
  | .int _ _ => rfl
  | .uint _ _ => rfl
  | .bool _ => rfl
  | .float _ _ => rfl
  | .struct _ => rfl
  | .other _ _ => rfl

theorem mapTarget_mapTarget (g h : Value → Value) :
    ∀ v : Value, derefLoop (g (fieldTarget v)) = (g (fieldTarget v), 0) →
      mapTarget h (mapTarget g v) = mapTarget (fun x => h (g x)) v
  | .nilPtr elem => by
    intro hs
    by_cases hk : elem.Kind = .Struct
    · obtain ⟨tf, rfl⟩ := zero_struct elem hk
      have e1 : fieldTarget (.nilPtr (.struct tf)) = .struct (zeroFields tf) := by
        simp [fieldTarget, derefLoop_nilPtr_struct, derefN, Value.Elem]
      have e2 : ∀ k, mapTarget k (.nilPtr (.struct tf)) = .ptr (k (.struct (zeroFields tf))) := by
        intro k
        simp [mapTarget, derefLoop_nilPtr_struct, modifyN, zero]
      rw [e1] at hs
      rw [e2, e2, mapTarget_ptr, (fieldTarget_of_stable _ hs).2 h]
    · obtain ⟨e1, e2⟩ := fieldTarget_of_stable _ (derefLoop_nilPtr_other elem hk)
      rw [e1] at hs
      rw [e2, e2, (fieldTarget_of_stable _ hs).2 h]
  | .ptr t => by
    intro hs
    rw [fieldTarget_ptr] at hs
    rw [mapTarget_ptr, mapTarget_ptr, mapTarget_ptr, mapTarget_mapTarget g h t hs]
  | .invalid => fun hs => by
    rw [(fieldTarget_of_stable .invalid rfl).2, (fieldTarget_of_stable .invalid rfl).2]
    exact (fieldTarget_of_stable _ hs).2 h
  | .str s => fun hs => by
    rw [(fieldTarget_of_stable (.str s) rfl).2, (fieldTarget_of_stable (.str s) rfl).2]
    exact (fieldTarget_of_stable _ hs).2 h
  | .int b x => fun hs => by
    rw [(fieldTarget_of_stable (.int b x) rfl).2, (fieldTarget_of_stable (.int b x) rfl).2]
    exact (fieldTarget_of_stable _ hs).2 h
  | .uint b x => fun hs => by
    rw [(fieldTarget_of_stable (.uint b x) rfl).2, (fieldTarget_of_stable (.uint b x) rfl).2]
    exact (fieldTarget_of_stable _ hs).2 h
  | .bool b => fun hs => by
    rw [(fieldTarget_of_stable (.bool b) rfl).2, (fieldTarget_of_stable (.bool b) rfl).2]
    exact (fieldTarget_of_stable _ hs).2 h
  | .float b x => fun hs => by
    rw [(fieldTarget_of_stable (.float b x) rfl).2, (fieldTarget_of_stable (.float b x) rfl).2]
    exact (fieldTarget_of_stable _ hs).2 h
  | .struct fs => fun hs => by
    rw [(fieldTarget_of_stable (.struct fs) rfl).2, (fieldTarget_of_stable (.struct fs) rfl).2]
    exact (fieldTarget_of_stable _ hs).2 h
  | .other k x => fun hs => by
    rw [(fieldTarget_of_stable (.other k x) rfl).2, (fieldTarget_of_stable (.other k x) rfl).2]
    exact (fieldTarget_of_stable _ hs).2 h

/-! ### Idempotence (C12) -/

theorem ConvertAndSetField_stable (PF : String → Nat → Option Nat) (value : String) (t : Value)
    (h : derefLoop t = (t, 0)) :
    derefLoop (ConvertAndSetField PF value t).1 = ((ConvertAndSetField PF value t).1, 0) := by
  cases t with
  | str s => rfl
  | int bits x =>
    simp only [ConvertAndSetField]
    split <;> rfl
  | uint bits x =>
    simp only [ConvertAndSetField]
    split <;> rfl
  | bool b =>
    simp only [ConvertAndSetField]
    split <;> rfl
  | float bits x =>
    simp only [ConvertAndSetField]
    split <;> rfl
  | _ => exact h

theorem ConvertAndSetField_idem (PF : String → Nat → Option Nat) (value : String) (t : Value) :
    ConvertAndSetField PF value (ConvertAndSetField PF value t).1 =
      ConvertAndSetField PF value t := by
  cases t with
  | str s => rfl
  | int bits x =>
    simp only [ConvertAndSetField]
    by_cases hp : (ParseInt value.data 0 bits).2 ≠ none
    · simp only [if_pos hp, ConvertAndSetField]
    · simp only [if_neg hp, ConvertAndSetField]
  | uint bits x =>
    simp only [ConvertAndSetField]
    by_cases hp : (ParseUint value.data 0 bits).2 ≠ none
    · simp only [if_pos hp, ConvertAndSetField]
    · simp only [if_neg hp, ConvertAndSetField]
  | bool b =>
    simp only [ConvertAndSetField]
    by_cases hp : (ParseBool value).2 ≠ none
    · simp only [if_pos hp, ConvertAndSetField]
    · simp only [if_neg hp, ConvertAndSetField]
  | float bits x =>
    simp only [ConvertAndSetField]
    cases hp : PF value bits with
    | none => simp only [ConvertAndSetField, hp]
    | some y => simp only [ConvertAndSetField, hp]
  | _ => rfl

theorem derefLoop_idem (v : Value) :
    derefLoop (derefLoop v).1 = ((derefLoop v).1, (derefLoop v).2) := by
  have h := (derefLoop_mapTarget (fun _ => fieldTarget v) v (derefLoop_fieldTarget v)).1
  rw [mapTarget_fieldTarget] at h
  exact h

theorem materialize_idem (f : StructField) : materialize (materialize f) = materialize f := by
  obtain ⟨n, t, e, v⟩ := f
  cases e with
  | false => rfl
  | true =>
    simp only [materialize, Bool.true_eq_false, if_false, derefLoop_idem]

theorem map_materialize_idem (fs : List StructField) :
    (fs.map materialize).map materialize = fs.map materialize := by
  rw [List.map_map]
  apply List.map_congr_left
  intro f _
  exact materialize_idem f

theorem processField_idem (PF : String → Nat → Option Nat) (env : Env) (f : StructField) :
    processField PF env (processField PF env f).1 = processField PF env f := by
  obtain ⟨n, t, e, v⟩ := f
  cases e with
  | false => rfl
  | true =>
    cases hfv : fieldValue env ⟨n, t, true, v⟩ with
    | none =>
      rw [processField_skip PF env _ rfl hfv]
      have hfv1 : fieldValue env (materialize ⟨n, t, true, v⟩) = none := hfv
      rw [processField_skip PF env _ rfl hfv1, materialize_idem]
    | some value =>
      rw [processField_convert PF env _ value rfl hfv]
      have hst := ConvertAndSetField_stable PF value _ (derefLoop_fieldTarget v)
      obtain ⟨-, ht⟩ := derefLoop_mapTarget
        (fun _ => (ConvertAndSetField PF value (fieldTarget v)).1) v hst
      have hmm := mapTarget_mapTarget
        (fun _ => (ConvertAndSetField PF value (fieldTarget v)).1)
        (fun _ => (ConvertAndSetField PF value (fieldTarget v)).1) v hst
      have hfv2 : fieldValue env ⟨n, t, true,
          mapTarget (fun _ => (ConvertAndSetField PF value (fieldTarget v)).1) v⟩ =
          some value := hfv
      rw [processField_convert PF env _ value rfl hfv2]
      simp only [ht, ConvertAndSetField_idem, hmm]

theorem populateFields_idem (PF : String → Nat → Option Nat) (env : Env)
    (fs : List StructField) :
    populateFields PF env (populateFields PF env fs).1 = populateFields PF env fs := by
  induction fs with
  | nil => rfl
  | cons f fs ih =>
    have hid := processField_idem PF env f
    cases hp : (processField PF env f).2 with
    | none =>
      rw [populateFields_cons_ok PF env f fs hp,
        populateFields_cons_ok PF env _ _ (by rw [hid]; exact hp), hid, ih]
    | some err =>
      rw [populateFields_cons_err PF env f fs err hp,
        populateFields_cons_err PF env _ _ err (by rw [hid]; exact hp), hid,
        map_materialize_idem]

/-- C12: `PopulateFromEnv` is idempotent under an unchanged environment: a second
run on the record the first run left returns the same result, nil or the same
error, and leaves the record in the state the first run left it in. -/
theorem C12_idempotent (ParseFloat : String → Nat → Option Nat) (env : Env) (spec : Value) :
    PopulateFromEnv ParseFloat env (PopulateFromEnv ParseFloat env spec).1 =
      PopulateFromEnv ParseFloat env spec := by
  by_cases hs : ∃ fields, spec = .ptr (.struct fields)
  · obtain ⟨fields, rfl⟩ := hs
    rw [PopulateFromEnv_fields, PopulateFromEnv_recordOf, populateFields_idem]
  · rw [PopulateFromEnv_invalid ParseFloat env spec hs, PopulateFromEnv_invalid ParseFloat env spec hs]

/-! ### One descriptor per settable field (C13) -/

theorem collectLoop_snd_eq (i : Nat) (fs : List StructField) :
    (collectLoop i fs).2 =
      ((fs.enumFrom i).filter (fun p => p.2.Exported)).map
        (fun p => (⟨p.2.Name, altName p.2, keyName p.2, ⟨p.1, (derefLoop p.2.Val).2⟩, p.2.Tag⟩ :
          EnvVarInfo)) := by
  induction fs generalizing i with
  | nil => rfl
  | cons f fs ih =>
    cases hexp : f.Exported with
    | false =>
      rw [collectLoop_snd_unexported i f fs hexp, ih (i + 1)]
      simp [List.enumFrom, List.filter, hexp]
    | true =>
      rw [collectLoop_snd_exported i f fs hexp, ih (i + 1)]
      simp [List.enumFrom, List.filter, hexp]

theorem enumFrom_filter_snd (i : Nat) (fs : List StructField) :
    ((fs.enumFrom i).filter (fun p => p.2.Exported)).map (fun p => p.2) =
      fs.filter (fun f => f.Exported) := by
  induction fs generalizing i with
  | nil => rfl
  | cons f fs ih =>
    cases hexp : f.Exported with
    | false => simp [List.enumFrom, List.filter, hexp, ih (i + 1)]
    | true => simp [List.enumFrom, List.filter, hexp, ih (i + 1)]

theorem collectLoop_index_bounds (i : Nat) (fs : List StructField) (info : EnvVarInfo)
    (h : info ∈ (collectLoop i fs).2) :
    ∃ k f, fs[k]? = some f ∧ f.Exported = true ∧ info.Field.index = i + k ∧
      info.Name = f.Name := by
  induction fs generalizing i with
  | nil => simp [collectLoop] at h
  | cons g fs ih =>
    cases hexp : g.Exported with
    | false =>
      rw [collectLoop_snd_unexported i g fs hexp] at h
      obtain ⟨k, f, h1, h2, h3, h4⟩ := ih (i + 1) h
      exact ⟨k + 1, f, by simpa using h1, h2, by omega, h4⟩
    | true =>
      rw [collectLoop_snd_exported i g fs hexp, List.mem_cons] at h
      rcases h with h | h
      · subst h
        exact ⟨0, g, by simp, hexp, rfl, rfl⟩
      · obtain ⟨k, f, h1, h2, h3, h4⟩ := ih (i + 1) h
        exact ⟨k + 1, f, by simpa using h1, h2, by omega, h4⟩

theorem collectLoop_index_of_exported (i k : Nat) (fs : List StructField) (f : StructField)
    (h : fs[k]? = some f) (hexp : f.Exported = true) :
    ∃ info ∈ (collectLoop i fs).2, info.Field.index = i + k := by
  induction fs generalizing i k with
  | nil => simp at h
  | cons g fs ih =>
    cases k with
    | zero =>
      simp only [List.getElem?_cons_zero, Option.some.injEq] at h
      subst h
      rw [collectLoop_snd_exported i g fs hexp]
      exact ⟨_, List.mem_cons_self _ _, rfl⟩
    | succ k =>
      simp only [List.getElem?_cons_succ] at h
      obtain ⟨info, h1, h2⟩ := ih (i + 1) k h
      refine ⟨info, ?_, by omega⟩
      cases hg : g.Exported with
      | false => rw [collectLoop_snd_unexported i g fs hg]; exact h1
      | true =>
        rw [collectLoop_snd_exported i g fs hg]
        exact List.mem_cons_of_mem _ h1

theorem collectLoop_index_increasing (i : Nat) (fs : List StructField) :
    (collectLoop i fs).2.Pairwise (fun a b => a.Field.index < b.Field.index) := by
  induction fs generalizing i with
  | nil => simp [collectLoop]
  | cons g fs ih =>
    cases hexp : g.Exported with
    | false => rw [collectLoop_snd_unexported i g fs hexp]; exact ih (i + 1)
    | true =>
      rw [collectLoop_snd_exported i g fs hexp, List.pairwise_cons]
      refine ⟨?_, ih (i + 1)⟩
      intro info hinfo
      obtain ⟨k, f, -, -, h3, -⟩ := collectLoop_index_bounds (i + 1) fs info hinfo
      show i < info.Field.index
      omega

/-- C13: on a pointer to a record, `CollectFieldInfo` returns one descriptor for
each settable field and none for the others, in declaration order: the list of
descriptors is the list of the settable fields, each with its index, mapped to
its descriptor. So the names of the descriptors are the declared names of the
fields with the names of the fields that are not settable removed, there are as
many descriptors as settable fields, the indices of the descriptors increase
strictly, and a field has a descriptor exactly when it is settable. -/
theorem C13_one_descriptor_per_settable_field (fields : Fields) :
    (CollectFieldInfo (.ptr (.struct fields))).2.1 =
      ((fields.toList.enum).filter (fun p => p.2.Exported)).map
        (fun p => (⟨p.2.Name, altName p.2, keyName p.2, ⟨p.1, (derefLoop p.2.Val).2⟩, p.2.Tag⟩ :
          EnvVarInfo)) ∧
    (CollectFieldInfo (.ptr (.struct fields))).2.1.map (fun info => info.Name) =
      (fields.toList.filter (fun f => f.Exported)).map (fun f => f.Name) ∧
    (CollectFieldInfo (.ptr (.struct fields))).2.1.length =
      (fields.toList.filter (fun f => f.Exported)).length ∧
    (CollectFieldInfo (.ptr (.struct fields))).2.1.Pairwise
      (fun a b => a.Field.index < b.Field.index) ∧
    (∀ (k : Nat) (f : StructField), fields.toList[k]? = some f →
      (f.Exported = true ↔
        ∃ info ∈ (CollectFieldInfo (.ptr (.struct fields))).2.1, info.Field.index = k)) := by
  have h1 := collectLoop_snd_eq 0 fields.toList
  have h2 := enumFrom_filter_snd 0 fields.toList
  rw [CollectFieldInfo_struct]
  refine ⟨h1, ?_, ?_, collectLoop_index_increasing 0 _, ?_⟩
  · simp only [h1, List.map_map, ← h2]
    rfl
  · simp only [h1, List.length_map, ← h2]
  · intro k f hk
    constructor
    · intro hexp
      obtain ⟨info, hi1, hi2⟩ := collectLoop_index_of_exported 0 k _ f hk hexp
      exact ⟨info, hi1, by omega⟩
    · rintro ⟨info, hi1, hi2⟩
      obtain ⟨k1, f1, hf1, hexp1, hidx, -⟩ := collectLoop_index_bounds 0 _ info hi1
      have : k1 = k := by omega
      subst this
      rw [hk] at hf1
      cases hf1
      exact hexp1

/-! ### Nil pointers to records (C14) -/

theorem CollectFieldInfo_recordOf (fs : List StructField) :
    CollectFieldInfo (recordOf fs) = (recordOf (fs.map materialize), (collectLoop 0 fs).2, none) := by
  rw [recordOf, CollectFieldInfo_struct, Fields.toList_ofList]
  rfl

theorem collectLoop_mem_at (i : Nat) (pre post : List StructField) (f : StructField)
    (hexp : f.Exported = true) :
    (⟨f.Name, altName f, keyName f, ⟨i + pre.length, (derefLoop f.Val).2⟩, f.Tag⟩ : EnvVarInfo) ∈
      (collectLoop i (pre ++ f :: post)).2 := by
  induction pre generalizing i with
  | nil =>
    rw [List.nil_append, collectLoop_snd_exported i f post hexp]
    exact List.mem_cons_self _ _
  | cons p pre ih =>
    have h := ih (i + 1)
    have e : i + 1 + pre.length = i + (p :: pre).length := by simp; omega
    rw [e] at h
    rw [List.cons_append]
    cases hp : p.Exported with
    | false => rw [collectLoop_snd_unexported i p _ hp]; exact h
    | true => rw [collectLoop_snd_exported i p _ hp]; exact List.mem_cons_of_mem _ h

theorem getRef_materialize (pre post : List StructField) (f : StructField)
    (hexp : f.Exported = true) :
    getRef ((pre ++ f :: post).map materialize) ⟨pre.length, (derefLoop f.Val).2⟩ =
      fieldTarget f.Val := by
  have h := getRef_append (pre.map materialize) (post.map materialize) (materialize f)
    (derefLoop f.Val).2
  rw [List.length_map] at h
  rw [List.map_append, List.map_cons, h, materialize_exported f hexp]
  rfl

theorem fieldTarget_of_nilElem :
    ∀ (v : Value) (elem : Ty), nilElem v = some elem → elem.Kind = .Struct →
      fieldTarget v = zero elem ∧ ∃ t, (derefLoop v).1 = .ptr t ∧ nilElem (.ptr t) = none
  | .nilPtr e, elem => by
    intro h hk
    simp only [nilElem, Option.some.injEq] at h
    subst h
    obtain ⟨tf, rfl⟩ := zero_struct e hk
    rw [derefLoop_nilPtr_struct]
    refine ⟨by simp [fieldTarget, derefLoop_nilPtr_struct, derefN, Value.Elem, zero],
      _, rfl, rfl⟩
  | .ptr t, elem => by
    intro h hk
    simp only [nilElem] at h
    obtain ⟨h1, t1, h2, h3⟩ := fieldTarget_of_nilElem t elem h hk
    rw [fieldTarget_ptr, derefLoop_ptr]
    refine ⟨h1, _, rfl, ?_⟩
    rw [h2]
    exact h3
  | .invalid, _ => by intro h; simp [nilElem] at h
  | .str _, _ => by intro h; simp [nilElem] at h
  | .int _ _, _ => by intro h; simp [nilElem] at h
  | .uint _ _, _ => by intro h; simp [nilElem] at h
  | .bool _, _ => by intro h; simp [nilElem] at h
  | .float _ _, _ => by intro h; simp [nilElem] at h
  | .struct _, _ => by intro h; simp [nilElem] at h
  | .other _ _, _ => by intro h; simp [nilElem] at h

theorem nilStructPtr_of_nilElem :
    ∀ (v : Value) (elem : Ty), nilElem v = some elem →
      nilStructPtr v = decide (elem.Kind = .Struct)
  | .nilPtr e, elem => by
    intro h
    simp only [nilElem, Option.some.injEq] at h
    subst h
    rfl
  | .ptr t, elem => by
    intro h
    simp only [nilElem] at h
    simp only [nilStructPtr]
    exact nilStructPtr_of_nilElem t elem h
  | .invalid, _ => by intro h; simp [nilElem] at h
  | .str _, _ => by intro h; simp [nilElem] at h
  | .int _ _, _ => by intro h; simp [nilElem] at h
  | .uint _ _, _ => by intro h; simp [nilElem] at h
  | .bool _, _ => by intro h; simp [nilElem] at h
  | .float _ _, _ => by intro h; simp [nilElem] at h
  | .struct _, _ => by intro h; simp [nilElem] at h
  | .other _ _, _ => by intro h; simp [nilElem] at h

theorem fieldTarget_of_nilElem_other :
    ∀ (v : Value) (elem : Ty), nilElem v = some elem → elem.Kind ≠ .Struct →
      fieldTarget v = .nilPtr elem
  | .nilPtr e, elem => by
    intro h hk
    simp only [nilElem, Option.some.injEq] at h
    subst h
    exact (fieldTarget_of_stable _ (derefLoop_nilPtr_other e hk)).1
  | .ptr t, elem => by
    intro h hk
    simp only [nilElem] at h
    rw [fieldTarget_ptr]
    exact fieldTarget_of_nilElem_other t elem h hk
  | .invalid, _ => by intro h; simp [nilElem] at h
  | .str _, _ => by intro h; simp [nilElem] at h
  | .int _ _, _ => by intro h; simp [nilElem] at h
  | .uint _ _, _ => by intro h; simp [nilElem] at h
  | .bool _, _ => by intro h; simp [nilElem] at h
  | .float _ _, _ => by intro h; simp [nilElem] at h
  | .struct _, _ => by intro h; simp [nilElem] at h
  | .other _ _, _ => by intro h; simp [nilElem] at h

/-- C14 as stated fails for two levels of pointer: the settable field
`PP **struct{}` is nil, `CollectFieldInfo` leaves it nil (the element type of the
pointer is a pointer, not a struct, and the loop breaks), and the descriptor of
the field refers to the nil pointer itself, not to a record. -/
theorem C14_counterexample :
    CollectFieldInfo (recordOf [exNilPtrPtr]) =
      (recordOf [exNilPtrPtr], [⟨"PP", "", "PP", ⟨0, 0⟩, ⟨[]⟩⟩], none) ∧
    exNilPtrPtr.Val = .nilPtr (.ptr (.struct .nil)) ∧
    getRef (fieldsOf (CollectFieldInfo (recordOf [exNilPtrPtr])).1) ⟨0, 0⟩ =
      .nilPtr (.ptr (.struct .nil)) := by
  decide

/-- C14, amended: for every settable field that is a nil pointer to a record, or
leads through non-nil pointers to a nil pointer to a record (`nilElem` gives the
record type), `CollectFieldInfo` allocates a new empty record and binds the nil
pointer to it: after the call the field is a non-nil pointer that leads to no nil
pointer, and the descriptor of the field refers to the zero value of the record
type, a record whose fields are all zero. A nil pointer whose element type is not
a record (a nil `**T`) is left nil: the field is after the call as it was before,
and the descriptor of the field refers to the nil pointer. -/
theorem C14_nil_record_pointer (pre post : List StructField) (f : StructField) (elem : Ty)
    (hexp : f.Exported = true) (hnil : nilElem f.Val = some elem) :
    (elem.Kind = .Struct →
      (∃ t, (fieldsOf (CollectFieldInfo (recordOf (pre ++ f :: post))).1)[pre.length]? =
          some ⟨f.Name, f.Tag, f.Exported, .ptr t⟩ ∧ nilElem (.ptr t) = none) ∧
      (∃ info ∈ (CollectFieldInfo (recordOf (pre ++ f :: post))).2.1,
        info.Name = f.Name ∧ info.Field.index = pre.length ∧
        getRef (fieldsOf (CollectFieldInfo (recordOf (pre ++ f :: post))).1) info.Field =
          zero elem) ∧
      (∃ tf, elem = .struct tf ∧ zero elem = .struct (zeroFields tf))) ∧
    (elem.Kind ≠ .Struct →
      (fieldsOf (CollectFieldInfo (recordOf (pre ++ f :: post))).1)[pre.length]? = some f ∧
      (∃ info ∈ (CollectFieldInfo (recordOf (pre ++ f :: post))).2.1,
        info.Name = f.Name ∧ info.Field.index = pre.length ∧
        getRef (fieldsOf (CollectFieldInfo (recordOf (pre ++ f :: post))).1) info.Field =
          .nilPtr elem)) := by
  rw [CollectFieldInfo_recordOf, fieldsOf_recordOf]
  have hpos : ((pre ++ f :: post).map materialize)[pre.length]? = some (materialize f) := by
    rw [List.map_append, List.map_cons]
    exact getElem?_length_append _ _ _ _ (by simp)
  constructor
  · intro hk
    obtain ⟨h1, t, h2, h3⟩ := fieldTarget_of_nilElem f.Val elem hnil hk
    refine ⟨⟨t, ?_, h3⟩, ?_, ?_⟩
    · rw [hpos, materialize_exported f hexp, h2]
    · refine ⟨_, collectLoop_mem_at 0 pre post f hexp, rfl, by simp, ?_⟩
      have := getRef_materialize pre post f hexp
      simp only [Nat.zero_add]
      rw [this, h1]
    · obtain ⟨tf, rfl⟩ := zero_struct elem hk
      exact ⟨tf, rfl, by simp [zero]⟩
  · intro hk
    refine ⟨?_, _, collectLoop_mem_at 0 pre post f hexp, rfl, by simp, ?_⟩
    · rw [hpos]
      have hn : nilStructPtr f.Val = false := by
        rw [nilStructPtr_of_nilElem f.Val elem hnil]
        exact decide_eq_false hk
      rw [materialize_of_not_nilStructPtr f hn]
    · have := getRef_materialize pre post f hexp
      simp only [Nat.zero_add]
      rw [this, fieldTarget_of_nilElem_other f.Val elem hnil hk]

/-- Witness of C14 (amended): the settable nil field `Sub *struct{}` in
`struct { Debug bool; Sub *struct{} }`, which is allocated, and the settable nil
field `PP **struct{}` in `struct { Debug bool; PP **struct{} }`, which is left
nil. -/
theorem C14_nil_record_pointer_witness :
    (nilElem exSub.Val = some (.struct .nil) ∧
      ∃ t, (fieldsOf (CollectFieldInfo (recordOf ([exDebug false] ++ exSub :: []))).1)[1]? =
        some ⟨"Sub", ⟨[]⟩, true, .ptr t⟩ ∧ nilElem (.ptr t) = none) ∧
    (nilElem exNilPtrPtr.Val = some (.ptr (.struct .nil)) ∧
      (fieldsOf (CollectFieldInfo (recordOf ([exDebug false] ++ exNilPtrPtr :: []))).1)[1]? =
        some exNilPtrPtr) :=
  ⟨⟨rfl, ((C14_nil_record_pointer [exDebug false] [] exSub (.struct .nil) rfl rfl).1 rfl).1⟩,
    ⟨rfl, ((C14_nil_record_pointer [exDebug false] [] exNilPtrPtr (.ptr (.struct .nil))
      rfl rfl).2 (by decide)).1⟩⟩

/-! ### What CollectFieldInfo changes (C15) -/

theorem derefLoop_fst_eq_allocNil : ∀ v : Value, (derefLoop v).1 = allocNil v
  | .nilPtr elem => by
    by_cases hk : elem.Kind = .Struct
    · simp [derefLoop, allocNil, hk]
    · simp [derefLoop, allocNil, hk]
  | .ptr t => by
    rw [derefLoop_ptr]
    simp only [allocNil, derefLoop_fst_eq_allocNil t]
  | .invalid => rfl
  | .str _ => rfl
  | .int _ _ => rfl
  | .uint _ _ => rfl
  | .bool _ => rfl
  | .float _ _ => rfl
  | .struct _ => rfl
  | .other _ _ => rfl

theorem allocNil_eq_self_iff : ∀ v : Value, allocNil v = v ↔ nilStructPtr v = false
  | .nilPtr elem => by
    by_cases hk : elem.Kind = .Struct
    · simp [allocNil, nilStructPtr, hk]
    · simp [allocNil, nilStructPtr, hk]
  | .ptr t => by
    simp only [allocNil, nilStructPtr, Value.ptr.injEq]
    exact allocNil_eq_self_iff t
  | .invalid => by simp [allocNil, nilStructPtr]
  | .str _ => by simp [allocNil, nilStructPtr]
  | .int _ _ => by simp [allocNil, nilStructPtr]
  | .uint _ _ => by simp [allocNil, nilStructPtr]
  | .bool _ => by simp [allocNil, nilStructPtr]
  | .float _ _ => by simp [allocNil, nilStructPtr]
  | .struct _ => by simp [allocNil, nilStructPtr]
  | .other _ _ => by simp [allocNil, nilStructPtr]

theorem nilStructPtr_of_not_ptr (v : Value) (h : v.Kind ≠ .Ptr) : nilStructPtr v = false := by
  cases v <;> first | rfl | exact absurd rfl h

/-- C15 as stated fails for a non-nil pointer whose target is a nil pointer to a
record: the settable field `Q **struct{}` is not nil, and after
`CollectFieldInfo` its target is no longer the nil pointer it was. -/
theorem C15_counterexample :
    exPtrNil.Val = .ptr (.nilPtr (.struct .nil)) ∧
    (CollectFieldInfo (recordOf [exPtrNil])).1 =
      recordOf [⟨"Q", ⟨[]⟩, true, .ptr (.ptr (.struct .nil))⟩] ∧
    (fieldsOf (CollectFieldInfo (recordOf [exPtrNil])).1)[0]? ≠ some exPtrNil := by
  decide

/-- C15, amended: `CollectFieldInfo` changes the record only by replacing nil
pointers to records with pointers to new empty records. After the call the
record has the same fields, with the same names, tags and settability; a field
that is not settable has the value it had; a settable field has the value it had
with the nil pointer to a record that it is, or leads to through non-nil
pointers, replaced by a pointer to the zero record (`allocNil`). So every field
that neither is nor leads to a nil pointer to a record (`nilStructPtr` false),
every value that is not a pointer among them, has the same value after the call
as before it. -/
theorem C15_collect_frame (fields : Fields) :
    (CollectFieldInfo (.ptr (.struct fields))).1 =
      recordOf (fields.toList.map (fun f =>
        (⟨f.Name, f.Tag, f.Exported, if f.Exported then allocNil f.Val else f.Val⟩ :
          StructField))) ∧
    (∀ v : Value, allocNil v = v ↔ nilStructPtr v = false) ∧
    (∀ v : Value, v.Kind ≠ .Ptr → allocNil v = v) ∧
    (∀ (k : Nat) (f : StructField), fields.toList[k]? = some f →
      (f.Exported = false ∨ nilStructPtr f.Val = false) →
      (fieldsOf (CollectFieldInfo (.ptr (.struct fields))).1)[k]? = some f) := by
  have hmat : ∀ f : StructField, materialize f =
      ⟨f.Name, f.Tag, f.Exported, if f.Exported then allocNil f.Val else f.Val⟩ := by
    intro f
    obtain ⟨n, t, e, v⟩ := f
    cases e with
    | false => rfl
    | true => simp [materialize, derefLoop_fst_eq_allocNil]
  have hrec : (CollectFieldInfo (.ptr (.struct fields))).1 =
      recordOf (fields.toList.map materialize) := by
    rw [CollectFieldInfo_struct]
    rfl
  refine ⟨?_, allocNil_eq_self_iff, ?_, ?_⟩
  · rw [hrec]
    congr 1
    exact List.map_congr_left (fun f _ => hmat f)
  · intro v hv
    exact (allocNil_eq_self_iff v).2 (nilStructPtr_of_not_ptr v hv)
  · intro k f hk hf
    rw [hrec, fieldsOf_recordOf, List.getElem?_map, hk, Option.map_some']
    congr 1
    rcases hf with h | h
    · exact materialize_unexported f h
    · exact materialize_of_not_nilStructPtr f h

/-! ### Missing and empty variables (C4) -/

/-- C4 as stated fails: the key `SUB` of the settable field `Sub *struct{}` is
not set, the call returns nil, and the field, nil before the call, is a pointer
to a new record after it. -/
theorem C4_counterexample :
    envEmpty (keyName exSub) = none ∧
    PopulateFromEnv noFloat envEmpty (recordOf [exSub]) =
      (recordOf [⟨"Sub", ⟨[]⟩, true, .ptr (.struct .nil)⟩], none) ∧
    (fieldsOf (PopulateFromEnv noFloat envEmpty (recordOf [exSub])).1)[0]? ≠ some exSub := by
  decide

/-- C4, amended: a field whose key is not set in the environment, or set to the
empty string, is after `PopulateFromEnv` as `CollectFieldInfo` left it
(`materialize`). That is as before the call, unless the field is settable and is,
or leads through non-nil pointers to, a nil pointer to a record (`nilStructPtr`);
in that field the nil pointer is replaced by a pointer to a new empty record and
nothing else (`allocNil`), so its value differs from the one before the call. The
field contributes no error: the call returns what it returns on the record
without this field, and nil on the record made of this field alone (a boolean
field annotated `DEBUG`, with `DEBUG` not set, keeps its value). -/
theorem C4_missing_or_empty (ParseFloat : String → Nat → Option Nat) (env : Env)
    (fields : Fields) (pre post : List StructField) (f : StructField)
    (hsplit : fields.toList = pre ++ f :: post)
    (hkey : env (keyName f) = none ∨ env (keyName f) = some "") :
    (∃ pre1 post1, fieldsOf (PopulateFromEnv ParseFloat env (.ptr (.struct fields))).1 =
      pre1 ++ materialize f :: post1 ∧ pre1.length = pre.length) ∧
    ((f.Exported = false ∨ nilStructPtr f.Val = false) → materialize f = f) ∧
    (f.Exported = true → nilStructPtr f.Val = true →
      materialize f = ⟨f.Name, f.Tag, f.Exported, allocNil f.Val⟩ ∧ allocNil f.Val ≠ f.Val) ∧
    (PopulateFromEnv ParseFloat env (.ptr (.struct fields))).2 =
      (PopulateFromEnv ParseFloat env (recordOf (pre ++ post))).2 ∧
    (pre = [] → post = [] →
      PopulateFromEnv ParseFloat env (.ptr (.struct fields)) = (recordOf [materialize f], none)) := by
  obtain ⟨h1, pre1, post1, h2, h3⟩ := populateFields_skip ParseFloat env pre post f hkey
  refine ⟨⟨pre1, post1, ?_, h3⟩, ?_, ?_, ?_, ?_⟩
  · rw [PopulateFromEnv_fields, hsplit, fieldsOf_recordOf, h2]
  · rintro (h | h)
    · exact materialize_unexported f h
    · exact materialize_of_not_nilStructPtr f h
  · intro hexp hn
    refine ⟨?_, ?_⟩
    · rw [materialize_exported f hexp, derefLoop_fst_eq_allocNil]
    · intro he
      rw [(allocNil_eq_self_iff f.Val).1 he] at hn
      exact absurd hn (by decide)
  · rw [PopulateFromEnv_fields, PopulateFromEnv_recordOf, hsplit, h1]
  · intro hp hq
    subst hp hq
    have hf : processField ParseFloat env f = (materialize f, none) := by
      cases hexp : f.Exported with
      | false =>
        rw [processField_unexported ParseFloat env f hexp, materialize_unexported f hexp]
      | true => exact processField_skip ParseFloat env f hexp ((fieldValue_none env f).2 hkey)
    rw [PopulateFromEnv_fields, hsplit, List.nil_append,
      populateFields_cons_ok ParseFloat env f [] (by rw [hf]), hf]
    rfl

/-- Witness of C4 (amended): `DEBUG` not set, on `struct { Debug bool "tenv:DEBUG" }`
with `Debug` false: the call returns nil and `Debug` is still false; and `Q` not
set, on `struct { Q **struct{} }` with `Q` a non-nil pointer to a nil pointer:
after the call the nil pointer is a pointer to a new record. -/
theorem C4_missing_or_empty_witness :
    (envEmpty (keyName (exDebug false)) = none ∧
      PopulateFromEnv noFloat envEmpty (.ptr (.struct (Fields.ofList [exDebug false]))) =
        (recordOf [materialize (exDebug false)], none) ∧
      materialize (exDebug false) = exDebug false) ∧
    (envEmpty (keyName exPtrNil) = none ∧
      PopulateFromEnv noFloat envEmpty (.ptr (.struct (Fields.ofList [exPtrNil]))) =
        (recordOf [materialize exPtrNil], none) ∧
      materialize exPtrNil = ⟨"Q", ⟨[]⟩, true, .ptr (.ptr (.struct .nil))⟩) :=
  ⟨⟨rfl,
    (C4_missing_or_empty noFloat envEmpty (Fields.ofList [exDebug false]) [] [] (exDebug false)
      (by decide) (Or.inl rfl)).2.2.2.2 rfl rfl,
    by decide⟩,
   ⟨rfl,
    (C4_missing_or_empty noFloat envEmpty (Fields.ofList [exPtrNil]) [] [] exPtrNil
      (by decide) (Or.inl rfl)).2.2.2.2 rfl rfl,
    by decide⟩⟩

/-! ### Keys and lookups (C16, C17, C18) -/

theorem keyName_upper (f : StructField) : ToUpper (keyName f) = keyName f :=
  ToUpper_ToUpper _

theorem altName_upper (f : StructField) : ToUpper (altName f) = altName f :=
  ToUpper_ToUpper _

/-- C16: for every descriptor returned by `CollectFieldInfo`, `Key` is not empty
and is upper-case, whatever the tag of the field and whatever its name, a name
being a Go identifier and so not empty: upper-casing `Key` returns `Key`
unchanged, no character of `Key` has an upper-case form other than itself, and
none is one of the letters `a`..`z`. -/
theorem C16_key_upper_nonempty (spec : Value) (info : EnvVarInfo)
    (h : info ∈ (CollectFieldInfo spec).2.1) (hname : info.Name ≠ "") :
    info.Key ≠ "" ∧ ToUpper info.Key = info.Key ∧
    ∀ c ∈ info.Key.data, unicodeToUpper c = c ∧ c.isLower = false := by
  by_cases hs : ∃ fields, spec = .ptr (.struct fields)
  · obtain ⟨fields, rfl⟩ := hs
    rw [CollectFieldInfo_struct] at h
    obtain ⟨f, -, -, hn, -, halt, hkey⟩ := collectLoop_mem 0 _ info h
    rw [hkey]
    refine ⟨?_, keyName_upper f, ?_⟩
    · unfold keyName
      intro h0
      have h1 := (ToUpper_eq_empty _).1 h0
      by_cases ha : altName f ≠ ""
      · rw [if_pos ha] at h1
        exact ha h1
      · rw [if_neg ha] at h1
        exact hname (by rw [hn, h1])
    · intro c hc
      have hfix : unicodeToUpper c = c := ToUpper_data_fixed _ c hc
      exact ⟨hfix, isLower_false_of_fixed c hfix⟩
  · rw [CollectFieldInfo_invalid spec hs] at h
    simp at h

/-- Witness of C16: the descriptor of `LogLevel` in
`struct { Host string; LogLevel string "tenv:log_level" }`, and the descriptor of
`Cafe` in `struct { Cafe string "tenv:café" }`, whose key is `CAFÉ`. -/
theorem C16_key_upper_nonempty_witness :
    (("LOG_LEVEL" : String) ≠ "" ∧ ToUpper "LOG_LEVEL" = "LOG_LEVEL" ∧
      ∀ c ∈ ("LOG_LEVEL" : String).data, unicodeToUpper c = c ∧ c.isLower = false) ∧
    (CollectFieldInfo (recordOf [exCafe])).2.1 =
        [⟨"Cafe", "CAFÉ", "CAFÉ", ⟨0, 0⟩, ⟨[("tenv", "café")]⟩⟩] ∧
    (("CAFÉ" : String) ≠ "" ∧ ToUpper "CAFÉ" = "CAFÉ" ∧
      ∀ c ∈ ("CAFÉ" : String).data, unicodeToUpper c = c ∧ c.isLower = false) :=
  ⟨C16_key_upper_nonempty exKeys
      ⟨"LogLevel", "LOG_LEVEL", "LOG_LEVEL", ⟨1, 0⟩, ⟨[("tenv", "log_level")]⟩⟩
      (by decide) (by decide),
    by decide!,
    C16_key_upper_nonempty (recordOf [exCafe])
      ⟨"Cafe", "CAFÉ", "CAFÉ", ⟨0, 0⟩, ⟨[("tenv", "café")]⟩⟩ (by decide!) (by decide)⟩

theorem lookupValue_eq_lookupKey (env : Env) (key alt : String) (h : alt ≠ "" → key = alt) :
    lookupValue env key alt = lookupKey env key := by
  unfold lookupValue lookupKey LookupEnv
  by_cases ha : alt = ""
  · cases hk : env key <;> simp [ha]
  · rw [h ha]
    cases hk : env alt <;> simp [ha]

theorem populateLoop_eq_single (PF : String → Nat → Option Nat) (env : Env)
    (infos : List EnvVarInfo) (fs : List StructField)
    (h : ∀ info ∈ infos, info.Alt ≠ "" → info.Key = info.Alt) :
    populateLoop PF env infos fs = populateLoopSingle PF env infos fs := by
  induction infos generalizing fs with
  | nil => rfl
  | cons info rest ih =>
    have ih1 := fun fs1 => ih fs1 (fun i hi => h i (List.mem_cons_of_mem _ hi))
    simp only [populateLoop, populateLoopSingle,
      lookupValue_eq_lookupKey env info.Key info.Alt (h info (List.mem_cons_self _ _)), ih1]

/-- C18: the fallback lookup in `PopulateFromEnv` is redundant. Upper-casing a
string that is already upper-cased returns it unchanged (for `strings.ToUpper`
over all of Unicode), so for every descriptor returned by `CollectFieldInfo` with
a non-empty `Alt`, `Key` equals `Alt`; and `PopulateFromEnv` returns, for every
argument and environment, the same error and the same final record as the
variant `PopulateFromEnvSingle`, which looks up `Key` only. -/
theorem C18_fallback_redundant :
    (∀ s : String, ToUpper (ToUpper s) = ToUpper s) ∧
    (∀ (spec : Value) (info : EnvVarInfo), info ∈ (CollectFieldInfo spec).2.1 →
      info.Alt ≠ "" → info.Key = info.Alt) ∧
    (∀ (ParseFloat : String → Nat → Option Nat) (env : Env) (spec : Value),
      PopulateFromEnv ParseFloat env spec = PopulateFromEnvSingle ParseFloat env spec) := by
  have hkey : ∀ (spec : Value) (info : EnvVarInfo), info ∈ (CollectFieldInfo spec).2.1 →
      info.Alt ≠ "" → info.Key = info.Alt := by
    intro spec info h hne
    by_cases hs : ∃ fields, spec = .ptr (.struct fields)
    · obtain ⟨fields, rfl⟩ := hs
      rw [CollectFieldInfo_struct] at h
      obtain ⟨f, -, -, -, -, halt, hk⟩ := collectLoop_mem 0 _ info h
      rw [hk, halt]
      exact keyName_of_alt f (by rw [← halt]; exact hne)
    · rw [CollectFieldInfo_invalid spec hs] at h
      simp at h
  refine ⟨ToUpper_ToUpper, hkey, ?_⟩
  intro PF env spec
  by_cases hs : ∃ fields, spec = .ptr (.struct fields)
  · obtain ⟨fields, rfl⟩ := hs
    have hk := hkey (.ptr (.struct fields))
    rw [CollectFieldInfo_struct] at hk
    simp only [PopulateFromEnv, PopulateFromEnvSingle, CollectFieldInfo_struct,
      populateLoop_eq_single PF env _ _ hk]
  · simp only [PopulateFromEnv, PopulateFromEnvSingle, CollectFieldInfo_invalid spec hs]

/-! ### Pointers to scalars and nested records (C19, C20) -/

theorem processField_noop (PF : String → Nat → Option Nat) (env : Env) (f : StructField)
    (hexp : f.Exported = true)
    (hc : ∀ value, ConvertAndSetField PF value (fieldTarget f.Val) = (fieldTarget f.Val, none)) :
    ¬ FailsAt PF env f ∧ (processField PF env f).1 = materialize f := by
  constructor
  · rintro ⟨-, value, -, -, hfail⟩
    rw [hc value] at hfail
    exact hfail rfl
  · cases hfv : fieldValue env f with
    | none => rw [processField_skip PF env f hexp hfv]
    | some value =>
      rw [processField_convert PF env f value hexp hfv, hc value,
        materialize_exported f hexp, mapTarget_fieldTarget]

theorem populated_at (PF : String → Nat → Option Nat) (env : Env)
    (pre post : List StructField) (f x : StructField)
    (h1 : (processField PF env f).1 = x)
    (h2 : materialize f = x ∨ ∀ p ∈ pre, ¬ FailsAt PF env p) :
    (fieldsOf (PopulateFromEnv PF env (recordOf (pre ++ f :: post))).1)[pre.length]? = some x := by
  obtain ⟨pre1, post1, y, hy1, hy2, hy3, hy4⟩ := populateFields_at PF env pre post f
  rw [PopulateFromEnv_recordOf, fieldsOf_recordOf, hy1]
  have hyx : y = x := by
    rcases h2 with h | h
    · rcases hy3 with h3 | h3
      · rw [h3, h1]
      · rw [h3, h]
    · rw [hy4 h, h1]
  rw [hyx]
  exact getElem?_length_append _ _ _ _ hy2

/-- C19: a settable pointer to a supported scalar is treated differently when it
is nil and when it is not. With a present, non-empty value under the key of the
field: if the pointer is not nil and no field before it fails, the field is after
the call the pointer to what `ConvertAndSetField` makes of its target, and when
the conversion fails the call returns the error of this field and the target is
as before; if the pointer is nil, the field is nil after the call and causes no
error, whatever the value. -/
theorem C19_pointer_to_scalar (ParseFloat : String → Nat → Option Nat) (env : Env)
    (pre post : List StructField) (name : String) (tag : StructTag) (value : String)
    (hne : value ≠ "") :
    (∀ t : Value,
      (t.Kind = .String ∨ t.Kind = .Int ∨ t.Kind = .Uint ∨ t.Kind = .Bool ∨ t.Kind = .Float) →
      env (keyName ⟨name, tag, true, .ptr t⟩) = some value →
      (∀ p ∈ pre, ¬ FailsAt ParseFloat env p) →
      (fieldsOf (PopulateFromEnv ParseFloat env
        (recordOf (pre ++ ⟨name, tag, true, .ptr t⟩ :: post))).1)[pre.length]? =
          some ⟨name, tag, true, .ptr (ConvertAndSetField ParseFloat value t).1⟩ ∧
      (∀ err, (ConvertAndSetField ParseFloat value t).2 = some err →
        (PopulateFromEnv ParseFloat env
          (recordOf (pre ++ ⟨name, tag, true, .ptr t⟩ :: post))).2 =
            some (fieldError name err) ∧
        (ConvertAndSetField ParseFloat value t).1 = t)) ∧
    (∀ elem : Ty,
      (elem.Kind = .String ∨ elem.Kind = .Int ∨ elem.Kind = .Uint ∨ elem.Kind = .Bool ∨
        elem.Kind = .Float) →
      env (keyName ⟨name, tag, true, .nilPtr elem⟩) = some value →
      (fieldsOf (PopulateFromEnv ParseFloat env
        (recordOf (pre ++ ⟨name, tag, true, .nilPtr elem⟩ :: post))).1)[pre.length]? =
          some ⟨name, tag, true, .nilPtr elem⟩ ∧
      ¬ FailsAt ParseFloat env ⟨name, tag, true, .nilPtr elem⟩ ∧
      (PopulateFromEnv ParseFloat env
        (recordOf (pre ++ ⟨name, tag, true, .nilPtr elem⟩ :: post))).2 =
          (PopulateFromEnv ParseFloat env (recordOf (pre ++ post))).2) := by
  constructor
  · intro t ht hv1 hpre
    have hnp : t.Kind ≠ .Ptr := by
      rcases ht with h | h | h | h | h <;> rw [h] <;> decide
    obtain ⟨e1, e2⟩ := fieldTarget_scalar t hnp
    have hft : fieldTarget (.ptr t) = t := by rw [fieldTarget_ptr, e1]
    have hproc : (processField ParseFloat env ⟨name, tag, true, .ptr t⟩).1 =
        ⟨name, tag, true, .ptr (ConvertAndSetField ParseFloat value t).1⟩ := by
      rw [processField_convert ParseFloat env _ value rfl
        ((fieldValue_some env _ value).2 ⟨hv1, hne⟩)]
      simp only [hft, mapTarget_ptr, e2]
    refine ⟨populated_at ParseFloat env pre post _ _ hproc (Or.inr hpre), ?_⟩
    intro err herr
    have hc : (ConvertAndSetField ParseFloat value
        (fieldTarget (StructField.mk name tag true (.ptr t)).Val)).2 = some err := by
      show (ConvertAndSetField ParseFloat value (fieldTarget (.ptr t))).2 = some err
      rw [hft]; exact herr
    rw [PopulateFromEnv_recordOf,
      populateFields_first_fail ParseFloat env pre post _ value err hpre rfl hv1 hne hc]
    exact ⟨rfl, ConvertAndSetField_err ParseFloat value t (by rw [herr]; simp)⟩
  · intro elem he _
    have hns : elem.Kind ≠ .Struct := by
      rcases he with h | h | h | h | h <;> rw [h] <;> decide
    have hft : fieldTarget (.nilPtr elem) = .nilPtr elem :=
      (fieldTarget_of_stable _ (derefLoop_nilPtr_other elem hns)).1
    have hnoop := processField_noop ParseFloat env ⟨name, tag, true, .nilPtr elem⟩ rfl
      (by
        intro value1
        show ConvertAndSetField ParseFloat value1 (fieldTarget (.nilPtr elem)) = _
        rw [hft]
        rfl)
    have hmat : materialize ⟨name, tag, true, .nilPtr elem⟩ = ⟨name, tag, true, .nilPtr elem⟩ :=
      materialize_of_not_nilStructPtr _ (by simp [nilStructPtr, hns])
    refine ⟨populated_at ParseFloat env pre post _ _ (by rw [hnoop.2, hmat]) (Or.inl hmat),
      hnoop.1, ?_⟩
    rw [PopulateFromEnv_recordOf, PopulateFromEnv_recordOf,
      populateFields_remove ParseFloat env pre post _ hnoop.1]

/-- Witness of C19: with `P=42`, the non-nil `P *int` points to 42 after the
call; with `P=abc`, the nil `P *int` stays nil and the call returns nil. -/
theorem C19_pointer_to_scalar_witness :
    (fieldsOf (PopulateFromEnv noFloat envNested (recordOf [exIntPtr])).1)[0]? =
      some ⟨"P", ⟨[]⟩, true, .ptr (.int 64 42)⟩ ∧
    PopulateFromEnv noFloat envPAbc (recordOf [⟨"P", ⟨[]⟩, true, .nilPtr (.int 64)⟩]) =
      (recordOf [⟨"P", ⟨[]⟩, true, .nilPtr (.int 64)⟩], none) :=
  ⟨((C19_pointer_to_scalar noFloat envNested [] [] "P" ⟨[]⟩ "42" (by decide)).1
      (.int 64 0) (Or.inr (Or.inl rfl)) (by decide) (by simp)).1,
    by decide⟩

/-- C20: `PopulateFromEnv` never assigns a field of a nested record. For a
settable field whose descriptor refers to a record (the field is a record, or a
pointer to a record, nil or not) and every environment, the field is after the
call as `CollectFieldInfo` left it: unchanged, the nested record with it, when
the record already existed, and with a nested record whose fields are all zero
when the record was allocated for a nil pointer. -/
theorem C20_nested_record_untouched (ParseFloat : String → Nat → Option Nat) (env : Env)
    (pre post : List StructField) (f : StructField) (hexp : f.Exported = true)
    (hk : (fieldTarget f.Val).Kind = .Struct) :
    (fieldsOf (PopulateFromEnv ParseFloat env (recordOf (pre ++ f :: post))).1)[pre.length]? =
      some (materialize f) ∧
    ¬ FailsAt ParseFloat env f ∧
    (nilStructPtr f.Val = false → materialize f = f) ∧
    (∀ elem, nilElem f.Val = some elem →
      ∃ tf, elem = .struct tf ∧ fieldTarget (materialize f).Val = .struct (zeroFields tf)) := by
  have hnoop := processField_noop ParseFloat env f hexp
    (fun value => ConvertAndSetField_struct ParseFloat value _ hk)
  refine ⟨populated_at ParseFloat env pre post f _ hnoop.2 (Or.inl rfl), hnoop.1,
    materialize_of_not_nilStructPtr f, ?_⟩
  intro elem hnil
  have hks : elem.Kind = .Struct := by
    by_contra hns
    rw [fieldTarget_of_nilElem_other f.Val elem hnil hns] at hk
    simp [Value.Kind] at hk
  obtain ⟨tf, rfl⟩ := zero_struct elem hks
  obtain ⟨h1, -⟩ := fieldTarget_of_nilElem f.Val _ hnil hks
  refine ⟨tf, rfl, ?_⟩
  rw [materialize_exported f hexp]
  show fieldTarget (derefLoop f.Val).1 = _
  have : fieldTarget (derefLoop f.Val).1 = fieldTarget f.Val := by
    simp only [fieldTarget, derefLoop_idem]
  rw [this, h1]
  simp [zero]

/-- Witness of C20: with `X=new` and `SUB=new` set, the nested record of
`Sub *struct { X string "tenv:X" }` keeps `X = old`, and the record allocated for
the nil `Sub *struct{}` is the empty record. -/
theorem C20_nested_record_untouched_witness :
    (fieldsOf (PopulateFromEnv noFloat envNested (recordOf ([] ++ exNested :: []))).1)[0]? =
      some (materialize exNested) ∧
    materialize exNested = exNested ∧
    PopulateFromEnv noFloat envNested (recordOf [exSub]) =
      (recordOf [⟨"Sub", ⟨[]⟩, true, .ptr (.struct .nil)⟩], none) :=
  ⟨(C20_nested_record_untouched noFloat envNested [] [] exNested rfl rfl).1,
    (C20_nested_record_untouched noFloat envNested [] [] exNested rfl rfl).2.2.1 rfl,
    by decide⟩

end Tenv
